import Mathlib

/-!
Mosh datagram transport: packet codec and connection state machine.

A shallow embedding of `src/network/network.cc`.  Machine integers are natural
numbers reduced explicitly modulo `2^16` or `2^64`; C++ exceptions are values of
`Except`; a `std::string` is a list of bytes.  The AEAD `Session`, the frozen
millisecond clock and the results of the socket calls are inputs of the model.
-/

namespace Network

/-- One `char` of a `std::string`, or one byte of a socket address. -/
abbrev Byte := Fin 256

/-- The enum `Direction` carried by every packet. -/
inductive Direction
  | TO_SERVER
  | TO_CLIENT
  deriving DecidableEq, Repr

/-- The exceptions the transport can raise while handling one datagram. -/
inductive Error
  | DecryptFailed
  | MalformedPacket
  | RecvFailed
  | OversizedDatagram
  | ResolutionFailed
  | SocketFailed
  | BindFailed
  | AssertionFailed
  deriving DecidableEq, Repr

/-- The class `Message` of the crypto layer: a 64-bit nonce and the plaintext. -/
structure Message where
  nonce : Nat
  text : List Byte
  deriving DecidableEq, Repr

/-- The external AEAD session.  `decrypt` throws on a datagram that does not
authenticate; `RECEIVE_MTU` is the static constant `Session::RECEIVE_MTU`. -/
structure Session where
  RECEIVE_MTU : Nat
  encrypt : Message → List Byte
  decrypt : List Byte → Except Error Message

/-- Modelled from the spec: the macro `dos_assert` of `dos_assert.h`, which is not
among the sources.  A failed check aborts the processing of the datagram with
`MalformedPacket`; a passed check does nothing. -/
def dos_assert (expr : Bool) : Except Error Unit :=
  if expr then Except.ok () else Except.error Error.MalformedPacket

/-- The constant `DIRECTION_MASK = uint64_t(1) << 63`. -/
def DIRECTION_MASK : Nat := (1 <<< 63) % 2 ^ 64

/-- The constant `SEQUENCE_MASK = uint64_t(-1) ^ DIRECTION_MASK`. -/
def SEQUENCE_MASK : Nat := (2 ^ 64 - 1) ^^^ DIRECTION_MASK

/-- The two bytes that `htobe16` leaves in memory for a `uint16_t` value. -/
def htobe16 (x : Nat) : List Byte :=
  [Fin.ofNat (x % 65536 / 256), Fin.ofNat (x % 65536)]

/-- The value `be16toh` reads from two consecutive bytes of memory. -/
def be16toh (b0 b1 : Byte) : Nat :=
  b0.val * 256 + b1.val

/-- The class `Packet`. -/
structure Packet where
  seq : Nat
  direction : Direction
  timestamp : Nat
  timestamp_reply : Nat
  payload : List Byte
  deriving DecidableEq, Repr

/-- The local `direction_seq` of `Packet::tostring`: the nonce of the datagram. -/
def Packet.direction_seq (p : Packet) : Nat :=
  (((if p.direction = Direction.TO_CLIENT then 1 else 0) <<< 63) % 2 ^ 64) |||
    (p.seq &&& SEQUENCE_MASK)

/-- The message `Packet::tostring` hands to `Session::encrypt`. -/
def Packet.message (p : Packet) : Message :=
  let timestamps := htobe16 p.timestamp ++ htobe16 p.timestamp_reply
  { nonce := p.direction_seq, text := timestamps ++ p.payload }

/-- The method `Packet::tostring`. -/
def Packet.tostring (p : Packet) (session : Session) : List Byte :=
  session.encrypt p.message

/-- The body of the constructor `Packet::Packet( string, Session * )` after the
call of `Session::decrypt`. -/
def Packet.ofMessage (message : Message) : Except Error Packet := do
  let direction :=
    if message.nonce &&& DIRECTION_MASK ≠ 0 then Direction.TO_CLIENT else Direction.TO_SERVER
  let seq := message.nonce &&& SEQUENCE_MASK
  dos_assert (decide (message.text.length ≥ 2 * 2))
  let timestamp := be16toh (message.text.getD 0 0) (message.text.getD 1 0)
  let timestamp_reply := be16toh (message.text.getD 2 0) (message.text.getD 3 0)
  let payload := message.text.drop (2 * 2)
  pure { seq := seq, direction := direction, timestamp := timestamp,
         timestamp_reply := timestamp_reply, payload := payload }

/-- The constructor `Packet::Packet( string coded_packet, Session *session )`. -/
def Packet.decode (coded_packet : List Byte) (session : Session) : Except Error Packet := do
  let message ← session.decrypt coded_packet
  Packet.ofMessage message

/-! ## Socket addresses -/

/-- The union `remote_addr` of `InternetAddress` (and a `sockaddr_storage` buffer):
a map from byte offsets to bytes. -/
abbrev Sockaddr := Nat → Byte

/-- The library call `memcpy( dest, src, n )` on such a buffer. -/
def memcpy (dest src : Sockaddr) (n : Nat) : Sockaddr :=
  fun i => if i < n then src i else dest i

/-- The field `ss_family`: a 16-bit host-order word at offset 0 (Linux layout,
little-endian host). -/
def ss_family (a : Sockaddr) : Nat := (a 0).val + 256 * (a 1).val

/-- The constant `AF_INET`. -/
def AF_INET : Nat := 2

/-- The fields `sin_port` and `sin6_port`: both occupy offsets 2 and 3. -/
def sin_port (a : Sockaddr) : List Byte := [a 2, a 3]

/-- The field `sin_addr.s_addr`: offsets 4 to 7. -/
def sin_addr (a : Sockaddr) : List Byte := [a 4, a 5, a 6, a 7]

/-- The field `sin6_addr`: offsets 8 to 23. -/
def sin6_addr (a : Sockaddr) : List Byte :=
  [a 8, a 9, a 10, a 11, a 12, a 13, a 14, a 15, a 16, a 17, a 18, a 19, a 20, a 21, a 22, a 23]

/-- The class `InternetAddress`. -/
structure InternetAddress where
  remote_addr : Sockaddr
  remote_addr_len : Nat

/-- The constructor `InternetAddress( struct sockaddr_storage *sa, int len )` for a
non-null `sa`; `uninit` is the indeterminate content of the new object, of which only
the first `len` bytes are overwritten. -/
def InternetAddress.ofStorage (uninit sa : Sockaddr) (len : Nat) : InternetAddress :=
  { remote_addr := memcpy uninit sa len, remote_addr_len := len }

/-- The method `InternetAddress::operator==`. -/
def InternetAddress.eq (a b : InternetAddress) : Bool :=
  if ss_family a.remote_addr ≠ ss_family b.remote_addr then
    false
  else if ss_family a.remote_addr = AF_INET then
    (sin_addr a.remote_addr == sin_addr b.remote_addr) &&
      (sin_port a.remote_addr == sin_port b.remote_addr)
  else
    (sin6_addr a.remote_addr == sin6_addr b.remote_addr) &&
      (sin_port a.remote_addr == sin_port b.remote_addr)

/-- The method `InternetAddress::operator!=`. -/
def InternetAddress.ne (a b : InternetAddress) : Bool :=
  !(a.eq b)

/-- The method `InternetAddress::operator=` for two distinct objects: only the first
`rhs.remote_addr_len` bytes are copied. -/
def InternetAddress.assign (self rhs : InternetAddress) : InternetAddress :=
  { remote_addr := memcpy self.remote_addr rhs.remote_addr rhs.remote_addr_len,
    remote_addr_len := rhs.remote_addr_len }

/-! ## 16-bit timestamps -/

/-- The function `Network::timestamp16`, on the value `t` of the frozen 64-bit
millisecond clock `timestamp()`. -/
def timestamp16 (t : Nat) : Nat :=
  let ts := t % 65536
  if ts = 65535 then (ts + 1) % 65536 else ts

/-- The function `Network::timestamp_diff`. -/
def timestamp_diff (tsnew tsold : Nat) : Nat :=
  let diff : Int := (tsnew : Int) - (tsold : Int)
  let diff := if diff < 0 then diff + 65536 else diff
  (diff % 65536).toNat

/-! ## Connection -/

/-- The data members of the class `Connection` that `send` and `recv` read or
write.  The doubles `SRTT` and `RTTVAR` are read as exact rationals. -/
structure Connection where
  has_remote_addr : Bool
  remote_addr : InternetAddress
  server : Bool
  session : Session
  direction : Direction
  next_seq : Nat
  saved_timestamp : Nat
  saved_timestamp_received_at : Nat
  expected_receiver_seq : Nat
  RTT_hit : Bool
  SRTT : ℚ
  RTTVAR : ℚ
  have_send_exception : Bool
  send_exception : Int

/-- The member initialisers of the server constructor
`Connection( const char *desired_ip, const char *desired_port )`; `remote_addr` is the
endpoint the bind phase of the constructor body leaves behind. -/
def Connection.new_server (session : Session) (remote_addr : InternetAddress) : Connection :=
  { has_remote_addr := false, remote_addr := remote_addr, server := true,
    session := session, direction := Direction.TO_CLIENT, next_seq := 0,
    saved_timestamp := 65535, saved_timestamp_received_at := 0,
    expected_receiver_seq := 0, RTT_hit := false, SRTT := 1000, RTTVAR := 500,
    have_send_exception := false, send_exception := 0 }

/-- The member initialisers of the client constructor
`Connection( const char *key_str, const char *ip, int port )`. -/
def Connection.new_client (session : Session) (remote_addr : InternetAddress) : Connection :=
  { has_remote_addr := true, remote_addr := remote_addr, server := false,
    session := session, direction := Direction.TO_SERVER, next_seq := 0,
    saved_timestamp := 65535, saved_timestamp_received_at := 0,
    expected_receiver_seq := 0, RTT_hit := false, SRTT := 1000, RTTVAR := 500,
    have_send_exception := false, send_exception := 0 }

/-- The method `Connection::new_packet`, with `now` the value of `timestamp()`.
The subtraction `now - saved_timestamp_received_at` is a `uint64_t` subtraction. -/
def Connection.new_packet (c : Connection) (s_payload : List Byte) (now : Nat) :
    Packet × Connection :=
  let held := (now + 2 ^ 64 - c.saved_timestamp_received_at) % 2 ^ 64
  let r : Nat × Connection :=
    if held < 1000 then
      ((c.saved_timestamp + held) % 65536,
       { c with saved_timestamp := 65535, saved_timestamp_received_at := 0 })
    else
      (65535, c)
  let outgoing_timestamp_reply := r.1
  let c1 := r.2
  ({ seq := c1.next_seq, direction := c1.direction, timestamp := timestamp16 now,
     timestamp_reply := outgoing_timestamp_reply, payload := s_payload },
   { c1 with next_seq := (c1.next_seq + 1) % 2 ^ 64 })

/-- The arguments `Connection::send` passes to `sendto`. -/
structure SendTo where
  data : List Byte
  dest_addr : Sockaddr
  addrlen : Nat

/-- The method `Connection::send`.  `bytes_sent` and `errno` are what the `sendto`
call returns; the result is `none` when `assert( has_remote_addr )` fails. -/
def Connection.send (c : Connection) (s : List Byte) (now : Nat) (bytes_sent errno : Int) :
    Option (SendTo × Connection) :=
  if c.has_remote_addr then
    let r := c.new_packet s now
    let px := r.1
    let c1 := r.2
    let p := px.tostring c1.session
    let call : SendTo :=
      { data := p, dest_addr := c1.remote_addr.remote_addr,
        addrlen := c1.remote_addr.remote_addr_len }
    if bytes_sent = (p.length : Int) then
      some (call, { c1 with have_send_exception := false })
    else
      some (call, { c1 with have_send_exception := true, send_exception := errno })
  else
    none

/-- What one `recvfrom` call leaves behind: its return value, the receive buffer, the
source address and its length, and `uninit`, the indeterminate initial content of the
local object `new_remote_addr`. -/
structure RecvFrom where
  received_len : Int
  buf : List Byte
  packet_remote_addr : Sockaddr
  addrlen : Nat
  uninit : Sockaddr

/-- The RTT update of `Connection::recv` (the block guarded by
`p.timestamp_reply != uint16_t(-1)`), with `now` the value of `timestamp()`, and with
`SRTT` and `RTTVAR` read as exact rationals; `RTT.update` is the same block in double
arithmetic. -/
def Connection.update_RTT (c : Connection) (p : Packet) (now : Nat) : Connection :=
  let now16 := timestamp16 now
  let R : ℚ := (timestamp_diff now16 p.timestamp_reply : ℚ)
  if R < 5000 then
    if !c.RTT_hit then
      { c with SRTT := R, RTTVAR := R / 2, RTT_hit := true }
    else
      let alpha : ℚ := 1 / 8
      let beta : ℚ := 1 / 4
      let RTTVAR1 := (1 - beta) * c.RTTVAR + beta * |c.SRTT - R|
      { c with RTTVAR := RTTVAR1, SRTT := (1 - alpha) * c.SRTT + alpha * R }
  else
    c

/-- The body of `if ( p.seq >= expected_receiver_seq )` in `Connection::recv`. -/
def Connection.accept (c : Connection) (p : Packet) (r : RecvFrom) (now : Nat) : Connection :=
  let c1 := { c with expected_receiver_seq := (p.seq + 1) % 2 ^ 64 }
  let c2 :=
    if p.timestamp ≠ 65535 then
      { c1 with saved_timestamp := p.timestamp, saved_timestamp_received_at := now }
    else c1
  let c3 := if p.timestamp_reply ≠ 65535 then c2.update_RTT p now else c2
  let c4 := { c3 with has_remote_addr := true }
  if c4.server then
    let new_remote_addr := InternetAddress.ofStorage r.uninit r.packet_remote_addr r.addrlen
    if new_remote_addr.ne c4.remote_addr then
      { c4 with remote_addr := c4.remote_addr.assign new_remote_addr }
    else c4
  else c4

/-- The method `Connection::recv` on the result `r` of its `recvfrom` call, with `now`
the value of `timestamp()`.  The first component is the returned payload or the
exception thrown, the second the state of the connection afterwards. -/
def Connection.recv (c : Connection) (r : RecvFrom) (now : Nat) :
    Except Error (List Byte) × Connection :=
  if r.received_len < 0 then
    (Except.error Error.RecvFailed, c)
  else if r.received_len > (c.session.RECEIVE_MTU : Int) then
    (Except.error Error.OversizedDatagram, c)
  else
    match Packet.decode (r.buf.take r.received_len.toNat) c.session with
    | Except.error e => (Except.error e, c)
    | Except.ok p =>
      match dos_assert
          (decide (p.direction = (if c.server then Direction.TO_SERVER else Direction.TO_CLIENT))) with
      | Except.error e => (Except.error e, c)
      | Except.ok _ =>
        if p.seq ≥ c.expected_receiver_seq then
          (Except.ok p.payload, c.accept p r now)
        else
          (Except.ok p.payload, c)

/-- The state after a series of `recv` calls, one per `recvfrom` result and clock
value, whatever each call returned or threw. -/
def Connection.recvs (c : Connection) : List (RecvFrom × Nat) → Connection
  | [] => c
  | (r, now) :: rest => Connection.recvs (c.recv r now).2 rest

/-- The packets of a series of `new_packet` calls, one per payload and clock value,
and the state of the connection afterwards. -/
def Connection.new_packets (c : Connection) : List (List Byte × Nat) → List Packet × Connection
  | [] => ([], c)
  | (s, now) :: rest =>
    let r := c.new_packet s now
    let rs := Connection.new_packets r.2 rest
    (r.1 :: rs.1, rs.2)

/-- A session that seals nothing, for worked examples: the ciphertext is the nonce in
eight big-endian bytes followed by the plaintext. -/
def Session.plain : Session :=
  { RECEIVE_MTU := 2048
    encrypt := fun m =>
      [Fin.ofNat (m.nonce / 2 ^ 56), Fin.ofNat (m.nonce / 2 ^ 48), Fin.ofNat (m.nonce / 2 ^ 40),
       Fin.ofNat (m.nonce / 2 ^ 32), Fin.ofNat (m.nonce / 2 ^ 24), Fin.ofNat (m.nonce / 2 ^ 16),
       Fin.ofNat (m.nonce / 2 ^ 8), Fin.ofNat m.nonce] ++ m.text
    decrypt := fun coded =>
      match coded with
      | b7 :: b6 :: b5 :: b4 :: b3 :: b2 :: b1 :: b0 :: text =>
        Except.ok
          { nonce := ((((((b7.val * 256 + b6.val) * 256 + b5.val) * 256 + b4.val) * 256
              + b3.val) * 256 + b2.val) * 256 + b1.val) * 256 + b0.val,
            text := text }
      | _ => Except.error Error.DecryptFailed }

/-- The direction `recv` demands of an incoming packet:
`server ? TO_SERVER : TO_CLIENT`. -/
def Connection.incoming (c : Connection) : Direction :=
  if c.server then Direction.TO_SERVER else Direction.TO_CLIENT

/-- The `recvfrom` call behind `r` succeeded within the receive buffer and the datagram
decodes, under the session of `c`, to the packet `p`. -/
def Connection.receives (c : Connection) (r : RecvFrom) (p : Packet) : Prop :=
  0 ≤ r.received_len ∧ r.received_len ≤ (c.session.RECEIVE_MTU : Int) ∧
    Packet.decode (r.buf.take r.received_len.toNat) c.session = Except.ok p

/-- The source address of `r` is a complete socket address of its family: it reaches
past `sin_addr` for `AF_INET` and past `sin6_addr` otherwise, as `recvfrom` reports
it (16 bytes for a `sockaddr_in`, 28 for a `sockaddr_in6`). -/
def RecvFrom.complete (r : RecvFrom) : Prop :=
  if ss_family r.packet_remote_addr = AF_INET then 8 ≤ r.addrlen else 24 ≤ r.addrlen

instance (r : RecvFrom) : Decidable r.complete := by
  unfold RecvFrom.complete
  infer_instance

/-- The all-zero buffer. -/
def Sockaddr.zero : Sockaddr := fun _ => 0

/-- An IPv4 socket address (Linux layout) with the given address bytes and port. -/
def Sockaddr.inet (a b c d : Byte) (port : Nat) : Sockaddr :=
  fun i =>
    match i with
    | 0 => 2
    | 2 => Fin.ofNat (port / 256)
    | 3 => Fin.ofNat port
    | 4 => a
    | 5 => b
    | 6 => c
    | 7 => d
    | _ => 0

/-- An all-zero endpoint of 28 bytes. -/
def InternetAddress.zero : InternetAddress :=
  { remote_addr := Sockaddr.zero, remote_addr_len := 28 }

/-- The `recvfrom` result for the packet `p` sealed by `Session.plain` and sent from the
16-byte address `src`. -/
def RecvFrom.plain (p : Packet) (src : Sockaddr) : RecvFrom :=
  { received_len := ((p.tostring Session.plain).length : Int),
    buf := p.tostring Session.plain,
    packet_remote_addr := src, addrlen := 16, uninit := Sockaddr.zero }

/-- A packet from a client with sequence number `seq`, timestamp 100, no echoed
timestamp and payload "hi". -/
def Packet.probe (seq : Nat) : Packet :=
  { seq := seq, direction := Direction.TO_SERVER, timestamp := 100, timestamp_reply := 65535,
    payload := [104, 105] }

/-! ## Retransmission timeout -/

/-- The method `Connection::timeout` with `SRTT` and `RTTVAR` read as exact rationals;
`RTT.timeout` is the method in double arithmetic.  `MIN_RTO` and `MAX_RTO` are the
constants of that name in `network.h`, which is not among the sources;
`lrint( ceil( … ) )` is converted to `uint64_t`. -/
def Connection.timeout (MIN_RTO MAX_RTO : Nat) (c : Connection) : Nat :=
  let RTO : Nat := (⌈c.SRTT + 4 * c.RTTVAR⌉ % 2 ^ 64).toNat
  if RTO < MIN_RTO then MIN_RTO
  else if RTO > MAX_RTO then MAX_RTO
  else RTO

/-! ## Double arithmetic

`SRTT` and `RTTVAR` are `double`s.  A finite IEEE 754 binary64 number is an integer
multiple of `2^-1074`, and it is modelled as that integer, its number of units.  An
arithmetic operation is the exact result rounded to the nearest `double`, ties to even.
The numbers met here stay far below the largest `double`, so overflow is not modelled. -/

/-- The position of the highest set bit of `n`, that is `floor( log2 n )`, and 0 for
`n = 0`; a binary search on the shift, for `n < 2^4096`. -/
def Double.ilog2 (n : Nat) : Nat :=
  [2048, 1024, 512, 256, 128, 64, 32, 16, 8, 4, 2, 1].foldl
    (fun e k => if n >>> (e + k) = 0 then e else e + k) 0

/-- The non-negative number `num / den` of units rounded to the nearest `double`, ties to
even.  A number whose highest bit is `e` has 53 significant bits, so it is rounded to a
multiple of `2^(e - 52)` units; a number below `2^53` units (the subnormal numbers and
the first binade) is rounded to whole units. -/
def Double.round_nat (num den : Nat) : Nat :=
  let s := Double.ilog2 (num / den) - 52
  let b := den <<< s
  let f := num / b
  let r := num % b
  (if 2 * r < b then f else if b < 2 * r then f + 1 else if f % 2 = 0 then f else f + 1) <<< s

/-- The number `num / den` of units rounded to the nearest `double`, ties to even. -/
def Double.round (num : Int) (den : Nat) : Int :=
  if num < 0 then -(Double.round_nat num.natAbs den : Int)
  else (Double.round_nat num.natAbs den : Int)

/-- The exponent of the unit: the least positive `double` is `2^-1074`. -/
def Double.emin : Nat := 1074

/-- The number of units in `1.0`. -/
def Double.unit : Nat := 1 <<< Double.emin

/-- The conversion of an integer to `double`, exact for `|n| < 2^53`. -/
def Double.ofInt (n : Int) : Int := n * (Double.unit : Int)

/-- The sum `a + b` of two `double`s. -/
def Double.add (a b : Int) : Int := Double.round (a + b) 1

/-- The difference `a - b` of two `double`s. -/
def Double.sub (a b : Int) : Int := Double.round (a - b) 1

/-- The product `a * b` of two `double`s. -/
def Double.mul (a b : Int) : Int := Double.round (a * b) Double.unit

/-- The quotient `a / b` of two `double`s, for `b` other than zero. -/
def Double.div (a b : Int) : Int :=
  if b < 0 then Double.round (-(a * (Double.unit : Int))) b.natAbs
  else Double.round (a * (Double.unit : Int)) b.natAbs

/-- The function `fabs`. -/
def Double.fabs (a : Int) : Int := |a|

/-- The integer `lrint( ceil( a ) )`: the least integer not below the `double` `a`. -/
def Double.ceil (a : Int) : Int := -((-a) / (Double.unit : Int))

/-- The members `RTT_hit`, `SRTT` and `RTTVAR` of `Connection`, the two `double`s as
numbers of units. -/
structure RTT where
  RTT_hit : Bool
  SRTT : Int
  RTTVAR : Int
  deriving DecidableEq, Repr

/-- The initial RTT state of both constructors of `Connection`: `RTT_hit( false )`,
`SRTT( 1000 )`, `RTTVAR( 500 )`. -/
def RTT.new : RTT :=
  { RTT_hit := false, SRTT := Double.ofInt 1000, RTTVAR := Double.ofInt 500 }

/-- The RTT block of `Connection::recv`, guarded by
`p.timestamp_reply != uint16_t(-1)`, in double arithmetic, with `now` the value of
`timestamp()`. -/
def RTT.update (s : RTT) (p : Packet) (now : Nat) : RTT :=
  if p.timestamp_reply ≠ 65535 then
    let now16 := timestamp16 now
    let R : Int := Double.ofInt (timestamp_diff now16 p.timestamp_reply)
    if R < Double.ofInt 5000 then
      if !s.RTT_hit then
        { s with SRTT := R, RTTVAR := Double.div R (Double.ofInt 2), RTT_hit := true }
      else
        let alpha : Int := Double.div (Double.ofInt 1) (Double.ofInt 8)
        let beta : Int := Double.div (Double.ofInt 1) (Double.ofInt 4)
        let RTTVAR1 :=
          Double.add (Double.mul (Double.sub (Double.ofInt 1) beta) s.RTTVAR)
            (Double.mul beta (Double.fabs (Double.sub s.SRTT R)))
        { s with
          RTTVAR := RTTVAR1,
          SRTT := Double.add (Double.mul (Double.sub (Double.ofInt 1) alpha) s.SRTT)
                    (Double.mul alpha R) }
    else s
  else s

/-- The RTT state after `recv` accepted a series of packets, each with the value of
`timestamp()` at its arrival. -/
def RTT.updates (s : RTT) : List (Packet × Nat) → RTT
  | [] => s
  | (p, now) :: rest => (s.update p now).updates rest

/-- The method `Connection::timeout` in double arithmetic.  `MIN_RTO` and `MAX_RTO` are
the constants of that name in `network.h`, which is not among the sources;
`lrint( ceil( … ) )` is converted to `uint64_t`. -/
def RTT.timeout (MIN_RTO MAX_RTO : Nat) (s : RTT) : Nat :=
  let RTO : Nat :=
    (Double.ceil (Double.add s.SRTT (Double.mul (Double.ofInt 4) s.RTTVAR)) % 2 ^ 64).toNat
  if RTO < MIN_RTO then MIN_RTO
  else if RTO > MAX_RTO then MAX_RTO
  else RTO

/-- A packet that echoes the timestamp 9900, with the clock at 10000 ms when it is
received: the sample is `R = 100`. -/
def sample_100 : Packet × Nat :=
  (Packet.mk 0 Direction.TO_CLIENT 5 9900 [], 10000)

/-! ## Bind and setup -/

/-- The constant `AF_INET6` (Linux). -/
def AF_INET6 : Nat := 10

/-- The method `InternetAddress::getPort`: `ntohs` of the port field, which lies at
offsets 2 and 3 for both families. -/
def InternetAddress.getPort (a : InternetAddress) : Nat :=
  be16toh (a.remote_addr 2) (a.remote_addr 3)

/-- The method `InternetAddress::setPort`: stores `htons( port )` in the port field,
at offsets 2 and 3 for both families. -/
def InternetAddress.setPort (a : InternetAddress) (port : Nat) : InternetAddress :=
  { a with
    remote_addr := fun i =>
      if i = 2 then Fin.ofNat (port % 65536 / 256)
      else if i = 3 then Fin.ofNat (port % 65536)
      else a.remote_addr i }

/-- The default constructor `InternetAddress::InternetAddress()`: a zeroed
`sockaddr_in6` of family `AF_INET6`. -/
def InternetAddress.new : InternetAddress :=
  { remote_addr := fun i => if i = 0 then 10 else 0, remote_addr_len := 28 }

/-- The method `InternetAddress::setViaLookup` when `getaddrinfo` succeeded with the
address `ai_addr` of `ai_addrlen` bytes. -/
def InternetAddress.setViaLookup (a : InternetAddress) (ai_addr : Sockaddr) (ai_addrlen : Nat) :
    InternetAddress :=
  { remote_addr := memcpy a.remote_addr ai_addr ai_addrlen, remote_addr_len := ai_addrlen }

/-- The method `InternetAddress::setAddressBindAny`: family `AF_INET6`, the sixteen
bytes of `sin6_addr` (offsets 8 to 23) set to `in6addr_any`, length 28.  The port field
is not written. -/
def InternetAddress.setAddressBindAny (a : InternetAddress) : InternetAddress :=
  { remote_addr := fun i =>
      if i = 0 then 10
      else if i = 1 then 0
      else if 8 ≤ i ∧ i < 24 then 0
      else a.remote_addr i,
    remote_addr_len := 28 }

/-- The outcome of `Connection::try_bind`: what it returned or threw, the endpoint it
left in `remote_addr`, and the addresses it passed to `bind`, in order. -/
structure BindResult where
  result : Except Error Bool
  remote_addr : InternetAddress
  calls : List InternetAddress

/-- The `for` loop of `Connection::try_bind` from `i` on, with `n` the number of values
of `i` left up to `search_high`; `bind a = true` stands for `bind( … ) == 0`.  Leaving
the loop reaches `assert( false )`. -/
def try_bind_loop (bind : InternetAddress → Bool) (search_high : Nat) :
    Nat → Nat → InternetAddress → List InternetAddress → BindResult
  | 0, _, a, calls => { result := Except.error Error.AssertionFailed, remote_addr := a,
                        calls := calls }
  | n + 1, i, a, calls =>
    let a1 := a.setPort i
    if bind a1 then
      { result := Except.ok true, remote_addr := a1, calls := calls ++ [a1] }
    else if i = search_high then
      { result := Except.error Error.BindFailed, remote_addr := a1, calls := calls ++ [a1] }
    else
      try_bind_loop bind search_high n (i + 1) a1 (calls ++ [a1])

/-- The method `Connection::try_bind` on the endpoint `a`; `PORT_RANGE_LOW` and
`PORT_RANGE_HIGH` are the constants of that name in `network.h`, which is not among the
sources. -/
def try_bind (PORT_RANGE_LOW PORT_RANGE_HIGH : Nat) (bind : InternetAddress → Bool)
    (a : InternetAddress) : BindResult :=
  let search_low := if a.getPort ≠ 0 then a.getPort else PORT_RANGE_LOW
  let search_high := if a.getPort ≠ 0 then a.getPort else PORT_RANGE_HIGH
  try_bind_loop bind search_high (search_high + 1 - search_low) search_low a []

/-- The result of the `getaddrinfo` call inside `setViaLookup`: the address and its
length, or the exception thrown. -/
abbrev Lookup := Except Error (Sockaddr × Nat)

/-- The body of the server constructor
`Connection( const char *desired_ip, const char *desired_port )`.  `desired_ip` is
`none` for a null pointer and otherwise the result of looking up
`(desired_ip, desired_port)`; `desired_port` is `none` for a null pointer and otherwise
the result of looking up `(NULL, desired_port)`; `setup family = true` says that
`setup()` succeeds for a socket of that family.  The exception of a failed lookup is
thrown by pointer, so no handler of the constructor catches it. -/
def Connection.server_constructor (PORT_RANGE_LOW PORT_RANGE_HIGH : Nat) (bind : InternetAddress → Bool)
    (setup : Nat → Bool) (session : Session) (desired_ip desired_port : Option Lookup) :
    Except Error Connection × List InternetAddress :=
  let second (socket_family : Nat) (a : InternetAddress) (calls : List InternetAddress) :
      Except Error Connection × List InternetAddress :=
    let a1 : Except Error InternetAddress :=
      match desired_port with
      | some (Except.ok res) => Except.ok (a.setViaLookup res.1 res.2)
      | some (Except.error e) => Except.error e
      | none => Except.ok a.setAddressBindAny
    match a1 with
    | Except.error e => (Except.error e, calls)
    | Except.ok a2 =>
      if socket_family ≠ ss_family a2.remote_addr ∧ setup (ss_family a2.remote_addr) = false then
        (Except.error Error.SocketFailed, calls)
      else
        let r := try_bind PORT_RANGE_LOW PORT_RANGE_HIGH bind a2
        match r.result with
        | Except.ok _ => (Except.ok (Connection.new_server session r.remote_addr),
                          calls ++ r.calls)
        | Except.error e => (Except.error e, calls ++ r.calls)
  match desired_ip with
  | none => second 0 InternetAddress.new []
  | some (Except.error e) => (Except.error e, [])
  | some (Except.ok res) =>
    let a := InternetAddress.new.setViaLookup res.1 res.2
    if setup (ss_family a.remote_addr) then
      let r := try_bind PORT_RANGE_LOW PORT_RANGE_HIGH bind a
      match r.result with
      | Except.ok _ => (Except.ok (Connection.new_server session r.remote_addr), r.calls)
      | Except.error Error.AssertionFailed => (Except.error Error.AssertionFailed, r.calls)
      | Except.error _ => second (ss_family a.remote_addr) r.remote_addr r.calls
    else
      second 0 a []

end Network

/-!
Terminal framebuffer: a shallow embedding of `src/terminalframebuffer.cpp`.

An `int` is an integer, and the cursor arithmetic that can leave the range of a 32-bit
`int` (`cursor_row + N`, `cursor_col + N`, `cursor_row + rows - limit`, `-N`) wraps
around, see `int32`; a `Cell *` is the position of the cell in the grid; undefined behaviour (an index outside a
vector, a dangling pointer), a failed `assert` and unbounded recursion are the result
`none`.  The code base is C++98: `std::vector` moves its elements with the copy
constructor and the copy-assignment operator of `Cell`.
-/

namespace Terminal

/-- A `Cell *` into the grid: the address of `rows[ row ].cells[ col ]`. -/
structure CellPtr where
  row : Nat
  col : Nat
  deriving DecidableEq, Repr

/-- The data members of the class `Cell`; a null `overlapping_cell` is `none`. -/
structure Cell where
  overlapping_cell : Option CellPtr
  contents : List Nat
  overlapped_cells : List CellPtr
  fallback : Bool
  width : Int
  deriving DecidableEq, Repr

/-- The default constructor `Cell::Cell()`. -/
def Cell.new : Cell :=
  { overlapping_cell := none, contents := [], overlapped_cells := [], fallback := false,
    width := 1 }

/-- The copy constructor `Cell::Cell( const Cell &x )`. -/
def Cell.copy (x : Cell) : Cell :=
  { overlapping_cell := x.overlapping_cell, contents := x.contents,
    overlapped_cells := x.overlapped_cells, fallback := x.fallback, width := 1 }

/-- The copy assignment `Cell::operator=( const Cell &x )`: `width` is not assigned. -/
def Cell.assign (self x : Cell) : Cell :=
  { overlapping_cell := x.overlapping_cell, contents := x.contents,
    overlapped_cells := x.overlapped_cells, fallback := x.fallback, width := self.width }

/-- The class `Row`. -/
structure Row where
  cells : List Cell
  deriving DecidableEq, Repr

/-- The constructor `Row::Row( size_t s_width )`: `s_width` copies of a default cell. -/
def Row.new (s_width : Nat) : Row :=
  { cells := List.replicate s_width Cell.new.copy }

/-- The implicit copy constructor of `Row`: every cell is copy-constructed. -/
def Row.copy (x : Row) : Row :=
  { cells := x.cells.map Cell.copy }

/-- The implicit copy assignment of `Row`, that is `std::vector<Cell>::operator=`: when
the source is not longer, the cells are assigned in place and the surplus is destroyed;
when it is longer, the storage (never larger than the row) is replaced by copies. -/
def Row.assign (self x : Row) : Row :=
  if x.cells.length ≤ self.cells.length then
    { cells := List.zipWith Cell.assign self.cells x.cells }
  else
    { cells := x.cells.map Cell.copy }

/-- The tail of `std::vector<Row>::erase`: each slot from the erased one on is assigned
from its successor, and the last slot is destroyed.  `cur` is the slot at the position,
the list holds the slots after it. -/
def shift_down (cur : Row) : List Row → List Row
  | [] => []
  | next :: rest => cur.assign next :: shift_down next rest

/-- The call `rows.erase( rows.begin() + pos )`; undefined for `pos` at or past the end. -/
def rows_erase : List Row → Nat → Option (List Row)
  | [], _ => none
  | r :: rs, 0 => some (shift_down r rs)
  | r :: rs, pos + 1 => (rows_erase rs pos).map (fun t => r :: t)

/-- The tail of `std::vector<Row>::insert` with spare capacity: each slot after the
position is assigned from its predecessor, and a new last slot is copy-constructed from
the old last one.  `prev` is the old slot before the list. -/
def shift_up (prev : Row) : List Row → List Row
  | [] => [prev.copy]
  | r :: rs => r.assign prev :: shift_up r rs

/-- The call `rows.insert( rows.begin() + pos, x )` on a vector with spare capacity (as
after an `erase`): at the end the new element is copy-constructed from `x`; elsewhere the
slot at the position is assigned from a copy of `x`.  Undefined for `pos` past the end. -/
def rows_insert : List Row → Nat → Row → Option (List Row)
  | [], 0, x => some [x.copy]
  | [], _ + 1, _ => none
  | r :: rs, 0, x => some (r.assign x.copy :: shift_up r rs)
  | r :: rs, pos + 1, x => (rows_insert rs pos x).map (fun t => r :: t)

/-- The value a 32-bit `int` takes when the exact result of an addition, a subtraction
or a negation is `x`: two's complement wrap-around into `[-2^31, 2^31)`. -/
def int32 (x : Int) : Int :=
  (x + 2147483648) % 4294967296 - 2147483648

/-- The data members of the class `DrawState`. -/
structure DrawState where
  width : Int
  height : Int
  cursor_col : Int
  cursor_row : Int
  combining_char_col : Int
  combining_char_row : Int
  tabs : List Bool
  scrolling_region_top_row : Int
  scrolling_region_bottom_row : Int
  next_print_will_wrap : Bool
  origin_mode : Bool
  auto_wrap_mode : Bool
  deriving DecidableEq, Repr

/-- The constructor `DrawState::DrawState( int s_width, int s_height )`. -/
def DrawState.new (s_width s_height : Int) : DrawState :=
  { width := s_width, height := s_height, cursor_col := 0, cursor_row := 0,
    combining_char_col := 0, combining_char_row := 0,
    tabs := (List.range s_width.toNat).map (fun i => i % 8 == 0),
    scrolling_region_top_row := 0, scrolling_region_bottom_row := s_height - 1,
    next_print_will_wrap := false, origin_mode := false, auto_wrap_mode := true }

/-- The method `DrawState::limit_top`. -/
def DrawState.limit_top (ds : DrawState) : Int :=
  if ds.origin_mode then ds.scrolling_region_top_row else 0

/-- The method `DrawState::limit_bottom`. -/
def DrawState.limit_bottom (ds : DrawState) : Int :=
  if ds.origin_mode then ds.scrolling_region_bottom_row else ds.height - 1

/-- The method `DrawState::new_grapheme`. -/
def DrawState.new_grapheme (ds : DrawState) : DrawState :=
  { ds with combining_char_col := ds.cursor_col, combining_char_row := ds.cursor_row }

/-- The method `DrawState::snap_cursor_to_border`. -/
def DrawState.snap_cursor_to_border (ds : DrawState) : DrawState :=
  let ds1 := if ds.cursor_row < ds.limit_top then { ds with cursor_row := ds.limit_top } else ds
  let ds2 :=
    if ds1.cursor_row > ds1.limit_bottom then { ds1 with cursor_row := ds1.limit_bottom }
    else ds1
  let ds3 := if ds2.cursor_col < 0 then { ds2 with cursor_col := 0 } else ds2
  if ds3.cursor_col ≥ ds3.width then { ds3 with cursor_col := ds3.width - 1 } else ds3

/-- The method `DrawState::move_row`. -/
def DrawState.move_row (ds : DrawState) (N : Int) (relative : Bool) : DrawState :=
  let ds1 :=
    if relative then { ds with cursor_row := int32 (ds.cursor_row + N) }
    else { ds with cursor_row := N }
  let ds2 := ds1.snap_cursor_to_border
  let ds3 := ds2.new_grapheme
  { ds3 with next_print_will_wrap := false }

/-- The method `DrawState::move_col`. -/
def DrawState.move_col (ds : DrawState) (N : Int) (relative : Bool) (implicit : Bool) :
    DrawState :=
  let ds1 := if implicit then ds.new_grapheme else ds
  let ds2 :=
    if relative then { ds1 with cursor_col := int32 (ds1.cursor_col + N) }
    else { ds1 with cursor_col := N }
  let ds3 :=
    if implicit && decide (ds2.cursor_col ≥ ds2.width) then
      { ds2 with next_print_will_wrap := true }
    else ds2
  let ds4 := ds3.snap_cursor_to_border
  if !implicit then
    { ds4.new_grapheme with next_print_will_wrap := false }
  else ds4

/-- The method `DrawState::set_scrolling_region`. -/
def DrawState.set_scrolling_region (ds : DrawState) (top bottom : Int) : DrawState :=
  if ds.height < 1 then ds
  else
    let ds1 := { ds with scrolling_region_top_row := top, scrolling_region_bottom_row := bottom }
    let ds2 :=
      if ds1.scrolling_region_top_row < 0 then { ds1 with scrolling_region_top_row := 0 }
      else ds1
    let ds3 :=
      if ds2.scrolling_region_bottom_row ≥ ds2.height then
        { ds2 with scrolling_region_bottom_row := ds2.height - 1 }
      else ds2
    let ds4 :=
      if ds3.scrolling_region_bottom_row < ds3.scrolling_region_top_row then
        { ds3 with scrolling_region_bottom_row := ds3.scrolling_region_top_row }
      else ds3
    if ds4.origin_mode then ds4.snap_cursor_to_border.new_grapheme else ds4

/-- The class `Framebuffer`. -/
structure Framebuffer where
  rows : List Row
  ds : DrawState
  deriving DecidableEq, Repr

/-- The constructor `Framebuffer::Framebuffer( int s_width, int s_height )` for
non-negative arguments: `s_height` copies of `Row( s_width )`. -/
def Framebuffer.new (s_width s_height : Nat) : Framebuffer :=
  { rows := List.replicate s_height (Row.new s_width).copy,
    ds := DrawState.new (s_width : Int) (s_height : Int) }

/-- The element index an `int` denotes; a negative one is outside every vector. -/
def index (i : Int) : Option Nat :=
  if 0 ≤ i then some i.toNat else none

/-- One pass of the first loop of `Framebuffer::scroll`. -/
def Framebuffer.scroll_up_step (fb : Framebuffer) : Option Framebuffer := do
  let top ← index fb.ds.limit_top
  let rows1 ← rows_erase fb.rows top
  let bottom ← index fb.ds.limit_bottom
  let rows2 ← rows_insert rows1 bottom (Row.new fb.ds.width.toNat)
  pure { rows := rows2, ds := fb.ds.move_row (-1) true }

/-- One pass of the second loop of `Framebuffer::scroll`. -/
def Framebuffer.scroll_down_step (fb : Framebuffer) : Option Framebuffer := do
  let bottom ← index fb.ds.limit_bottom
  let rows1 ← rows_erase fb.rows bottom
  let top ← index fb.ds.limit_top
  let rows2 ← rows_insert rows1 top (Row.new fb.ds.width.toNat)
  pure { rows := rows2, ds := fb.ds.move_row 1 true }

/-- The loop `for ( int i = 0; i < N; i++ ) step`. -/
def repeat_step (step : Framebuffer → Option Framebuffer) : Nat → Framebuffer → Option Framebuffer
  | 0, fb => some fb
  | n + 1, fb => (step fb).bind (repeat_step step n)

/-- The method `Framebuffer::scroll`. -/
def Framebuffer.scroll (fb : Framebuffer) (N : Int) : Option Framebuffer :=
  if N ≥ 0 then repeat_step Framebuffer.scroll_up_step N.toNat fb
  else repeat_step Framebuffer.scroll_down_step (int32 (-N)).toNat fb

/-- The method `Framebuffer::move_rows_autoscroll`. -/
def Framebuffer.move_rows_autoscroll (fb : Framebuffer) (rows : Int) : Option Framebuffer := do
  let fb1 ←
    if int32 (fb.ds.cursor_row + rows) > fb.ds.limit_bottom then
      fb.scroll (int32 (int32 (fb.ds.cursor_row + rows) - fb.ds.limit_bottom))
    else if int32 (fb.ds.cursor_row + rows) < fb.ds.limit_top then
      fb.scroll (int32 (int32 (fb.ds.cursor_row + rows) - fb.ds.limit_top))
    else some fb
  pure { fb1 with ds := fb1.ds.move_row rows true }

/-- The cell a pointer refers to, if it points into the grid. -/
def get_cell (rows : List Row) (a : CellPtr) : Option Cell :=
  (rows[a.row]?).bind (fun r => r.cells[a.col]?)

/-- The grid after a write through a pointer. -/
def set_cell (rows : List Row) (a : CellPtr) (c : Cell) : List Row :=
  match rows[a.row]? with
  | none => rows
  | some r => rows.set a.row { cells := r.cells.set a.col c }

/-- The method `Cell::reset` on the cell at `a`.  `fuel` bounds the depth of the
recursion; the loop runs over the `overlapped_cells` read when it starts. -/
def Cell.reset : Nat → List Row → CellPtr → Option (List Row)
  | 0, _, _ => none
  | fuel + 1, rows, a =>
    match get_cell rows a with
    | none => none
    | some this =>
      let rows1 := set_cell rows a { this with contents := [], fallback := false, width := 1 }
      match this.overlapping_cell with
      | some _ => if this.overlapped_cells.length = 0 then some rows1 else none
      | none =>
        let after_loop :=
          this.overlapped_cells.foldlM
            (fun (g : List Row) (i : CellPtr) =>
              match get_cell g i with
              | none => none
              | some ci => Cell.reset fuel (set_cell g i { ci with overlapping_cell := none }) i)
            rows1
        after_loop.bind (fun g =>
          match get_cell g a with
          | none => none
          | some t => some (set_cell g a { t with overlapped_cells := [] }))

/-- The loop of `Framebuffer::claim_overlap` from `i` on; the first argument bounds the
number of passes left, `fuel` the depth of each `reset`. -/
def claim_overlap_loop (fuel : Nat) (ds_width : Int) (row col : Nat) :
    Nat → Nat → List Row → Option (List Row)
  | 0, i, rows =>
    match get_cell rows { row := row, col := col } with
    | none => none
    | some the_cell =>
      if (i : Int) < (col : Int) + the_cell.width then none else some rows
  | n + 1, i, rows =>
    match get_cell rows { row := row, col := col } with
    | none => none
    | some the_cell =>
      if (i : Int) < (col : Int) + the_cell.width then
        if (i : Int) < ds_width then
          let next_cell : CellPtr := { row := row, col := i }
          match Cell.reset fuel rows next_cell with
          | none => none
          | some rows1 =>
            match get_cell rows1 { row := row, col := col } with
            | none => none
            | some c1 =>
              let rows2 := set_cell rows1 { row := row, col := col }
                { c1 with overlapped_cells := c1.overlapped_cells ++ [next_cell] }
              match get_cell rows2 next_cell with
              | none => none
              | some c2 =>
                claim_overlap_loop fuel ds_width row col n (i + 1)
                  (set_cell rows2 next_cell
                    { c2 with overlapping_cell := some { row := row, col := col } })
        else
          claim_overlap_loop fuel ds_width row col n (i + 1) rows
      else some rows

/-- The method `Framebuffer::claim_overlap` for a non-negative `row` and `col`.  The
loop makes at most `width - 1` passes. -/
def Framebuffer.claim_overlap (fuel : Nat) (fb : Framebuffer) (row col : Nat) :
    Option Framebuffer :=
  match get_cell fb.rows { row := row, col := col } with
  | none => none
  | some the_cell =>
    (claim_overlap_loop fuel fb.ds.width row col (the_cell.width - 1).toNat (col + 1) fb.rows).map
      (fun rows => { fb with rows := rows })

/-- The number of cells of the row at index `r`; 0 past the last row. -/
def row_length (rows : List Row) (r : Nat) : Nat :=
  match rows[r]? with
  | some row => row.cells.length
  | none => 0

/-- The overlap forest invariant of a grid: no cell has both a non-null
`overlapping_cell` and a non-empty `overlapped_cells`; every cell in the
`overlapped_cells` of a cell points back to it with `overlapping_cell`; and every cell with
a non-null `overlapping_cell` is in the `overlapped_cells` of the cell it points to. -/
def OverlapForest (rows : List Row) : Prop :=
  ∀ r, r < rows.length → ∀ c, c < row_length rows r →
    ∀ x ∈ get_cell rows { row := r, col := c },
      (x.overlapping_cell = none ∨ x.overlapped_cells = []) ∧
      (∀ d ∈ x.overlapped_cells,
        ∃ y ∈ get_cell rows d, y.overlapping_cell = some { row := r, col := c }) ∧
      (∀ b ∈ x.overlapping_cell,
        ∃ y ∈ get_cell rows b, ({ row := r, col := c } : CellPtr) ∈ y.overlapped_cells)

instance (rows : List Row) : Decidable (OverlapForest rows) := by
  unfold OverlapForest
  infer_instance

/-- The grid after every cell of the list was overwritten with a default cell. -/
def blank_all (rows : List Row) (ds : List CellPtr) : List Row :=
  ds.foldl (fun g d => set_cell g d Cell.new) rows

/-- The grid after a glyph `ch` of width 2 was written to the blank cell at
`(row, col)` and `claim_overlap( row, col )` linked it with its blank right neighbour. -/
def place_wide (rows : List Row) (row col : Nat) (ch : Nat) : List Row :=
  set_cell
    (set_cell rows { row := row, col := col }
      { Cell.new with contents := [ch], width := 2,
                      overlapped_cells := [{ row := row, col := col + 1 }] })
    { row := row, col := col + 1 }
    { Cell.new with overlapping_cell := some { row := row, col := col } }

/-- An 80 by 2 framebuffer with a glyph of width 2 at row 0, column 3 (scenario S6). -/
def wide_at_3 : Framebuffer :=
  { Framebuffer.new 80 2 with rows := place_wide (Framebuffer.new 80 2).rows 0 3 0x4E2D }

/-- The framebuffer `wide_at_3` after the cell at row 0, column 4 was reset and a second
glyph of width 2 was written to it, before `claim_overlap( 0, 4 )`. -/
def wide_at_3_and_4 : Framebuffer :=
  { wide_at_3 with
    rows := set_cell wide_at_3.rows { row := 0, col := 4 }
      { overlapping_cell := some { row := 0, col := 3 }, contents := [0x6587],
        overlapped_cells := [], fallback := false, width := 2 } }

/-- An 80 by 2 framebuffer in which the cell at row 0, column 2 overlaps its left
neighbour at column 1, and the cell at column 0 has width 3. -/
def overlapped_from_right : Framebuffer :=
  { Framebuffer.new 80 2 with
    rows :=
      set_cell
        (set_cell
          (set_cell (Framebuffer.new 80 2).rows { row := 0, col := 0 }
            { Cell.new with contents := [0x4E2D], width := 3 })
          { row := 0, col := 2 }
          { Cell.new with overlapped_cells := [{ row := 0, col := 1 }] })
        { row := 0, col := 1 }
        { Cell.new with overlapping_cell := some { row := 0, col := 2 } } }

/-- An 80 by 2 framebuffer after a glyph of width 2 was written to the cell at row 0,
column 3, before `claim_overlap( 0, 3 )`. -/
def glyph_at_3 : Framebuffer :=
  { Framebuffer.new 80 2 with
    rows := set_cell (Framebuffer.new 80 2).rows { row := 0, col := 3 }
      { Cell.new with contents := [0x4E2D], width := 2 } }

/-- A fresh 80 by 24 framebuffer after `ds.move_row( 5, false )`: the cursor is in row 5. -/
def cursor_in_row_5 : Framebuffer :=
  { Framebuffer.new 80 24 with ds := (DrawState.new 80 24).move_row 5 false }

/-- An 80 by 3 framebuffer in origin mode with the scrolling region set to rows 0 to 1
and a glyph of width 2 at row 2, column 3, below the region. -/
def wide_below_region : Framebuffer :=
  { rows := place_wide (Framebuffer.new 80 3).rows 2 3 0x4E2D,
    ds := DrawState.set_scrolling_region { DrawState.new 80 3 with origin_mode := true } 0 1 }

end Terminal

namespace Network

/-! ## Lemmas on the nonce -/

theorem DIRECTION_MASK_eq : DIRECTION_MASK = 2 ^ 63 := by decide

theorem SEQUENCE_MASK_eq : SEQUENCE_MASK = 2 ^ 63 - 1 := by decide

theorem and_SEQUENCE_MASK (n : Nat) : n &&& SEQUENCE_MASK = n % 2 ^ 63 := by
  rw [SEQUENCE_MASK_eq, Nat.and_pow_two_sub_one_eq_mod]

theorem and_DIRECTION_MASK (n : Nat) :
    n &&& DIRECTION_MASK = (n.testBit 63).toNat * 2 ^ 63 := by
  rw [DIRECTION_MASK_eq, Nat.and_two_pow]

theorem direction_seq_eq (p : Packet) :
    p.direction_seq
      = (if p.direction = Direction.TO_CLIENT then 2 ^ 63 else 0) + p.seq % 2 ^ 63 := by
  unfold Packet.direction_seq
  rw [and_SEQUENCE_MASK]
  have hlt : p.seq % 2 ^ 63 < 2 ^ 63 := Nat.mod_lt _ (by decide)
  by_cases h : p.direction = Direction.TO_CLIENT
  · simp only [h, if_true]
    have h1 : (1 <<< 63) % 2 ^ 64 = 2 ^ 63 * 1 := by decide
    rw [h1, ← Nat.mul_add_lt_is_or hlt 1, Nat.mul_one]
  · simp only [h, if_false]
    have h0 : (0 <<< 63) % 2 ^ 64 = 0 := by decide
    rw [h0, Nat.zero_or, Nat.zero_add]

theorem direction_seq_lt (p : Packet) : p.direction_seq < 2 ^ 64 := by
  rw [direction_seq_eq]
  have hlt : p.seq % 2 ^ 63 < 2 ^ 63 := Nat.mod_lt _ (by decide)
  split <;> omega

theorem direction_seq_mod (p : Packet) : p.direction_seq % 2 ^ 63 = p.seq % 2 ^ 63 := by
  rw [direction_seq_eq]
  split <;> omega

theorem direction_seq_testBit (p : Packet) :
    p.direction_seq.testBit 63 = decide (p.direction = Direction.TO_CLIENT) := by
  rw [direction_seq_eq, Nat.testBit_to_div_mod]
  have hlt : p.seq % 2 ^ 63 < 2 ^ 63 := Nat.mod_lt _ (by decide)
  by_cases h : p.direction = Direction.TO_CLIENT
  · simp only [h, if_true, decide_True, decide_eq_true_eq]
    omega
  · simp only [h, if_false, decide_False, decide_eq_false_iff_not]
    omega

/-! ## Lemmas on the decoder -/

theorem and_DIRECTION_MASK_ne_zero (n : Nat) :
    n &&& DIRECTION_MASK ≠ 0 ↔ n.testBit 63 = true := by
  rw [and_DIRECTION_MASK]
  cases n.testBit 63 <;> simp

theorem ofMessage_short (m : Message) (h : m.text.length < 4) :
    Packet.ofMessage m = Except.error Error.MalformedPacket := by
  have h4 : ¬ (4 ≤ m.text.length) := by omega
  simp [Packet.ofMessage, dos_assert, h4, bind, Except.bind]

theorem ofMessage_long (m : Message) (h : 4 ≤ m.text.length) :
    Packet.ofMessage m = Except.ok
      { seq := m.nonce % 2 ^ 63,
        direction := if m.nonce.testBit 63 then Direction.TO_CLIENT else Direction.TO_SERVER,
        timestamp := be16toh (m.text.getD 0 0) (m.text.getD 1 0),
        timestamp_reply := be16toh (m.text.getD 2 0) (m.text.getD 3 0),
        payload := m.text.drop 4 } := by
  simp only [Packet.ofMessage, dos_assert, ge_iff_le, Nat.reduceMul, h, decide_True, if_true,
    bind, Except.bind, pure, Except.pure, and_SEQUENCE_MASK, and_DIRECTION_MASK_ne_zero]

theorem be16toh_htobe16 (x : Nat) (h : x < 65536) :
    be16toh (Fin.ofNat (x % 65536 / 256)) (Fin.ofNat (x % 65536)) = x := by
  simp only [be16toh, Fin.ofNat]
  omega

theorem message_text (p : Packet) :
    p.message.text
      = Fin.ofNat (p.timestamp % 65536 / 256) :: Fin.ofNat (p.timestamp % 65536)
        :: Fin.ofNat (p.timestamp_reply % 65536 / 256) :: Fin.ofNat (p.timestamp_reply % 65536)
        :: p.payload := rfl

theorem ofMessage_message (p : Packet) (hseq : p.seq < 2 ^ 63) (hts : p.timestamp < 65536)
    (htsr : p.timestamp_reply < 65536) : Packet.ofMessage p.message = Except.ok p := by
  have hlen : 4 ≤ p.message.text.length := by
    rw [message_text]; simp
  rw [ofMessage_long _ hlen]
  have hn : p.message.nonce = p.direction_seq := rfl
  rw [hn, direction_seq_mod, direction_seq_testBit, message_text]
  simp only [List.getD_cons_zero, List.getD_cons_succ, List.drop_succ_cons, List.drop_zero,
    be16toh_htobe16 _ hts, be16toh_htobe16 _ htsr, Nat.mod_eq_of_lt hseq]
  cases p with
  | mk seq direction timestamp timestamp_reply payload =>
    cases direction <;> simp

theorem plain_decrypt_encrypt (m : Message) (h : m.nonce < 2 ^ 64) :
    Session.plain.decrypt (Session.plain.encrypt m) = Except.ok m := by
  cases m with
  | mk nonce text =>
    simp only [Session.plain, List.cons_append, List.nil_append, Fin.ofNat, Except.ok.injEq,
      Message.mk.injEq, and_true]
    simp only [] at h
    omega

/-! ## The packet codec -/

/-- C1: for a session whose `decrypt` returns the message given to `encrypt`, decoding
the output of `Packet::tostring` gives back the packet (sequence number, direction, both
timestamps and payload), whenever the sequence number fits 63 bits and the timestamps
fit 16 bits. -/
theorem codec_round_trip (session : Session) (p : Packet)
    (hsession : ∀ m : Message, m.nonce < 2 ^ 64 →
      session.decrypt (session.encrypt m) = Except.ok m)
    (hseq : p.seq < 2 ^ 63) (hts : p.timestamp < 65536) (htsr : p.timestamp_reply < 65536) :
    Packet.decode (p.tostring session) session = Except.ok p := by
  have hn : p.message.nonce < 2 ^ 64 := direction_seq_lt p
  simp only [Packet.decode, Packet.tostring, hsession _ hn, bind, Except.bind]
  exact ofMessage_message p hseq hts htsr

/-- Scenario S1: sequence number 0x2A to the server, timestamp 0x1234, no echoed
timestamp, payload "hi". -/
theorem codec_round_trip_witness :
    Packet.decode
        (Packet.tostring
          { seq := 0x2A, direction := Direction.TO_SERVER, timestamp := 0x1234,
            timestamp_reply := 0xFFFF, payload := [104, 105] } Session.plain)
        Session.plain
      = Except.ok
          { seq := 0x2A, direction := Direction.TO_SERVER, timestamp := 0x1234,
            timestamp_reply := 0xFFFF, payload := [104, 105] } :=
  codec_round_trip Session.plain _ plain_decrypt_encrypt (by decide) (by decide) (by decide)

/-- C7: the nonce `Packet::tostring` hands to the session is a 64-bit value whose bit 63
is set exactly for `TO_CLIENT` and whose low 63 bits are the sequence number modulo
`2^63`; the plaintext is the timestamp and the echoed timestamp, each as two big-endian
bytes, followed by the payload; the decoder reads the direction from bit 63 of the
decrypted nonce and the sequence number from its low 63 bits. -/
theorem wire_layout (p : Packet) (session : Session) :
    p.tostring session = session.encrypt p.message ∧
    p.message.nonce < 2 ^ 64 ∧
    (p.message.nonce.testBit 63 = true ↔ p.direction = Direction.TO_CLIENT) ∧
    (p.message.nonce.testBit 63 = false ↔ p.direction = Direction.TO_SERVER) ∧
    p.message.nonce % 2 ^ 63 = p.seq % 2 ^ 63 ∧
    (∃ b0 b1 b2 b3 : Byte, p.message.text = b0 :: b1 :: b2 :: b3 :: p.payload ∧
      b0.val = p.timestamp / 256 % 256 ∧ b1.val = p.timestamp % 256 ∧
      b2.val = p.timestamp_reply / 256 % 256 ∧ b3.val = p.timestamp_reply % 256) ∧
    (∀ (coded : List Byte) (m : Message), session.decrypt coded = Except.ok m →
      4 ≤ m.text.length →
      ∃ q, Packet.decode coded session = Except.ok q ∧
        (q.direction = Direction.TO_CLIENT ↔ m.nonce.testBit 63 = true) ∧
        (q.direction = Direction.TO_SERVER ↔ m.nonce.testBit 63 = false) ∧
        q.seq = m.nonce % 2 ^ 63) := by
  have hn : p.message.nonce = p.direction_seq := rfl
  refine ⟨rfl, direction_seq_lt p, ?_, ?_, ?_, ?_, ?_⟩
  · rw [hn, direction_seq_testBit]; simp
  · rw [hn, direction_seq_testBit]
    cases p.direction <;> simp
  · rw [hn, direction_seq_mod]
  · refine ⟨_, _, _, _, message_text p, ?_, ?_, ?_, ?_⟩ <;> simp only [Fin.ofNat] <;> omega
  · intro coded m hdec hlen
    refine ⟨{ seq := m.nonce % 2 ^ 63,
              direction :=
                if m.nonce.testBit 63 then Direction.TO_CLIENT else Direction.TO_SERVER,
              timestamp := be16toh (m.text.getD 0 0) (m.text.getD 1 0),
              timestamp_reply := be16toh (m.text.getD 2 0) (m.text.getD 3 0),
              payload := m.text.drop 4 }, ?_, ?_, ?_, rfl⟩
    · simp only [Packet.decode, hdec, bind, Except.bind]
      exact ofMessage_long m hlen
    · cases m.nonce.testBit 63 <;> simp
    · cases m.nonce.testBit 63 <;> simp

/-- A datagram to the client: the session receives nonce `2^63 + 7`, and the decoder
recovers direction and sequence number from it. -/
theorem wire_layout_witness :
    Session.plain.decrypt
        (Packet.tostring { seq := 7, direction := Direction.TO_CLIENT, timestamp := 1,
                           timestamp_reply := 2, payload := [] } Session.plain)
      = Except.ok { nonce := 2 ^ 63 + 7, text := [0, 1, 0, 2] } ∧
    ∃ q, Packet.decode
        (Packet.tostring { seq := 7, direction := Direction.TO_CLIENT, timestamp := 1,
                           timestamp_reply := 2, payload := [] } Session.plain)
        Session.plain = Except.ok q ∧
      (q.direction = Direction.TO_CLIENT ↔ (2 ^ 63 + 7).testBit 63 = true) ∧
      (q.direction = Direction.TO_SERVER ↔ (2 ^ 63 + 7).testBit 63 = false) ∧
      q.seq = (2 ^ 63 + 7) % 2 ^ 63 := by
  have hmsg : Packet.message (Packet.mk 7 Direction.TO_CLIENT 1 2 [])
      = { nonce := 2 ^ 63 + 7, text := [0, 1, 0, 2] } := by decide
  have hdec : Session.plain.decrypt
        (Packet.tostring (Packet.mk 7 Direction.TO_CLIENT 1 2 []) Session.plain)
      = Except.ok { nonce := 2 ^ 63 + 7, text := [0, 1, 0, 2] } := by
    rw [← hmsg]
    exact plain_decrypt_encrypt _ (direction_seq_lt _)
  exact ⟨hdec, (wire_layout (Packet.mk 0 Direction.TO_SERVER 0 0 []) Session.plain).2.2.2.2.2.2
    (Packet.tostring (Packet.mk 7 Direction.TO_CLIENT 1 2 []) Session.plain)
    { nonce := 2 ^ 63 + 7, text := [0, 1, 0, 2] } hdec (by decide)⟩

/-- C8: once the session has decrypted a datagram, the decoder fails, with
`MalformedPacket`, exactly when the plaintext has fewer than 4 bytes; otherwise it
succeeds, the timestamp is the big-endian word of bytes 0 and 1, the echoed timestamp the
big-endian word of bytes 2 and 3, and the payload is every byte from offset 4 on. -/
theorem malformed_packet (session : Session) (coded : List Byte) (m : Message)
    (hdec : session.decrypt coded = Except.ok m) :
    (Packet.decode coded session = Except.error Error.MalformedPacket ↔ m.text.length < 4) ∧
    ((∃ e, Packet.decode coded session = Except.error e) ↔ m.text.length < 4) ∧
    (4 ≤ m.text.length →
      ∃ (b0 b1 b2 b3 : Byte) (rest : List Byte) (q : Packet),
        m.text = b0 :: b1 :: b2 :: b3 :: rest ∧
        Packet.decode coded session = Except.ok q ∧
        q.timestamp = b0.val * 256 + b1.val ∧
        q.timestamp_reply = b2.val * 256 + b3.val ∧
        q.payload = rest ∧ q.payload.length = m.text.length - 4) := by
  have hd : Packet.decode coded session = Packet.ofMessage m := by
    simp only [Packet.decode, hdec, bind, Except.bind]
  rw [hd]
  by_cases hlen : m.text.length < 4
  · rw [ofMessage_short m hlen]
    refine ⟨by simp [hlen], by simp [hlen], fun h => absurd hlen (by omega)⟩
  · have h4 : 4 ≤ m.text.length := by omega
    rw [ofMessage_long m h4]
    refine ⟨by simp [hlen], by simp [hlen], fun _ => ?_⟩
    match hm : m.text, h4 with
    | b0 :: b1 :: b2 :: b3 :: rest, _ =>
      exact ⟨b0, b1, b2, b3, rest, _, rfl, rfl, rfl, rfl, rfl, by simp⟩

/-- A three-byte plaintext is rejected. -/
theorem malformed_packet_witness :
    Packet.decode [0, 0, 0, 0, 0, 0, 0, 5, 1, 2, 3] Session.plain
      = Except.error Error.MalformedPacket :=
  (malformed_packet Session.plain [0, 0, 0, 0, 0, 0, 0, 5, 1, 2, 3]
    { nonce := 5, text := [1, 2, 3] } rfl).1.mpr (by decide)

/-! ## Timestamps -/

/-- C10: `timestamp16` never returns the sentinel `0xFFFF`, stays a 16-bit value, and is
the clock modulo 65536 whenever that is not the sentinel. -/
theorem timestamp16_avoids_sentinel (t : Nat) :
    timestamp16 t ≠ 65535 ∧ timestamp16 t < 65536 ∧
    (t % 65536 ≠ 65535 → timestamp16 t = t % 65536) := by
  unfold timestamp16
  refine ⟨?_, ?_, ?_⟩
  · simp only []; split <;> omega
  · simp only []; split <;> omega
  · intro h; simp only [h, if_false]

/-- At clock value 70000 the 16-bit timestamp is 4464. -/
theorem timestamp16_avoids_sentinel_witness : timestamp16 70000 = 70000 % 65536 :=
  (timestamp16_avoids_sentinel 70000).2.2 (by decide)

/-! ## Lemmas on `recv` -/

theorem decode_seq_lt (coded : List Byte) (session : Session) (p : Packet)
    (h : Packet.decode coded session = Except.ok p) : p.seq < 2 ^ 63 := by
  simp only [Packet.decode, bind, Except.bind] at h
  split at h
  · exact absurd h (by simp)
  · rename_i m _
    by_cases hlen : 4 ≤ m.text.length
    · rw [ofMessage_long m hlen] at h
      injection h with h
      rw [← h]
      exact Nat.mod_lt _ (by decide)
    · rw [ofMessage_short m (by omega)] at h
      exact absurd h (by simp)

theorem recv_of_receives (c : Connection) (r : RecvFrom) (now : Nat) (p : Packet)
    (h : c.receives r p) :
    c.recv r now =
      if p.direction = c.incoming then
        if c.expected_receiver_seq ≤ p.seq then (Except.ok p.payload, c.accept p r now)
        else (Except.ok p.payload, c)
      else (Except.error Error.MalformedPacket, c) := by
  obtain ⟨h0, h1, hdec⟩ := h
  have h0' : ¬ r.received_len < 0 := by omega
  have h1' : ¬ r.received_len > (c.session.RECEIVE_MTU : Int) := by omega
  unfold Connection.recv
  rw [if_neg h0', if_neg h1', hdec]
  by_cases hdir : p.direction = c.incoming
  · rw [if_pos hdir]
    have hd : p.direction = (if c.server then Direction.TO_SERVER else Direction.TO_CLIENT) := hdir
    simp only [dos_assert, hd, decide_True, if_true, ge_iff_le]
  · rw [if_neg hdir]
    have hd : ¬ p.direction = (if c.server then Direction.TO_SERVER else Direction.TO_CLIENT) :=
      hdir
    simp only [dos_assert, hd, decide_False, if_false]
    simp

theorem accept_expected_receiver_seq (c : Connection) (p : Packet) (r : RecvFrom) (now : Nat) :
    (c.accept p r now).expected_receiver_seq = (p.seq + 1) % 2 ^ 64 := by
  unfold Connection.accept Connection.update_RTT
  simp only []
  repeat' split
  all_goals rfl

theorem accept_session (c : Connection) (p : Packet) (r : RecvFrom) (now : Nat) :
    (c.accept p r now).session = c.session := by
  unfold Connection.accept Connection.update_RTT
  simp only []
  repeat' split
  all_goals rfl

theorem accept_server (c : Connection) (p : Packet) (r : RecvFrom) (now : Nat) :
    (c.accept p r now).server = c.server := by
  unfold Connection.accept Connection.update_RTT
  simp only []
  repeat' split
  all_goals rfl

theorem recv_state_cases (c : Connection) (r : RecvFrom) (now : Nat) :
    (c.recv r now).2 = c ∨
    ∃ p : Packet, p.seq < 2 ^ 63 ∧ c.expected_receiver_seq ≤ p.seq ∧
      p.direction = c.incoming ∧ (c.recv r now).2 = c.accept p r now := by
  by_cases h0 : r.received_len < 0
  · left; simp [Connection.recv, h0]
  by_cases h1 : r.received_len > (c.session.RECEIVE_MTU : Int)
  · left; simp [Connection.recv, h0, h1]
  cases hdec : Packet.decode (r.buf.take r.received_len.toNat) c.session with
  | error e => left; simp [Connection.recv, h0, h1, hdec]
  | ok p =>
    have hrec : c.receives r p := ⟨by omega, by omega, hdec⟩
    rw [recv_of_receives c r now p hrec]
    by_cases hdir : p.direction = c.incoming
    · rw [if_pos hdir]
      by_cases hseq : c.expected_receiver_seq ≤ p.seq
      · right
        exact ⟨p, decode_seq_lt _ _ _ hdec, hseq, hdir, by rw [if_pos hseq]⟩
      · left; rw [if_neg hseq]
    · left; rw [if_neg hdir]

theorem recv_session (c : Connection) (r : RecvFrom) (now : Nat) :
    (c.recv r now).2.session = c.session := by
  rcases recv_state_cases c r now with h | ⟨p, _, _, _, h⟩
  · rw [h]
  · rw [h, accept_session]

theorem recv_server (c : Connection) (r : RecvFrom) (now : Nat) :
    (c.recv r now).2.server = c.server := by
  rcases recv_state_cases c r now with h | ⟨p, _, _, _, h⟩
  · rw [h]
  · rw [h, accept_server]

theorem recv_expected_receiver_seq_le (c : Connection) (r : RecvFrom) (now : Nat) :
    c.expected_receiver_seq ≤ (c.recv r now).2.expected_receiver_seq := by
  rcases recv_state_cases c r now with h | ⟨p, hlt, hle, _, h⟩
  · rw [h]
  · rw [h, accept_expected_receiver_seq]
    have : (p.seq + 1) % 2 ^ 64 = p.seq + 1 := Nat.mod_eq_of_lt (by omega)
    omega

theorem recvs_expected_receiver_seq_le (c : Connection) (rs : List (RecvFrom × Nat)) :
    c.expected_receiver_seq ≤ (c.recvs rs).expected_receiver_seq := by
  induction rs generalizing c with
  | nil => exact Nat.le_refl _
  | cons x rest ih =>
    obtain ⟨r, now⟩ := x
    exact Nat.le_trans (recv_expected_receiver_seq_le c r now) (ih _)

theorem recvs_session (c : Connection) (rs : List (RecvFrom × Nat)) :
    (c.recvs rs).session = c.session := by
  induction rs generalizing c with
  | nil => rfl
  | cons x rest ih =>
    obtain ⟨r, now⟩ := x
    exact (ih _).trans (recv_session c r now)

theorem recvs_server (c : Connection) (rs : List (RecvFrom × Nat)) :
    (c.recvs rs).server = c.server := by
  induction rs generalizing c with
  | nil => rfl
  | cons x rest ih =>
    obtain ⟨r, now⟩ := x
    exact (ih _).trans (recv_server c r now)

theorem recv_replayed (c : Connection) (r : RecvFrom) (now : Nat) (p : Packet)
    (h : c.receives r p) (hdir : p.direction = c.incoming)
    (hold : p.seq < c.expected_receiver_seq) :
    c.recv r now = (Except.ok p.payload, c) := by
  rw [recv_of_receives c r now p h, if_pos hdir, if_neg (by omega)]

theorem recv_accepted (c : Connection) (r : RecvFrom) (now : Nat) (p : Packet)
    (h : c.receives r p) (hdir : p.direction = c.incoming)
    (hnew : c.expected_receiver_seq ≤ p.seq) :
    c.recv r now = (Except.ok p.payload, c.accept p r now) := by
  rw [recv_of_receives c r now p h, if_pos hdir, if_pos hnew]

theorem plain_receives (c : Connection) (p : Packet) (src : Sockaddr)
    (hs : c.session = Session.plain) (hseq : p.seq < 2 ^ 63) (hts : p.timestamp < 65536)
    (htsr : p.timestamp_reply < 65536) (hlen : p.payload.length ≤ 2036) :
    c.receives (RecvFrom.plain p src) p := by
  have hl : (p.tostring Session.plain).length = p.payload.length + 12 := by
    simp [Packet.tostring, Session.plain, message_text]
  refine ⟨by simp [RecvFrom.plain], ?_, ?_⟩
  · rw [hs]
    have hm : Session.plain.RECEIVE_MTU = 2048 := rfl
    simp only [RecvFrom.plain, hl, hm]
    omega
  · rw [hs]
    simp only [RecvFrom.plain, Int.toNat_ofNat, List.take_length]
    have hn : p.message.nonce < 2 ^ 64 := direction_seq_lt p
    simp only [Packet.decode, Packet.tostring, plain_decrypt_encrypt _ hn, bind, Except.bind]
    exact ofMessage_message p hseq hts htsr

theorem receives_of_session (c c1 : Connection) (r : RecvFrom) (p : Packet)
    (hs : c1.session = c.session) (h : c.receives r p) : c1.receives r p := by
  unfold Connection.receives at *
  rw [hs]
  exact h

theorem incoming_of_server (c c1 : Connection) (hs : c1.server = c.server) :
    c1.incoming = c.incoming := by
  unfold Connection.incoming
  rw [hs]

theorem probe_receives (c : Connection) (seq : Nat) (src : Sockaddr)
    (hs : c.session = Session.plain) (hseq : seq < 2 ^ 63) :
    c.receives (RecvFrom.plain (Packet.probe seq) src) (Packet.probe seq) :=
  plain_receives c (Packet.probe seq) src hs hseq (by simp [Packet.probe]) (by simp [Packet.probe])
    (by simp [Packet.probe])

/-! ## The sequence gate of `recv` -/

/-- C3: a received packet of the expected direction with a 63-bit sequence number
leaves `expected_receiver_seq` at the maximum of its old value and `seq + 1`; over any
series of `recv` calls it never decreases; and on a connection that starts at 0, packets
with sequence numbers 5, 7, 6 drive it to 6, 8, 8. -/
theorem sequence_gate :
    (∀ (c : Connection) (r : RecvFrom) (now : Nat) (p : Packet),
      c.receives r p → p.direction = c.incoming → p.seq < 2 ^ 63 →
      (c.recv r now).2.expected_receiver_seq = max c.expected_receiver_seq (p.seq + 1)) ∧
    (∀ (c : Connection) (rs : List (RecvFrom × Nat)),
      c.expected_receiver_seq ≤ (c.recvs rs).expected_receiver_seq) ∧
    (∀ (c : Connection) (r1 r2 r3 : RecvFrom) (n1 n2 n3 : Nat) (p1 p2 p3 : Packet),
      c.expected_receiver_seq = 0 →
      c.receives r1 p1 → c.receives r2 p2 → c.receives r3 p3 →
      p1.direction = c.incoming → p2.direction = c.incoming → p3.direction = c.incoming →
      p1.seq = 5 → p2.seq = 7 → p3.seq = 6 →
      (c.recvs [(r1, n1)]).expected_receiver_seq = 6 ∧
      (c.recvs [(r1, n1), (r2, n2)]).expected_receiver_seq = 8 ∧
      (c.recvs [(r1, n1), (r2, n2), (r3, n3)]).expected_receiver_seq = 8) := by
  have step : ∀ (c : Connection) (r : RecvFrom) (now : Nat) (p : Packet),
      c.receives r p → p.direction = c.incoming → p.seq < 2 ^ 63 →
      (c.recv r now).2.expected_receiver_seq = max c.expected_receiver_seq (p.seq + 1) := by
    intro c r now p h hdir hseq
    by_cases hnew : c.expected_receiver_seq ≤ p.seq
    · rw [recv_accepted c r now p h hdir hnew, accept_expected_receiver_seq]
      have : (p.seq + 1) % 2 ^ 64 = p.seq + 1 := Nat.mod_eq_of_lt (by omega)
      omega
    · rw [recv_replayed c r now p h hdir (by omega)]
      simp only []
      omega
  refine ⟨step, recvs_expected_receiver_seq_le, ?_⟩
  intro c r1 r2 r3 n1 n2 n3 p1 p2 p3 h0 h1 h2 h3 d1 d2 d3 s1 s2 s3
  have e1 : (c.recv r1 n1).2.expected_receiver_seq = 6 := by
    rw [step c r1 n1 p1 h1 d1 (by omega), h0, s1]; rfl
  have h2' : (c.recv r1 n1).2.receives r2 p2 :=
    receives_of_session c _ r2 p2 (recv_session c r1 n1) h2
  have d2' : p2.direction = (c.recv r1 n1).2.incoming :=
    d2.trans (incoming_of_server c _ (recv_server c r1 n1)).symm
  have e2 : ((c.recv r1 n1).2.recv r2 n2).2.expected_receiver_seq = 8 := by
    rw [step _ r2 n2 p2 h2' d2' (by omega), e1, s2]; rfl
  have h3' : ((c.recv r1 n1).2.recv r2 n2).2.receives r3 p3 :=
    receives_of_session _ _ r3 p3 (recv_session _ r2 n2) (receives_of_session c _ r3 p3
      (recv_session c r1 n1) h3)
  have d3' : p3.direction = ((c.recv r1 n1).2.recv r2 n2).2.incoming :=
    (d3.trans (incoming_of_server c _ (recv_server c r1 n1)).symm).trans
      (incoming_of_server _ _ (recv_server _ r2 n2)).symm
  have e3 : (((c.recv r1 n1).2.recv r2 n2).2.recv r3 n3).2.expected_receiver_seq = 8 := by
    rw [step _ r3 n3 p3 h3' d3' (by omega), e2, s3]; rfl
  exact ⟨e1, e2, e3⟩

/-- Scenario S3 on a freshly constructed server. -/
theorem sequence_gate_witness :
    (Connection.new_server Session.plain InternetAddress.zero).expected_receiver_seq = 0 ∧
    ((Connection.new_server Session.plain InternetAddress.zero).recvs
      [(RecvFrom.plain (Packet.probe 5) Sockaddr.zero, 10)]).expected_receiver_seq = 6 ∧
    ((Connection.new_server Session.plain InternetAddress.zero).recvs
      [(RecvFrom.plain (Packet.probe 5) Sockaddr.zero, 10),
       (RecvFrom.plain (Packet.probe 7) Sockaddr.zero, 20)]).expected_receiver_seq = 8 ∧
    ((Connection.new_server Session.plain InternetAddress.zero).recvs
      [(RecvFrom.plain (Packet.probe 5) Sockaddr.zero, 10),
       (RecvFrom.plain (Packet.probe 7) Sockaddr.zero, 20),
       (RecvFrom.plain (Packet.probe 6) Sockaddr.zero, 30)]).expected_receiver_seq = 8 :=
  ⟨rfl, sequence_gate.2.2 (Connection.new_server Session.plain InternetAddress.zero)
    (RecvFrom.plain (Packet.probe 5) Sockaddr.zero) (RecvFrom.plain (Packet.probe 7) Sockaddr.zero)
    (RecvFrom.plain (Packet.probe 6) Sockaddr.zero) 10 20 30
    (Packet.probe 5) (Packet.probe 7) (Packet.probe 6) rfl
    (probe_receives _ 5 _ rfl (by decide)) (probe_receives _ 7 _ rfl (by decide))
    (probe_receives _ 6 _ rfl (by decide)) rfl rfl rfl rfl rfl rfl⟩

/-- C2: once `expected_receiver_seq` has passed `s` — as it has, and stays, after `recv`
accepted a packet with sequence number `s` — a packet of the expected direction with a
sequence number up to `s` changes nothing in the connection (saved timestamp and its
receipt time, SRTT, RTTVAR, RTT_hit, `remote_addr`, `expected_receiver_seq`), and
`recv` still returns its payload. -/
theorem replay_rejection :
    (∀ (c : Connection) (s : Nat) (r : RecvFrom) (now : Nat) (p : Packet),
      s < c.expected_receiver_seq → c.receives r p → p.direction = c.incoming → p.seq ≤ s →
      (c.recv r now).1 = Except.ok p.payload ∧
      (c.recv r now).2 = c ∧
      (c.recv r now).2.saved_timestamp = c.saved_timestamp ∧
      (c.recv r now).2.saved_timestamp_received_at = c.saved_timestamp_received_at ∧
      (c.recv r now).2.SRTT = c.SRTT ∧
      (c.recv r now).2.RTTVAR = c.RTTVAR ∧
      (c.recv r now).2.RTT_hit = c.RTT_hit ∧
      (c.recv r now).2.remote_addr = c.remote_addr ∧
      (c.recv r now).2.expected_receiver_seq = c.expected_receiver_seq) ∧
    (∀ (c0 : Connection) (r0 : RecvFrom) (now0 : Nat) (p0 : Packet)
      (later : List (RecvFrom × Nat)),
      c0.receives r0 p0 → p0.direction = c0.incoming → c0.expected_receiver_seq ≤ p0.seq →
      p0.seq < ((c0.recv r0 now0).2.recvs later).expected_receiver_seq) ∧
    (∀ (c0 : Connection) (r0 : RecvFrom) (now0 : Nat) (p0 : Packet)
      (later : List (RecvFrom × Nat)) (r : RecvFrom) (now : Nat) (p : Packet),
      c0.receives r0 p0 → p0.direction = c0.incoming → c0.expected_receiver_seq ≤ p0.seq →
      ((c0.recv r0 now0).2.recvs later).receives r p →
      p.direction = ((c0.recv r0 now0).2.recvs later).incoming → p.seq ≤ p0.seq →
      ((c0.recv r0 now0).2.recvs later).recv r now
        = (Except.ok p.payload, (c0.recv r0 now0).2.recvs later)) := by
  have frame : ∀ (c : Connection) (s : Nat) (r : RecvFrom) (now : Nat) (p : Packet),
      s < c.expected_receiver_seq → c.receives r p → p.direction = c.incoming → p.seq ≤ s →
      c.recv r now = (Except.ok p.payload, c) := by
    intro c s r now p hs h hdir hle
    exact recv_replayed c r now p h hdir (by omega)
  have reach : ∀ (c0 : Connection) (r0 : RecvFrom) (now0 : Nat) (p0 : Packet)
      (later : List (RecvFrom × Nat)),
      c0.receives r0 p0 → p0.direction = c0.incoming → c0.expected_receiver_seq ≤ p0.seq →
      p0.seq < ((c0.recv r0 now0).2.recvs later).expected_receiver_seq := by
    intro c0 r0 now0 p0 later h hdir hnew
    have hlt : p0.seq < 2 ^ 63 := decode_seq_lt _ _ _ h.2.2
    have h1 : (c0.recv r0 now0).2.expected_receiver_seq = p0.seq + 1 := by
      rw [recv_accepted c0 r0 now0 p0 h hdir hnew, accept_expected_receiver_seq]
      exact Nat.mod_eq_of_lt (by omega)
    have h2 := recvs_expected_receiver_seq_le (c0.recv r0 now0).2 later
    omega
  refine ⟨?_, reach, ?_⟩
  · intro c s r now p hs h hdir hle
    have e := frame c s r now p hs h hdir hle
    rw [e]
    exact ⟨rfl, rfl, rfl, rfl, rfl, rfl, rfl, rfl, rfl⟩
  · intro c0 r0 now0 p0 later r now p h0 hdir0 hnew h hdir hle
    exact frame _ p0.seq r now p (reach c0 r0 now0 p0 later h0 hdir0 hnew) h hdir hle

/-- After a fresh server accepted sequence numbers 7 and 9, the packet with sequence
number 6 is delivered and changes nothing. -/
theorem replay_rejection_witness :
    (((Connection.new_server Session.plain InternetAddress.zero).recv
          (RecvFrom.plain (Packet.probe 7) Sockaddr.zero) 10).2.recvs
        [(RecvFrom.plain (Packet.probe 9) Sockaddr.zero, 20)]).recv
      (RecvFrom.plain (Packet.probe 6) Sockaddr.zero) 30
    = (Except.ok [104, 105],
       ((Connection.new_server Session.plain InternetAddress.zero).recv
          (RecvFrom.plain (Packet.probe 7) Sockaddr.zero) 10).2.recvs
        [(RecvFrom.plain (Packet.probe 9) Sockaddr.zero, 20)]) :=
  replay_rejection.2.2 (Connection.new_server Session.plain InternetAddress.zero)
    (RecvFrom.plain (Packet.probe 7) Sockaddr.zero) 10 (Packet.probe 7)
    [(RecvFrom.plain (Packet.probe 9) Sockaddr.zero, 20)]
    (RecvFrom.plain (Packet.probe 6) Sockaddr.zero) 30 (Packet.probe 6)
    (probe_receives _ 7 _ rfl (by decide)) rfl (by decide)
    (probe_receives _ 6 _ ((recvs_session _ _).trans (recv_session _ _ _)) (by decide))
    (incoming_of_server (Connection.new_server Session.plain InternetAddress.zero) _
      ((recvs_server _ _).trans (recv_server _ _ _))).symm
    (by decide)

/-- C4: a decoded packet that carries the receiver's own sending direction (`TO_CLIENT`
at the server, `TO_SERVER` at the client) makes `recv` throw: no payload is returned and
the connection is left exactly as it was, whatever the sequence number. -/
theorem direction_rejection (c : Connection) (r : RecvFrom) (now : Nat) (p : Packet)
    (h : c.receives r p)
    (hdir : p.direction = (if c.server then Direction.TO_CLIENT else Direction.TO_SERVER)) :
    c.recv r now = (Except.error Error.MalformedPacket, c) ∧
    (∀ payload, (c.recv r now).1 ≠ Except.ok payload) ∧
    (c.recv r now).2.expected_receiver_seq = c.expected_receiver_seq ∧
    (c.recv r now).2.saved_timestamp = c.saved_timestamp ∧
    (c.recv r now).2.saved_timestamp_received_at = c.saved_timestamp_received_at ∧
    (c.recv r now).2.SRTT = c.SRTT ∧
    (c.recv r now).2.RTTVAR = c.RTTVAR ∧
    (c.recv r now).2.RTT_hit = c.RTT_hit ∧
    (c.recv r now).2.has_remote_addr = c.has_remote_addr ∧
    (c.recv r now).2.remote_addr = c.remote_addr := by
  have hne : ¬ p.direction = c.incoming := by
    unfold Connection.incoming
    rw [hdir]
    cases c.server <;> simp
  have e : c.recv r now = (Except.error Error.MalformedPacket, c) := by
    rw [recv_of_receives c r now p h, if_neg hne]
  rw [e]
  exact ⟨rfl, fun _ hp => (by cases hp), rfl, rfl, rfl, rfl, rfl, rfl, rfl, rfl⟩

/-- A client reflects its own packet (sequence number 3) back at itself: nothing is
delivered and `expected_receiver_seq` stays 0. -/
theorem direction_rejection_witness :
    (Connection.new_client Session.plain InternetAddress.zero).recv
        (RecvFrom.plain (Packet.probe 3) Sockaddr.zero) 10
      = (Except.error Error.MalformedPacket,
         Connection.new_client Session.plain InternetAddress.zero) :=
  (direction_rejection (Connection.new_client Session.plain InternetAddress.zero)
    (RecvFrom.plain (Packet.probe 3) Sockaddr.zero) 10 (Packet.probe 3)
    (probe_receives _ 3 _ rfl (by decide)) rfl).1

/-! ## Roaming -/

theorem accept_remote_addr (c : Connection) (p : Packet) (r : RecvFrom) (now : Nat) :
    (c.accept p r now).remote_addr =
      if c.server then
        if (InternetAddress.ofStorage r.uninit r.packet_remote_addr r.addrlen).ne c.remote_addr
        then c.remote_addr.assign
          (InternetAddress.ofStorage r.uninit r.packet_remote_addr r.addrlen)
        else c.remote_addr
      else c.remote_addr := by
  unfold Connection.accept Connection.update_RTT
  simp only []
  repeat' split
  all_goals rfl

theorem accept_has_remote_addr (c : Connection) (p : Packet) (r : RecvFrom) (now : Nat) :
    (c.accept p r now).has_remote_addr = true := by
  unfold Connection.accept Connection.update_RTT
  simp only []
  repeat' split
  all_goals rfl

theorem assign_ofStorage_apply (a : InternetAddress) (uninit sa : Sockaddr) (len i : Nat)
    (hi : i < len) :
    (a.assign (InternetAddress.ofStorage uninit sa len)).remote_addr i = sa i := by
  simp [InternetAddress.assign, InternetAddress.ofStorage, memcpy, hi]

theorem ofStorage_apply (uninit sa : Sockaddr) (len i : Nat) (hi : i < len) :
    (InternetAddress.ofStorage uninit sa len).remote_addr i = sa i := by
  simp [InternetAddress.ofStorage, memcpy, hi]

theorem assign_ofStorage_eq (a : InternetAddress) (uninit sa : Sockaddr) (len : Nat)
    (h : if ss_family sa = AF_INET then 8 ≤ len else 24 ≤ len) :
    (a.assign (InternetAddress.ofStorage uninit sa len)).eq
      (InternetAddress.ofStorage uninit sa len) = true := by
  have hX := assign_ofStorage_apply a uninit sa len
  have hY := ofStorage_apply uninit sa len
  by_cases hf : ss_family sa = AF_INET
  · rw [if_pos hf] at h
    have hfX : ss_family (a.assign (InternetAddress.ofStorage uninit sa len)).remote_addr
        = ss_family sa := by
      simp only [ss_family, hX 0 (by omega), hX 1 (by omega)]
    have hfY : ss_family (InternetAddress.ofStorage uninit sa len).remote_addr = ss_family sa := by
      simp only [ss_family, hY 0 (by omega), hY 1 (by omega)]
    simp only [InternetAddress.eq, hfX, hfY, hf, ne_eq, not_true_eq_false, if_false, if_true,
      sin_addr, sin_port, hX 2 (by omega), hX 3 (by omega), hX 4 (by omega), hX 5 (by omega),
      hX 6 (by omega), hX 7 (by omega), hY 2 (by omega), hY 3 (by omega), hY 4 (by omega),
      hY 5 (by omega), hY 6 (by omega), hY 7 (by omega), beq_self_eq_true, Bool.and_self]
  · rw [if_neg hf] at h
    have hfX : ss_family (a.assign (InternetAddress.ofStorage uninit sa len)).remote_addr
        = ss_family sa := by
      simp only [ss_family, hX 0 (by omega), hX 1 (by omega)]
    have hfY : ss_family (InternetAddress.ofStorage uninit sa len).remote_addr = ss_family sa := by
      simp only [ss_family, hY 0 (by omega), hY 1 (by omega)]
    simp only [InternetAddress.eq, hfX, hfY, hf, ne_eq, not_true_eq_false, if_false,
      sin6_addr, sin_port, hX 2 (by omega), hX 3 (by omega), hX 8 (by omega), hX 9 (by omega),
      hX 10 (by omega), hX 11 (by omega), hX 12 (by omega), hX 13 (by omega),
      hX 14 (by omega), hX 15 (by omega), hX 16 (by omega), hX 17 (by omega),
      hX 18 (by omega), hX 19 (by omega), hX 20 (by omega), hX 21 (by omega),
      hX 22 (by omega), hX 23 (by omega), hY 2 (by omega), hY 3 (by omega), hY 8 (by omega),
      hY 9 (by omega), hY 10 (by omega), hY 11 (by omega), hY 12 (by omega),
      hY 13 (by omega), hY 14 (by omega), hY 15 (by omega), hY 16 (by omega),
      hY 17 (by omega), hY 18 (by omega), hY 19 (by omega), hY 20 (by omega),
      hY 21 (by omega), hY 22 (by omega), hY 23 (by omega), beq_self_eq_true, Bool.and_self]

theorem recv_remote_addr_client (c : Connection) (r : RecvFrom) (now : Nat)
    (hc : c.server = false) : (c.recv r now).2.remote_addr = c.remote_addr := by
  rcases recv_state_cases c r now with h | ⟨p, _, _, _, h⟩
  · rw [h]
  · rw [h, accept_remote_addr, hc]
    rfl

theorem recvs_remote_addr_client (c : Connection) (rs : List (RecvFrom × Nat))
    (hc : c.server = false) : (c.recvs rs).remote_addr = c.remote_addr := by
  induction rs generalizing c with
  | nil => rfl
  | cons x rest ih =>
    obtain ⟨r, now⟩ := x
    exact (ih (c.recv r now).2 ((recv_server c r now).trans hc)).trans
      (recv_remote_addr_client c r now hc)

theorem send_target (c : Connection) (s : List Byte) (now : Nat) (bytes_sent errno : Int)
    (h : c.has_remote_addr = true) :
    ∃ (call : SendTo) (c2 : Connection), c.send s now bytes_sent errno = some (call, c2) ∧
      call.dest_addr = c.remote_addr.remote_addr ∧
      call.addrlen = c.remote_addr.remote_addr_len ∧
      call.data = (c.new_packet s now).1.tostring c.session ∧
      c2.next_seq = (c.new_packet s now).2.next_seq := by
  unfold Connection.send
  rw [if_pos h]
  simp only []
  have hr : (c.new_packet s now).2.remote_addr = c.remote_addr := by
    unfold Connection.new_packet
    simp only []
    split <;> rfl
  have hs : (c.new_packet s now).2.session = c.session := by
    unfold Connection.new_packet
    simp only []
    split <;> rfl
  rw [hr, hs]
  split
  · exact ⟨_, _, rfl, rfl, rfl, rfl, rfl⟩
  · exact ⟨_, _, rfl, rfl, rfl, rfl, rfl⟩

theorem new_packet_seq (c : Connection) (s : List Byte) (now : Nat) :
    (c.new_packet s now).1.seq = c.next_seq ∧
    (c.new_packet s now).1.direction = c.direction ∧
    (c.new_packet s now).2.next_seq = (c.next_seq + 1) % 2 ^ 64 ∧
    (c.new_packet s now).2.direction = c.direction := by
  unfold Connection.new_packet
  simp only []
  split <;> exact ⟨rfl, rfl, rfl, rfl⟩

theorem new_packets_from (calls : List (List Byte × Nat)) :
    ∀ c : Connection, c.next_seq + calls.length ≤ 2 ^ 63 →
      (c.new_packets calls).1.length = calls.length ∧
      (c.new_packets calls).2.next_seq = c.next_seq + calls.length ∧
      ∀ (k : Nat) (p : Packet), (c.new_packets calls).1[k]? = some p →
        p.seq = c.next_seq + k ∧ p.direction = c.direction := by
  induction calls with
  | nil =>
    intro c _
    refine ⟨rfl, rfl, ?_⟩
    intro k p hk
    simp [Connection.new_packets] at hk
  | cons x rest ih =>
    intro c hle
    obtain ⟨s, now⟩ := x
    obtain ⟨hseq, hdir, hnext, hdir2⟩ := new_packet_seq c s now
    simp only [List.length_cons] at hle
    have hnext1 : (c.new_packet s now).2.next_seq = c.next_seq + 1 := by
      rw [hnext]; exact Nat.mod_eq_of_lt (by omega)
    obtain ⟨ihlen, ihnext, ihk⟩ := ih (c.new_packet s now).2 (by omega)
    refine ⟨?_, ?_, ?_⟩
    · simp only [Connection.new_packets, List.length_cons, ihlen]
    · simp only [Connection.new_packets, List.length_cons, ihnext]
      omega
    · intro k p hk
      cases k with
      | zero =>
        simp only [Connection.new_packets, List.getElem?_cons_zero, Option.some.injEq] at hk
        rw [← hk]
        exact ⟨hseq, hdir⟩
      | succ k =>
        simp only [Connection.new_packets, List.getElem?_cons_succ] at hk
        obtain ⟨h1, h2⟩ := ihk k p hk
        exact ⟨by omega, h2.trans hdir2⟩

/-- C6: starting from `next_seq = 0`, the `k`-th of fewer than `2^63` consecutive
`new_packet` calls produces sequence number `k` and the fixed direction of the connection
(`send` seals exactly the packet `new_packet` returns); the nonces handed to the session
are therefore strictly increasing in their low 63 bits, and pairwise distinct. -/
theorem nonce_uniqueness (c : Connection) (calls : List (List Byte × Nat))
    (h0 : c.next_seq = 0) (hn : calls.length < 2 ^ 63) :
    (c.new_packets calls).1.length = calls.length ∧
    (c.new_packets calls).2.next_seq = calls.length ∧
    (∀ (k : Nat) (p : Packet), (c.new_packets calls).1[k]? = some p →
      p.seq = k ∧ p.direction = c.direction ∧ p.message.nonce % 2 ^ 63 = k ∧
      p.message.nonce = (if c.direction = Direction.TO_CLIENT then 2 ^ 63 else 0) + k) ∧
    (∀ (i j : Nat) (p q : Packet), i < j →
      (c.new_packets calls).1[i]? = some p → (c.new_packets calls).1[j]? = some q →
      p.message.nonce % 2 ^ 63 < q.message.nonce % 2 ^ 63 ∧
      p.message.nonce ≠ q.message.nonce) ∧
    (∀ (s : List Byte) (now : Nat) (bytes_sent errno : Int), c.has_remote_addr = true →
      ∃ (call : SendTo) (c2 : Connection), c.send s now bytes_sent errno = some (call, c2) ∧
        call.data = c.session.encrypt (c.new_packet s now).1.message ∧
        c2.next_seq = (c.new_packet s now).2.next_seq) := by
  obtain ⟨hlen, hnext, hk⟩ := new_packets_from calls c (by omega)
  have key : ∀ (k : Nat) (p : Packet), (c.new_packets calls).1[k]? = some p →
      k < 2 ^ 63 ∧ p.seq = k ∧ p.direction = c.direction ∧ p.message.nonce % 2 ^ 63 = k ∧
      p.message.nonce = (if c.direction = Direction.TO_CLIENT then 2 ^ 63 else 0) + k := by
    intro k p h
    obtain ⟨h1, h2⟩ := hk k p h
    have hklen : k < (c.new_packets calls).1.length := by
      by_contra hcon
      rw [List.getElem?_eq_none (by omega)] at h
      exact absurd h (by simp)
    have hk63 : k < 2 ^ 63 := by omega
    have hseq : p.seq = k := by omega
    have hnonce : p.message.nonce = p.direction_seq := rfl
    refine ⟨hk63, hseq, h2, ?_, ?_⟩
    · rw [hnonce, direction_seq_mod, hseq]
      exact Nat.mod_eq_of_lt hk63
    · rw [hnonce, direction_seq_eq, hseq, h2, Nat.mod_eq_of_lt hk63]
  refine ⟨hlen, by omega, ?_, ?_, ?_⟩
  · intro k p h
    exact (key k p h).2
  · intro i j p q hij hp hq
    obtain ⟨_, _, _, hp1, hp2⟩ := key i p hp
    obtain ⟨_, _, _, hq1, hq2⟩ := key j q hq
    refine ⟨by omega, ?_⟩
    intro heq
    rw [heq] at hp1
    omega
  · intro s now bytes_sent errno hhas
    obtain ⟨call, c2, hsend, _, _, hdata, hseq⟩ := send_target c s now bytes_sent errno hhas
    exact ⟨call, c2, hsend, hdata, hseq⟩

/-- On a fresh server the third of three packets carries sequence number 2 and the
nonce `2^63 + 2`. -/
theorem nonce_uniqueness_witness :
    (Packet.mk 2 Direction.TO_CLIENT 7000 65535 [3]).seq = 2 ∧
    (Packet.mk 2 Direction.TO_CLIENT 7000 65535 [3]).direction = Direction.TO_CLIENT ∧
    (Packet.mk 2 Direction.TO_CLIENT 7000 65535 [3]).message.nonce % 2 ^ 63 = 2 ∧
    (Packet.mk 2 Direction.TO_CLIENT 7000 65535 [3]).message.nonce = 2 ^ 63 + 2 :=
  (nonce_uniqueness (Connection.new_server Session.plain InternetAddress.zero)
    [([1], 5000), ([2], 6000), ([3], 7000)] rfl (by decide)).2.2.1 2
    (Packet.mk 2 Direction.TO_CLIENT 7000 65535 [3]) (by decide)

/-! ## The echoed timestamp -/

/-- C9, at clock value 500 on a freshly constructed server: nothing was ever received,
the saved slot holds the sentinel 0xFFFF and receipt time 0, and yet `new_packet` takes
the branch for a recent received timestamp and sends the echoed timestamp 499 instead of
the sentinel. -/
theorem new_packet_echo_without_saved_timestamp :
    (Connection.new_server Session.plain InternetAddress.zero).saved_timestamp = 65535 ∧
    (Connection.new_server Session.plain InternetAddress.zero).saved_timestamp_received_at = 0 ∧
    ((Connection.new_server Session.plain InternetAddress.zero).new_packet [] 500).1.timestamp_reply
      = 499 ∧
    ((Connection.new_server Session.plain InternetAddress.zero).new_packet [] 500).1.timestamp_reply
      ≠ 65535 := by
  refine ⟨rfl, rfl, ?_, ?_⟩ <;> decide

/-! ## The RTT estimator -/

theorem update_RTT_fields (c : Connection) (p : Packet) (now : Nat) :
    (c.update_RTT p now).SRTT =
      (if ((timestamp_diff (timestamp16 now) p.timestamp_reply : Nat) : ℚ) < 5000 then
        if c.RTT_hit = false then ((timestamp_diff (timestamp16 now) p.timestamp_reply : Nat) : ℚ)
        else (1 - 1 / 8) * c.SRTT
          + 1 / 8 * ((timestamp_diff (timestamp16 now) p.timestamp_reply : Nat) : ℚ)
      else c.SRTT) ∧
    (c.update_RTT p now).RTTVAR =
      (if ((timestamp_diff (timestamp16 now) p.timestamp_reply : Nat) : ℚ) < 5000 then
        if c.RTT_hit = false then
          ((timestamp_diff (timestamp16 now) p.timestamp_reply : Nat) : ℚ) / 2
        else (1 - 1 / 4) * c.RTTVAR
          + 1 / 4 * |c.SRTT - ((timestamp_diff (timestamp16 now) p.timestamp_reply : Nat) : ℚ)|
      else c.RTTVAR) ∧
    (c.update_RTT p now).RTT_hit =
      (if ((timestamp_diff (timestamp16 now) p.timestamp_reply : Nat) : ℚ) < 5000 then true
      else c.RTT_hit) := by
  unfold Connection.update_RTT
  simp only []
  by_cases hR : ((timestamp_diff (timestamp16 now) p.timestamp_reply : Nat) : ℚ) < 5000
  · simp only [hR, if_true]
    cases hh : c.RTT_hit <;> simp
  · simp only [hR, if_false, and_self]

theorem update_RTT_congr (c c1 : Connection) (p : Packet) (now : Nat)
    (h1 : c1.SRTT = c.SRTT) (h2 : c1.RTTVAR = c.RTTVAR) (h3 : c1.RTT_hit = c.RTT_hit) :
    (c1.update_RTT p now).SRTT = (c.update_RTT p now).SRTT ∧
    (c1.update_RTT p now).RTTVAR = (c.update_RTT p now).RTTVAR ∧
    (c1.update_RTT p now).RTT_hit = (c.update_RTT p now).RTT_hit := by
  obtain ⟨a1, a2, a3⟩ := update_RTT_fields c1 p now
  obtain ⟨b1, b2, b3⟩ := update_RTT_fields c p now
  rw [a1, a2, a3, b1, b2, b3, h1, h2, h3]
  exact ⟨rfl, rfl, rfl⟩

theorem accept_RTT (c : Connection) (p : Packet) (r : RecvFrom) (now : Nat) :
    (c.accept p r now).SRTT
      = (if p.timestamp_reply ≠ 65535 then (c.update_RTT p now).SRTT else c.SRTT) ∧
    (c.accept p r now).RTTVAR
      = (if p.timestamp_reply ≠ 65535 then (c.update_RTT p now).RTTVAR else c.RTTVAR) ∧
    (c.accept p r now).RTT_hit
      = (if p.timestamp_reply ≠ 65535 then (c.update_RTT p now).RTT_hit else c.RTT_hit) := by
  have E1 := update_RTT_congr c { c with expected_receiver_seq := (p.seq + 1) % 2 ^ 64 } p now
    rfl rfl rfl
  have E2 := update_RTT_congr c
    { c with expected_receiver_seq := (p.seq + 1) % 2 ^ 64, saved_timestamp := p.timestamp,
             saved_timestamp_received_at := now } p now rfl rfl rfl
  unfold Connection.accept
  simp only []
  by_cases ht : p.timestamp = 65535 <;> by_cases hr : p.timestamp_reply = 65535 <;>
    simp only [ht, hr, ne_eq, not_true_eq_false, not_false_eq_true, if_true, if_false]
  all_goals
    refine ⟨?_, ?_, ?_⟩ <;> (repeat' split) <;>
      first
      | rfl
      | exact E1.1
      | exact E1.2.1
      | exact E1.2.2
      | exact E2.1
      | exact E2.2.1
      | exact E2.2.2

theorem timestamp_diff_eq (tsnew tsold : Nat) :
    ((timestamp_diff tsnew tsold : Nat) : Int) = ((tsnew : Int) - (tsold : Int)) % 65536 ∧
    timestamp_diff tsnew tsold ≤ 65535 := by
  unfold timestamp_diff
  simp only []
  split <;> omega

theorem decode_timestamp_reply_lt (coded : List Byte) (session : Session) (p : Packet)
    (h : Packet.decode coded session = Except.ok p) : p.timestamp_reply < 65536 := by
  simp only [Packet.decode, bind, Except.bind] at h
  split at h
  · exact absurd h (by simp)
  · rename_i m _
    by_cases hlen : 4 ≤ m.text.length
    · rw [ofMessage_long m hlen] at h
      injection h with h
      rw [← h]
      simp only [be16toh]
      omega
    · rw [ofMessage_short m (by omega)] at h
      exact absurd h (by simp)

theorem timestamp16_lt (t : Nat) : timestamp16 t < 65536 := by
  unfold timestamp16
  simp only []
  split <;> omega

/-! ## Rounding to a double -/

theorem ilog2_foldl (n : Nat) (l : List Nat) (e : Nat) (h : n >>> e ≠ 0) :
    n >>> (l.foldl (fun e k => if n >>> (e + k) = 0 then e else e + k) e) ≠ 0 := by
  induction l generalizing e with
  | nil => exact h
  | cons k rest ih =>
    rw [List.foldl_cons]
    by_cases hk : n >>> (e + k) = 0
    · rw [if_pos hk]
      exact ih e h
    · rw [if_neg hk]
      exact ih (e + k) hk

theorem two_pow_ilog2_le (n : Nat) (hn : n ≠ 0) : 2 ^ Double.ilog2 n ≤ n := by
  have h := ilog2_foldl n [2048, 1024, 512, 256, 128, 64, 32, 16, 8, 4, 2, 1] 0
    (by rw [Nat.shiftRight_zero]; exact hn)
  have h2 : n >>> Double.ilog2 n ≠ 0 := h
  rw [Nat.shiftRight_eq_div_pow] at h2
  by_contra hlt
  exact h2 (Nat.div_eq_of_lt (Nat.lt_of_not_le hlt))

theorem ilog2_lt (n k : Nat) (h : n < 2 ^ k) : Double.ilog2 n < k ∨ n = 0 := by
  by_cases hn : n = 0
  · exact Or.inr hn
  · left
    have h1 := two_pow_ilog2_le n hn
    exact (Nat.pow_lt_pow_iff_right (by norm_num : 1 < 2)).mp (lt_of_le_of_lt h1 h)

theorem ilog2_zero : Double.ilog2 0 = 0 := by decide

/-- The rounding of `num / den` is at most `c` when `num / den` is, for a bound `c` that is
a multiple of every spacing in use below it. -/
theorem round_nat_le (num den c k : Nat) (hden : 0 < den) (h : num ≤ c * den)
    (hk : c < 2 ^ (k + 52)) (hc : 2 ^ k ∣ c) :
    Double.round_nat num den ≤ c := by
  unfold Double.round_nat
  simp only [Nat.shiftLeft_eq]
  have hq : num / den ≤ c := Nat.div_le_of_le_mul (by rw [Nat.mul_comm]; exact h)
  have hs : Double.ilog2 (num / den) - 52 ≤ k := by
    rcases ilog2_lt (num / den) (k + 52) (lt_of_le_of_lt hq hk) with h1 | h1
    · omega
    · rw [h1, ilog2_zero]
      omega
  generalize Double.ilog2 (num / den) - 52 = s at hs
  have hsc : 2 ^ s ∣ c := Dvd.dvd.trans (pow_dvd_pow 2 hs) hc
  obtain ⟨d, rfl⟩ := hsc
  have hb : 0 < den * 2 ^ s := Nat.mul_pos hden (by positivity)
  have hnum : num ≤ d * (den * 2 ^ s) := by
    calc num ≤ 2 ^ s * d * den := h
      _ = d * (den * 2 ^ s) := by ring
  have hf : num / (den * 2 ^ s) ≤ d := Nat.div_le_of_le_mul (by rw [Nat.mul_comm]; exact hnum)
  rw [Nat.mul_comm (2 ^ s) d]
  apply Nat.mul_le_mul_right
  by_cases hfd : num / (den * 2 ^ s) = d
  · have hr : num % (den * 2 ^ s) = 0 := by
      have := Nat.div_add_mod num (den * 2 ^ s)
      rw [hfd] at this
      have h3 : den * 2 ^ s * d = d * (den * 2 ^ s) := Nat.mul_comm _ _
      omega
    rw [hr, if_pos (by omega), hfd]
  · have hlt : num / (den * 2 ^ s) < d := lt_of_le_of_ne hf hfd
    split
    · omega
    · split
      · omega
      · split <;> omega

theorem unit_eq : Double.unit = 2 ^ Double.emin := by
  unfold Double.unit
  rw [Nat.shiftLeft_eq, Nat.one_mul]

theorem unit_pos : (0 : Int) < (Double.unit : Int) := by
  have h : 0 < Double.unit := by
    rw [unit_eq]
    generalize Double.emin = k
    exact pow_pos (by norm_num) k
  exact_mod_cast h

theorem round_nat_le_unit (num den M : Nat) (hden : 0 < den) (hM : M < 2 ^ 52)
    (h : num ≤ M * Double.unit * den) : Double.round_nat num den ≤ M * Double.unit := by
  apply round_nat_le num den (M * Double.unit) Double.emin hden h
  · rw [unit_eq]
    generalize Double.emin = k
    rw [Nat.pow_add, Nat.mul_comm]
    exact Nat.mul_lt_mul_of_pos_left hM (pow_pos (by norm_num) k)
  · rw [unit_eq]
    exact Dvd.intro_left M rfl

theorem round_nonneg (num : Int) (den : Nat) (h : 0 ≤ num) : 0 ≤ Double.round num den := by
  unfold Double.round
  rw [if_neg (by omega)]
  exact Int.natCast_nonneg _

theorem round_bounds (num : Int) (den M : Nat) (hden : 0 < den) (hM : M < 2 ^ 52)
    (h0 : -((M : Int) * (Double.unit : Int) * (den : Int)) ≤ num)
    (h1 : num ≤ (M : Int) * (Double.unit : Int) * (den : Int)) :
    -((M : Int) * (Double.unit : Int)) ≤ Double.round num den ∧
    Double.round num den ≤ (M : Int) * (Double.unit : Int) := by
  have hn : num.natAbs ≤ M * Double.unit * den := by
    have e : ((M * Double.unit * den : Nat) : Int)
        = (M : Int) * (Double.unit : Int) * (den : Int) := by push_cast; rfl
    have : ((num.natAbs : Nat) : Int) ≤ ((M * Double.unit * den : Nat) : Int) := by
      rw [e]
      omega
    exact_mod_cast this
  have hr := round_nat_le_unit num.natAbs den M hden hM hn
  have hr1 : ((Double.round_nat num.natAbs den : Nat) : Int) ≤ (M : Int) * (Double.unit : Int) := by
    exact_mod_cast hr
  have hr0 : (0 : Int) ≤ ((Double.round_nat num.natAbs den : Nat) : Int) := Int.natCast_nonneg _
  have hMU : (0 : Int) ≤ (M : Int) * (Double.unit : Int) :=
    mul_nonneg (Int.natCast_nonneg _) (le_of_lt unit_pos)
  clear hn hr h0 h1
  unfold Double.round
  by_cases hneg : num < 0
  · rw [if_pos hneg]
    constructor <;> omega
  · rw [if_neg hneg]
    constructor <;> omega

theorem add_bounds (a b : Int) (M : Nat) (hM : M < 2 ^ 52) (h0 : 0 ≤ a + b)
    (h1 : a + b ≤ (M : Int) * (Double.unit : Int)) :
    0 ≤ Double.add a b ∧ Double.add a b ≤ (M : Int) * (Double.unit : Int) := by
  have hU := unit_pos
  have hMU : (0 : Int) ≤ (M : Int) * (Double.unit : Int) :=
    mul_nonneg (Int.natCast_nonneg _) (le_of_lt hU)
  refine ⟨round_nonneg _ _ h0, (round_bounds (a + b) 1 M (by norm_num) hM ?_ ?_).2⟩
  · simp only [Nat.cast_one, mul_one]
    omega
  · simp only [Nat.cast_one, mul_one]
    exact h1

theorem sub_bounds (a b : Int) (M : Nat) (hM : M < 2 ^ 52)
    (h0 : -((M : Int) * (Double.unit : Int)) ≤ a - b)
    (h1 : a - b ≤ (M : Int) * (Double.unit : Int)) :
    -((M : Int) * (Double.unit : Int)) ≤ Double.sub a b ∧
    Double.sub a b ≤ (M : Int) * (Double.unit : Int) := by
  refine round_bounds (a - b) 1 M (by norm_num) hM ?_ ?_
  · simp only [Nat.cast_one, mul_one]
    exact h0
  · simp only [Nat.cast_one, mul_one]
    exact h1

theorem mul_bounds (a b : Int) (M : Nat) (hM : M < 2 ^ 52) (h0 : 0 ≤ a * b)
    (h1 : a * b ≤ (M : Int) * (Double.unit : Int) * (Double.unit : Int)) :
    0 ≤ Double.mul a b ∧ Double.mul a b ≤ (M : Int) * (Double.unit : Int) := by
  have hU := unit_pos
  have hUn : 0 < Double.unit := by exact_mod_cast hU
  have hMUU : (0 : Int) ≤ (M : Int) * (Double.unit : Int) * (Double.unit : Int) :=
    mul_nonneg (mul_nonneg (Int.natCast_nonneg _) (le_of_lt hU)) (le_of_lt hU)
  exact ⟨round_nonneg _ _ h0, (round_bounds (a * b) Double.unit M hUn hM (by omega) h1).2⟩

theorem div_two_bounds (a : Int) (M : Nat) (hM : M < 2 ^ 52) (h0 : 0 ≤ a)
    (h1 : a ≤ (M : Int) * (Double.unit : Int)) :
    0 ≤ Double.div a (Double.ofInt 2) ∧
    Double.div a (Double.ofInt 2) ≤ (M : Int) * (Double.unit : Int) := by
  have hU := unit_pos
  have h2 : ¬ Double.ofInt 2 < 0 := by
    unfold Double.ofInt
    omega
  have hden : 0 < (Double.ofInt 2).natAbs := by
    unfold Double.ofInt
    omega
  have hcast : (((Double.ofInt 2).natAbs : Nat) : Int) = 2 * (Double.unit : Int) := by
    unfold Double.ofInt
    omega
  have hp : 0 ≤ a * (Double.unit : Int) := mul_nonneg h0 (le_of_lt hU)
  unfold Double.div
  rw [if_neg h2]
  refine ⟨round_nonneg _ _ hp, (round_bounds _ _ M hden hM ?_ ?_).2⟩
  · rw [hcast]
    have : 0 ≤ (M : Int) * (Double.unit : Int) * (2 * (Double.unit : Int)) :=
      mul_nonneg (mul_nonneg (Int.natCast_nonneg _) (le_of_lt hU)) (by omega)
    omega
  · rw [hcast]
    have e1 : a * (Double.unit : Int) ≤ (M : Int) * (Double.unit : Int) * (Double.unit : Int) :=
      mul_le_mul_of_nonneg_right h1 (le_of_lt hU)
    have e2 : 0 ≤ (M : Int) * (Double.unit : Int) * (Double.unit : Int) :=
      mul_nonneg (mul_nonneg (Int.natCast_nonneg _) (le_of_lt hU)) (le_of_lt hU)
    have e3 : (M : Int) * (Double.unit : Int) * (2 * (Double.unit : Int))
        = 2 * ((M : Int) * (Double.unit : Int) * (Double.unit : Int)) := by ring
    rw [e3]
    omega

/-! ## The RTT estimator in double arithmetic -/

theorem double_alpha :
    8 * Double.div (Double.ofInt 1) (Double.ofInt 8) = (Double.unit : Int) := by
  decide

theorem double_beta :
    4 * Double.div (Double.ofInt 1) (Double.ofInt 4) = (Double.unit : Int) := by
  decide

theorem double_one_sub_alpha :
    8 * Double.sub (Double.ofInt 1) (Double.div (Double.ofInt 1) (Double.ofInt 8))
      = 7 * (Double.unit : Int) := by
  decide

theorem double_one_sub_beta :
    4 * Double.sub (Double.ofInt 1) (Double.div (Double.ofInt 1) (Double.ofInt 4))
      = 3 * (Double.unit : Int) := by
  decide

theorem const_mul_bound (c x U k m X N : Int) (hU : 0 < U) (hk : 0 < k) (hc : k * c = m * U)
    (hm : 0 ≤ m) (hx0 : 0 ≤ x) (hx1 : x ≤ X * U) (hN : m * X = k * N) :
    0 ≤ c * x ∧ c * x ≤ N * U * U := by
  have hc0 : 0 ≤ c := by
    by_contra hneg
    have : k * c < 0 := mul_neg_of_pos_of_neg hk (by omega)
    have : 0 ≤ m * U := mul_nonneg hm (le_of_lt hU)
    omega
  refine ⟨mul_nonneg hc0 hx0, ?_⟩
  have h1 : k * (c * x) ≤ k * (N * U * U) := by
    have e1 : k * (c * x) = m * U * x := by rw [← mul_assoc, hc]
    have e2 : k * (N * U * U) = m * U * (X * U) := by
      rw [← mul_assoc, ← mul_assoc, ← hN]
      ring
    rw [e1, e2]
    exact mul_le_mul_of_nonneg_left hx1 (mul_nonneg hm (le_of_lt hU))
  exact le_of_mul_le_mul_left h1 hk

theorem update_bounded (s : RTT) (p : Packet) (now : Nat)
    (h : 0 ≤ s.SRTT ∧ s.SRTT ≤ 5000 * (Double.unit : Int) ∧
      0 ≤ s.RTTVAR ∧ s.RTTVAR ≤ 5000 * (Double.unit : Int)) :
    0 ≤ (s.update p now).SRTT ∧ (s.update p now).SRTT ≤ 5000 * (Double.unit : Int) ∧
    0 ≤ (s.update p now).RTTVAR ∧ (s.update p now).RTTVAR ≤ 5000 * (Double.unit : Int) := by
  obtain ⟨h1, h2, h3, h4⟩ := h
  have hU := unit_pos
  by_cases hr : p.timestamp_reply ≠ 65535
  · by_cases hR : Double.ofInt (timestamp_diff (timestamp16 now) p.timestamp_reply : Int)
        < Double.ofInt 5000
    · have hR0 : 0 ≤ Double.ofInt (timestamp_diff (timestamp16 now) p.timestamp_reply : Int) := by
        unfold Double.ofInt
        exact mul_nonneg (Int.natCast_nonneg _) (le_of_lt hU)
      have hR1 : Double.ofInt (timestamp_diff (timestamp16 now) p.timestamp_reply : Int)
          ≤ 5000 * (Double.unit : Int) := le_of_lt hR
      by_cases hh : (!s.RTT_hit) = true
      · have e : s.update p now
            = RTT.mk true (Double.ofInt (timestamp_diff (timestamp16 now) p.timestamp_reply : Int))
                (Double.div
                  (Double.ofInt (timestamp_diff (timestamp16 now) p.timestamp_reply : Int))
                  (Double.ofInt 2)) := by
          unfold RTT.update
          rw [if_pos hr]
          exact (if_pos hR).trans (if_pos hh)
        rw [e]
        obtain ⟨d0, d1⟩ := div_two_bounds _ 5000 (by norm_num) hR0 (by exact_mod_cast hR1)
        exact ⟨hR0, hR1, d0, by exact_mod_cast d1⟩
      · have e : s.update p now
            = RTT.mk s.RTT_hit
                (Double.add
                  (Double.mul
                    (Double.sub (Double.ofInt 1) (Double.div (Double.ofInt 1) (Double.ofInt 8)))
                    s.SRTT)
                  (Double.mul (Double.div (Double.ofInt 1) (Double.ofInt 8))
                    (Double.ofInt (timestamp_diff (timestamp16 now) p.timestamp_reply : Int))))
                (Double.add
                  (Double.mul
                    (Double.sub (Double.ofInt 1) (Double.div (Double.ofInt 1) (Double.ofInt 4)))
                    s.RTTVAR)
                  (Double.mul (Double.div (Double.ofInt 1) (Double.ofInt 4))
                    (Double.fabs (Double.sub s.SRTT
                      (Double.ofInt
                        (timestamp_diff (timestamp16 now) p.timestamp_reply : Int)))))) := by
          unfold RTT.update
          rw [if_pos hr]
          exact (if_pos hR).trans (if_neg hh)
        rw [e]
        generalize Double.ofInt (timestamp_diff (timestamp16 now) p.timestamp_reply : Int) = R
          at hR0 hR1
        have cA := double_alpha
        have cB := double_beta
        have cA1 := double_one_sub_alpha
        have cB1 := double_one_sub_beta
        generalize Double.div (Double.ofInt 1) (Double.ofInt 8) = A at cA cA1
        generalize Double.div (Double.ofInt 1) (Double.ofInt 4) = B at cB cB1
        generalize Double.sub (Double.ofInt 1) A = A1 at cA1
        generalize Double.sub (Double.ofInt 1) B = B1 at cB1
        obtain ⟨p1, p2⟩ := const_mul_bound A1 s.SRTT Double.unit 8 7 5000 4375 hU (by norm_num)
          cA1 (by norm_num) h1 h2 (by norm_num)
        obtain ⟨m1, m2⟩ := mul_bounds A1 s.SRTT 4375 (by norm_num) p1 (by exact_mod_cast p2)
        obtain ⟨p3, p4⟩ := const_mul_bound A R Double.unit 8 1 5000 625 hU (by norm_num)
          (by rw [cA, one_mul]) (by norm_num) hR0 hR1 (by norm_num)
        obtain ⟨m3, m4⟩ := mul_bounds A R 625 (by norm_num) p3 (by exact_mod_cast p4)
        obtain ⟨a1, a2⟩ := add_bounds (Double.mul A1 s.SRTT) (Double.mul A R) 5000 (by norm_num)
          (by omega) (by push_cast at m2 m4 ⊢; omega)
        obtain ⟨q1, q2⟩ := const_mul_bound B1 s.RTTVAR Double.unit 4 3 5000 3750 hU
          (by norm_num) cB1 (by norm_num) h3 h4 (by norm_num)
        obtain ⟨n1, n2⟩ := mul_bounds B1 s.RTTVAR 3750 (by norm_num) q1 (by exact_mod_cast q2)
        obtain ⟨s1, s2⟩ := sub_bounds s.SRTT R 5000 (by norm_num)
          (by push_cast; omega) (by push_cast; omega)
        have hf0 : 0 ≤ Double.fabs (Double.sub s.SRTT R) := abs_nonneg _
        have hf1 : Double.fabs (Double.sub s.SRTT R) ≤ 5000 * (Double.unit : Int) := by
          unfold Double.fabs
          exact abs_le.mpr ⟨by push_cast at s1; omega, by push_cast at s2; omega⟩
        obtain ⟨q3, q4⟩ := const_mul_bound B (Double.fabs (Double.sub s.SRTT R)) Double.unit
          4 1 5000 1250 hU (by norm_num) (by rw [cB, one_mul]) (by norm_num) hf0 hf1
          (by norm_num)
        obtain ⟨n3, n4⟩ := mul_bounds B (Double.fabs (Double.sub s.SRTT R)) 1250 (by norm_num)
          q3 (by exact_mod_cast q4)
        obtain ⟨b1, b2⟩ := add_bounds (Double.mul B1 s.RTTVAR)
          (Double.mul B (Double.fabs (Double.sub s.SRTT R))) 5000 (by norm_num)
          (by omega) (by push_cast at n2 n4 ⊢; omega)
        exact ⟨a1, by exact_mod_cast a2, b1, by exact_mod_cast b2⟩
    · have e : s.update p now = s := by
        unfold RTT.update
        rw [if_pos hr]
        exact if_neg hR
      rw [e]
      exact ⟨h1, h2, h3, h4⟩
  · have e : s.update p now = s := by
      unfold RTT.update
      rw [if_neg hr]
    rw [e]
    exact ⟨h1, h2, h3, h4⟩

theorem updates_bounded (s : RTT) (rs : List (Packet × Nat))
    (h : 0 ≤ s.SRTT ∧ s.SRTT ≤ 5000 * (Double.unit : Int) ∧
      0 ≤ s.RTTVAR ∧ s.RTTVAR ≤ 5000 * (Double.unit : Int)) :
    0 ≤ (s.updates rs).SRTT ∧ (s.updates rs).SRTT ≤ 5000 * (Double.unit : Int) ∧
    0 ≤ (s.updates rs).RTTVAR ∧ (s.updates rs).RTTVAR ≤ 5000 * (Double.unit : Int) := by
  induction rs generalizing s with
  | nil => exact h
  | cons x rest ih =>
    obtain ⟨p, now⟩ := x
    exact ih _ (update_bounded s p now h)

theorem updates_append (s : RTT) (l1 l2 : List (Packet × Nat)) :
    s.updates (l1 ++ l2) = (s.updates l1).updates l2 := by
  induction l1 generalizing s with
  | nil => rfl
  | cons x rest ih =>
    obtain ⟨p, now⟩ := x
    exact ih _

theorem timeout_of_bounded_double (MIN_RTO MAX_RTO : Nat) (s : RTT) (hc : MIN_RTO ≤ MAX_RTO)
    (h : 0 ≤ s.SRTT ∧ s.SRTT ≤ 5000 * (Double.unit : Int) ∧
      0 ≤ s.RTTVAR ∧ s.RTTVAR ≤ 5000 * (Double.unit : Int)) :
    ((s.timeout MIN_RTO MAX_RTO : Nat) : Int)
      = max (MIN_RTO : Int) (min (MAX_RTO : Int)
          (Double.ceil (Double.add s.SRTT (Double.mul (Double.ofInt 4) s.RTTVAR)))) ∧
    MIN_RTO ≤ s.timeout MIN_RTO MAX_RTO ∧ s.timeout MIN_RTO MAX_RTO ≤ MAX_RTO := by
  obtain ⟨h1, h2, h3, h4⟩ := h
  have hU := unit_pos
  obtain ⟨p1, p2⟩ := const_mul_bound (Double.ofInt 4) s.RTTVAR Double.unit 1 4 5000 20000 hU
    (by norm_num) (by unfold Double.ofInt; ring) (by norm_num) h3 h4 (by norm_num)
  obtain ⟨m1, m2⟩ := mul_bounds (Double.ofInt 4) s.RTTVAR 20000 (by norm_num) p1
    (by exact_mod_cast p2)
  obtain ⟨a1, a2⟩ := add_bounds s.SRTT (Double.mul (Double.ofInt 4) s.RTTVAR) 25000
    (by norm_num) (by omega) (by push_cast at m2 ⊢; omega)
  have hc0 : 0 ≤ Double.ceil (Double.add s.SRTT (Double.mul (Double.ofInt 4) s.RTTVAR)) := by
    unfold Double.ceil
    have : -Double.add s.SRTT (Double.mul (Double.ofInt 4) s.RTTVAR) / (Double.unit : Int) ≤ 0 :=
      Int.ediv_le_of_le_mul hU (by omega)
    omega
  have hc1 : Double.ceil (Double.add s.SRTT (Double.mul (Double.ofInt 4) s.RTTVAR)) ≤ 25000 := by
    unfold Double.ceil
    have : -25000 ≤
        -Double.add s.SRTT (Double.mul (Double.ofInt 4) s.RTTVAR) / (Double.unit : Int) :=
      Int.le_ediv_of_mul_le hU (by push_cast at a2; omega)
    omega
  unfold RTT.timeout
  simp only []
  generalize Double.ceil (Double.add s.SRTT (Double.mul (Double.ofInt 4) s.RTTVAR)) = z
    at hc0 hc1
  have hz : ((z % 2 ^ 64).toNat : Int) = z := by omega
  by_cases ha : (z % 2 ^ 64).toNat < MIN_RTO
  · rw [if_pos ha]
    omega
  · rw [if_neg ha]
    by_cases hb : (z % 2 ^ 64).toNat > MAX_RTO
    · rw [if_pos hb]
      omega
    · rw [if_neg hb]
      omega

/-! ## The retransmission timeout in double arithmetic -/

set_option maxRecDepth 8000 in
theorem updates_sample_100_first :
    RTT.new.updates (List.replicate 20 sample_100)
      = RTT.mk true (Double.ofInt 100) ((29056536675 <<< 1037 : Nat) : Int) := by
  decide

set_option maxRecDepth 8000 in
theorem updates_sample_100_second :
    (RTT.mk true (Double.ofInt 100) ((29056536675 <<< 1037 : Nat) : Int)).updates
        (List.replicate 20 sample_100)
      = RTT.mk true (Double.ofInt 100) ((6183708424406397 <<< 1011 : Nat) : Int) := by
  decide

set_option maxRecDepth 8000 in
theorem updates_sample_100_third :
    (RTT.mk true (Double.ofInt 100) ((6183708424406397 <<< 1011 : Nat) : Int)).updates
        (List.replicate 20 sample_100)
      = RTT.mk true (Double.ofInt 100) ((5020121595485257 <<< 1003 : Nat) : Int) := by
  decide

set_option maxRecDepth 8000 in
theorem updates_sample_100_fourth :
    (RTT.mk true (Double.ofInt 100) ((5020121595485257 <<< 1003 : Nat) : Int)).updates
        (List.replicate 20 sample_100)
      = RTT.mk true (Double.ofInt 100) ((2037743300928411 <<< 996 : Nat) : Int) := by
  decide

set_option maxRecDepth 8000 in
theorem updates_sample_100_fifth :
    (RTT.mk true (Double.ofInt 100) ((2037743300928411 <<< 996 : Nat) : Int)).updates
        (List.replicate 20 sample_100)
      = RTT.mk true (Double.ofInt 100) ((3308603332806115 <<< 987 : Nat) : Int) := by
  decide

set_option maxRecDepth 8000 in
theorem updates_sample_100_sixth :
    (RTT.mk true (Double.ofInt 100) ((3308603332806115 <<< 987 : Nat) : Int)).updates
        (List.replicate 20 sample_100)
      = RTT.mk true (Double.ofInt 100) ((2686024291889037 <<< 979 : Nat) : Int) := by
  decide

set_option maxRecDepth 8000 in
theorem updates_sample_100_seventh :
    (RTT.mk true (Double.ofInt 100) ((2686024291889037 <<< 979 : Nat) : Int)).updates
        (List.replicate 20 sample_100)
      = RTT.mk true (Double.ofInt 100) ((4361191578985083 <<< 970 : Nat) : Int) := by
  decide

theorem updates_sample_100 :
    RTT.new.updates (List.replicate 140 sample_100)
      = RTT.mk true (Double.ofInt 100) ((4361191578985083 <<< 970 : Nat) : Int) := by
  have e : List.replicate 140 sample_100
      = List.replicate 20 sample_100 ++ (List.replicate 20 sample_100 ++
        (List.replicate 20 sample_100 ++ (List.replicate 20 sample_100 ++
        (List.replicate 20 sample_100 ++ (List.replicate 20 sample_100 ++
        List.replicate 20 sample_100))))) := rfl
  rw [e, updates_append, updates_sample_100_first, updates_append, updates_sample_100_second,
    updates_append, updates_sample_100_third, updates_append, updates_sample_100_fourth,
    updates_append, updates_sample_100_fifth, updates_append, updates_sample_100_sixth,
    updates_sample_100_seventh]

/-- After 140 samples of 100 ms the sum `SRTT + 4 * RTTVAR` taken exactly has the ceiling
101, and taken in double arithmetic it is 100.0, so `timeout()` is 100. -/
theorem timeout_rounds_the_sum :
    -((-((RTT.new.updates (List.replicate 140 sample_100)).SRTT
          + 4 * (RTT.new.updates (List.replicate 140 sample_100)).RTTVAR))
        / (Double.unit : Int)) = 101 ∧
    Double.add (RTT.new.updates (List.replicate 140 sample_100)).SRTT
        (Double.mul (Double.ofInt 4) (RTT.new.updates (List.replicate 140 sample_100)).RTTVAR)
      = Double.ofInt 100 ∧
    (RTT.new.updates (List.replicate 140 sample_100)).timeout 50 1000 = 100 := by
  rw [updates_sample_100]
  refine ⟨by decide, by decide, by decide⟩

/-- C11: in every RTT state reached from SRTT = 1000, RTTVAR = 500 by any series of the
RTT updates of `recv`, and for constants `MIN_RTO <= MAX_RTO`, `timeout()` is
`ceil( SRTT + 4 * RTTVAR )`, the sum and the product in double arithmetic as in the code,
clamped into `[MIN_RTO, MAX_RTO]`, and so lies between the two constants. -/
theorem timeout_clamp (MIN_RTO MAX_RTO : Nat) (s0 : RTT) (rs : List (Packet × Nat))
    (hc : MIN_RTO ≤ MAX_RTO) (hS : s0.SRTT = Double.ofInt 1000)
    (hV : s0.RTTVAR = Double.ofInt 500) :
    (((s0.updates rs).timeout MIN_RTO MAX_RTO : Nat) : Int)
      = max (MIN_RTO : Int)
          (min (MAX_RTO : Int)
            (Double.ceil (Double.add (s0.updates rs).SRTT
              (Double.mul (Double.ofInt 4) (s0.updates rs).RTTVAR)))) ∧
    MIN_RTO ≤ (s0.updates rs).timeout MIN_RTO MAX_RTO ∧
    (s0.updates rs).timeout MIN_RTO MAX_RTO ≤ MAX_RTO := by
  have hU := unit_pos
  have h0 : 0 ≤ s0.SRTT ∧ s0.SRTT ≤ 5000 * (Double.unit : Int) ∧
      0 ≤ s0.RTTVAR ∧ s0.RTTVAR ≤ 5000 * (Double.unit : Int) := by
    rw [hS, hV]
    unfold Double.ofInt
    refine ⟨by omega, by omega, by omega, by omega⟩
  exact timeout_of_bounded_double MIN_RTO MAX_RTO _ hc (updates_bounded s0 rs h0)

/-- A fresh connection after 140 samples of 100 ms, with the constants 50 and 1000: the
timeout is 100. -/
theorem timeout_clamp_witness :
    (RTT.new.updates (List.replicate 140 sample_100)).timeout 50 1000 = 100 ∧
    50 ≤ (RTT.new.updates (List.replicate 140 sample_100)).timeout 50 1000 ∧
    (RTT.new.updates (List.replicate 140 sample_100)).timeout 50 1000 ≤ 1000 :=
  ⟨timeout_rounds_the_sum.2.2,
   (timeout_clamp 50 1000 RTT.new (List.replicate 140 sample_100) (by decide) rfl rfl).2⟩


/-- C12: when `recv` accepts a packet whose echoed timestamp is not the sentinel, the
sample `R` is `(timestamp16() - timestamp_reply) mod 65536`, at most 65535; for
`R >= 5000` the RTT state is unchanged; for `R < 5000` the first sample sets
`(SRTT, RTTVAR, RTT_hit) = (R, R/2, true)` and a later one sets
`RTTVAR = 3/4 RTTVAR + 1/4 |SRTT - R|` (old SRTT) and `SRTT = 7/8 SRTT + 1/8 R`; a first
sample of 250 gives SRTT 250, RTTVAR 125 and the unclamped timeout 750. -/
theorem rtt_estimator_step (c : Connection) (r : RecvFrom) (now : Nat) (p : Packet) (R : Nat)
    (h : c.receives r p) (hdir : p.direction = c.incoming)
    (hnew : c.expected_receiver_seq ≤ p.seq) (hreply : p.timestamp_reply ≠ 65535)
    (hR : R = timestamp_diff (timestamp16 now) p.timestamp_reply) :
    (R : Int) = ((timestamp16 now : Int) - (p.timestamp_reply : Int)) % 65536 ∧
    R ≤ 65535 ∧
    (5000 ≤ R →
      (c.recv r now).2.SRTT = c.SRTT ∧ (c.recv r now).2.RTTVAR = c.RTTVAR ∧
      (c.recv r now).2.RTT_hit = c.RTT_hit) ∧
    (R < 5000 → c.RTT_hit = false →
      (c.recv r now).2.SRTT = (R : ℚ) ∧ (c.recv r now).2.RTTVAR = (R : ℚ) / 2 ∧
      (c.recv r now).2.RTT_hit = true) ∧
    (R < 5000 → c.RTT_hit = true →
      (c.recv r now).2.RTTVAR = 3 / 4 * c.RTTVAR + 1 / 4 * |c.SRTT - (R : ℚ)| ∧
      (c.recv r now).2.SRTT = 7 / 8 * c.SRTT + 1 / 8 * (R : ℚ) ∧
      (c.recv r now).2.RTT_hit = true) ∧
    (R = 250 → c.RTT_hit = false →
      (c.recv r now).2.SRTT = 250 ∧ (c.recv r now).2.RTTVAR = 125 ∧
      ⌈(c.recv r now).2.SRTT + 4 * (c.recv r now).2.RTTVAR⌉ = 750 ∧
      ∀ MIN_RTO MAX_RTO : Nat, MIN_RTO ≤ 750 → 750 ≤ MAX_RTO →
        (c.recv r now).2.timeout MIN_RTO MAX_RTO = 750) := by
  obtain ⟨hd1, hd2⟩ := timestamp_diff_eq (timestamp16 now) p.timestamp_reply
  have e : (c.recv r now).2 = c.accept p r now := by
    rw [recv_accepted c r now p h hdir hnew]
  obtain ⟨a1, a2, a3⟩ := accept_RTT c p r now
  obtain ⟨u1, u2, u3⟩ := update_RTT_fields c p now
  rw [if_pos hreply] at a1 a2 a3
  rw [e, a1, a2, a3, u1, u2, u3, ← hR]
  have first : R < 5000 → c.RTT_hit = false →
      (if (R : ℚ) < 5000 then if c.RTT_hit = false then (R : ℚ)
        else (1 - 1 / 8) * c.SRTT + 1 / 8 * (R : ℚ) else c.SRTT) = (R : ℚ) ∧
      (if (R : ℚ) < 5000 then if c.RTT_hit = false then (R : ℚ) / 2
        else (1 - 1 / 4) * c.RTTVAR + 1 / 4 * |c.SRTT - (R : ℚ)| else c.RTTVAR) = (R : ℚ) / 2 ∧
      (if (R : ℚ) < 5000 then true else c.RTT_hit) = true := by
    intro hlt hhit
    have hq : (R : ℚ) < 5000 := by exact_mod_cast hlt
    rw [if_pos hq, if_pos hq, if_pos hq, if_pos hhit, if_pos hhit]
    exact ⟨rfl, rfl, rfl⟩
  refine ⟨by rw [hR]; exact hd1, by rw [hR]; exact hd2, ?_, first, ?_, ?_⟩
  · intro hge
    have hq : ¬ (R : ℚ) < 5000 := by
      have : (5000 : ℚ) ≤ (R : ℚ) := by exact_mod_cast hge
      linarith
    rw [if_neg hq, if_neg hq, if_neg hq]
    exact ⟨rfl, rfl, rfl⟩
  · intro hlt hhit
    have hq : (R : ℚ) < 5000 := by exact_mod_cast hlt
    have hne : ¬ c.RTT_hit = false := by rw [hhit]; simp
    rw [if_pos hq, if_pos hq, if_pos hq, if_neg hne, if_neg hne]
    refine ⟨by ring, by ring, rfl⟩
  · intro h250 hhit
    obtain ⟨f1, f2, _⟩ := first (by omega) hhit
    rw [f1, f2]
    have hS : ((R : ℚ)) = 250 := by rw [h250]; norm_num
    have hsum : (R : ℚ) + 4 * ((R : ℚ) / 2) = ((750 : Int) : ℚ) := by
      rw [hS]; norm_num
    have hceil : ⌈(R : ℚ) + 4 * ((R : ℚ) / 2)⌉ = 750 := by
      rw [hsum, Int.ceil_intCast]
    refine ⟨hS, by rw [hS]; norm_num, hceil, ?_⟩
    intro MIN_RTO MAX_RTO hmin hmax
    unfold Connection.timeout
    simp only []
    rw [a1, a2, u1, u2, ← hR, f1, f2, hceil]
    have hz : (((750 : Int) % 2 ^ 64).toNat) = 750 := by decide
    rw [hz, if_neg (by omega), if_neg (by omega)]

/-- Scenario S2: a fresh client, clock at 10000 ms, receives an echoed timestamp 9750. -/
theorem rtt_estimator_step_witness :
    ((Connection.new_client Session.plain InternetAddress.zero).recv
        (RecvFrom.plain (Packet.mk 0 Direction.TO_CLIENT 5 9750 []) Sockaddr.zero) 10000).2.SRTT
      = 250 ∧
    ((Connection.new_client Session.plain InternetAddress.zero).recv
        (RecvFrom.plain (Packet.mk 0 Direction.TO_CLIENT 5 9750 []) Sockaddr.zero) 10000).2.RTTVAR
      = 125 ∧
    ⌈((Connection.new_client Session.plain InternetAddress.zero).recv
        (RecvFrom.plain (Packet.mk 0 Direction.TO_CLIENT 5 9750 []) Sockaddr.zero) 10000).2.SRTT
      + 4 * ((Connection.new_client Session.plain InternetAddress.zero).recv
        (RecvFrom.plain (Packet.mk 0 Direction.TO_CLIENT 5 9750 []) Sockaddr.zero) 10000).2.RTTVAR⌉
      = 750 ∧
    ∀ MIN_RTO MAX_RTO : Nat, MIN_RTO ≤ 750 → 750 ≤ MAX_RTO →
      ((Connection.new_client Session.plain InternetAddress.zero).recv
        (RecvFrom.plain (Packet.mk 0 Direction.TO_CLIENT 5 9750 []) Sockaddr.zero)
          10000).2.timeout MIN_RTO MAX_RTO = 750 :=
  (rtt_estimator_step (Connection.new_client Session.plain InternetAddress.zero)
    (RecvFrom.plain (Packet.mk 0 Direction.TO_CLIENT 5 9750 []) Sockaddr.zero) 10000
    (Packet.mk 0 Direction.TO_CLIENT 5 9750 []) 250
    (plain_receives _ _ _ rfl (by decide) (by decide) (by decide) (by decide)) rfl (by decide)
    (by decide) (by decide)).2.2.2.2.2 rfl rfl

/-! ## Bind search -/

theorem setPort_setPort (a : InternetAddress) (i j : Nat) :
    (a.setPort i).setPort j = a.setPort j := by
  unfold InternetAddress.setPort
  simp only [InternetAddress.mk.injEq, and_true]
  funext k
  by_cases h2 : k = 2
  · simp [h2]
  · by_cases h3 : k = 3
    · simp [h3]
    · simp [h2, h3]

theorem getPort_setPort (a : InternetAddress) (i : Nat) (h : i < 65536) :
    (a.setPort i).getPort = i := by
  simp only [InternetAddress.getPort, InternetAddress.setPort, be16toh, Fin.ofNat, if_true]
  simp only [show (3 : Nat) ≠ 2 by decide, if_false, if_true]
  omega

theorem setPort_getPort (a : InternetAddress) : a.setPort a.getPort = a := by
  cases a with
  | mk mem len =>
    simp only [InternetAddress.setPort, InternetAddress.getPort, be16toh,
      InternetAddress.mk.injEq, and_true]
    funext k
    have h2 := (mem 2).isLt
    have h3 := (mem 3).isLt
    by_cases hk2 : k = 2
    · subst hk2
      simp only [if_true]
      apply Fin.ext
      simp only [Fin.ofNat]
      omega
    · by_cases hk3 : k = 3
      · subst hk3
        simp only [show (3 : Nat) ≠ 2 by decide, if_false, if_true]
        apply Fin.ext
        simp only [Fin.ofNat]
        omega
      · simp only [hk2, hk3, if_false]

theorem try_bind_loop_busy (bind : InternetAddress → Bool) (hi : Nat) (a : InternetAddress) :
    ∀ (n i : Nat) (a1 : InternetAddress) (calls : List InternetAddress),
      (∀ j, a1.setPort j = a.setPort j) → i + n = hi + 1 → 0 < n →
      (∀ j, i ≤ j → j ≤ hi → bind (a.setPort j) = false) →
      try_bind_loop bind hi n i a1 calls =
        { result := Except.error Error.BindFailed, remote_addr := a.setPort hi,
          calls := calls ++ (List.range' i n).map a.setPort } := by
  intro n
  induction n with
  | zero => intro i a1 calls _ _ h0; exact absurd h0 (by omega)
  | succ n ih =>
    intro i a1 calls ha hn _ hbusy
    have hb : bind (a.setPort i) = false := hbusy i (Nat.le_refl _) (by omega)
    simp only [try_bind_loop, ha i, hb, Bool.false_eq_true, if_false]
    by_cases hlast : i = hi
    · have hn0 : n = 0 := by omega
      subst hn0
      simp [hlast]
    · rw [if_neg hlast]
      rw [ih (i + 1) (a.setPort i) (calls ++ [a.setPort i]) (fun j => setPort_setPort a i j)
        (by omega) (by omega) (fun j h1 h2 => hbusy j (by omega) h2)]
      simp [List.range'_succ]

theorem try_bind_loop_free (bind : InternetAddress → Bool) (hi : Nat) (a : InternetAddress)
    (k : Nat) :
    ∀ (n i : Nat) (a1 : InternetAddress) (calls : List InternetAddress),
      (∀ j, a1.setPort j = a.setPort j) → i + n = hi + 1 → i ≤ k → k ≤ hi →
      (∀ j, i ≤ j → j < k → bind (a.setPort j) = false) → bind (a.setPort k) = true →
      try_bind_loop bind hi n i a1 calls =
        { result := Except.ok true, remote_addr := a.setPort k,
          calls := calls ++ (List.range' i (k + 1 - i)).map a.setPort } := by
  intro n
  induction n with
  | zero => intro i a1 calls _ hn hik hk _ _; exact absurd hn (by omega)
  | succ n ih =>
    intro i a1 calls ha hn hik hk hbusy hfree
    by_cases hki : i = k
    · subst hki
      have h1 : i + 1 - i = 1 := by omega
      simp [try_bind_loop, ha i, hfree, h1]
    · have hb : bind (a.setPort i) = false := hbusy i (Nat.le_refl _) (by omega)
      have hlast : ¬ i = hi := by omega
      simp only [try_bind_loop, ha i, hb, Bool.false_eq_true, if_false]
      rw [if_neg hlast]
      rw [ih (i + 1) (a.setPort i) (calls ++ [a.setPort i]) (fun j => setPort_setPort a i j)
        (by omega) (by omega) hk (fun j h1 h2 => hbusy j (by omega) h2) hfree]
      have h2 : k + 1 - i = (k + 1 - (i + 1)) + 1 := by omega
      rw [h2]
      simp [List.range'_succ]

theorem map_getPort_setPort (a : InternetAddress) (i n : Nat) (h : i + n ≤ 65536) :
    (((List.range' i n).map a.setPort).map InternetAddress.getPort) = List.range' i n := by
  rw [List.map_map]
  have hid : ∀ j ∈ List.range' i n, (InternetAddress.getPort ∘ a.setPort) j = id j := by
    intro j hj
    have hlt := (List.mem_range'_1.mp hj).2
    exact getPort_setPort a j (by omega)
  rw [List.map_congr_left hid, List.map_id]

theorem try_bind_sweep_free (LOW HIGH : Nat) (bind : InternetAddress → Bool)
    (a : InternetAddress) (hport : a.getPort = 0) (k : Nat) (hlow : LOW ≤ k) (hk : k ≤ HIGH)
    (hbusy : ∀ j, LOW ≤ j → j < k → bind (a.setPort j) = false)
    (hfree : bind (a.setPort k) = true) :
    try_bind LOW HIGH bind a =
      { result := Except.ok true, remote_addr := a.setPort k,
        calls := (List.range' LOW (k + 1 - LOW)).map a.setPort } := by
  unfold try_bind
  simp only [hport, ne_eq, not_true_eq_false, if_false]
  rw [try_bind_loop_free bind HIGH a k (HIGH + 1 - LOW) LOW a [] (fun _ => rfl) (by omega) hlow hk
    hbusy hfree]
  simp

theorem try_bind_sweep_busy (LOW HIGH : Nat) (bind : InternetAddress → Bool)
    (a : InternetAddress) (hport : a.getPort = 0) (hrange : LOW ≤ HIGH)
    (hbusy : ∀ j, LOW ≤ j → j ≤ HIGH → bind (a.setPort j) = false) :
    try_bind LOW HIGH bind a =
      { result := Except.error Error.BindFailed, remote_addr := a.setPort HIGH,
        calls := (List.range' LOW (HIGH + 1 - LOW)).map a.setPort } := by
  unfold try_bind
  simp only [hport, ne_eq, not_true_eq_false, if_false]
  rw [try_bind_loop_busy bind HIGH a (HIGH + 1 - LOW) LOW a [] (fun _ => rfl) (by omega)
    (by omega) hbusy]
  simp

theorem try_bind_port (LOW HIGH : Nat) (bind : InternetAddress → Bool)
    (a : InternetAddress) (hport : a.getPort ≠ 0) :
    try_bind LOW HIGH bind a =
      { result := if bind a then Except.ok true else Except.error Error.BindFailed,
        remote_addr := a, calls := [a] } := by
  unfold try_bind
  simp only [hport, ne_eq, not_false_eq_true, if_true]
  have h1 : a.getPort + 1 - a.getPort = 1 := by omega
  rw [h1]
  simp only [try_bind_loop, setPort_getPort, List.nil_append, if_true]
  cases bind a <;> simp

/-- C13: with a non-zero port in the endpoint, `try_bind` makes exactly one `bind` call,
on that port, and throws `BindFailed` when it is busy; with port zero it calls `bind` on
`PORT_RANGE_LOW`, `PORT_RANGE_LOW + 1`, … in ascending order, returns true at the first
port that is free and leaves the endpoint on that port, and throws `BindFailed` exactly
when every port of the range is busy. -/
theorem bind_search (LOW HIGH : Nat) (bind : InternetAddress → Bool) (a : InternetAddress)
    (hrange : LOW ≤ HIGH) (hhigh : HIGH < 65536) :
    (a.getPort ≠ 0 →
      (try_bind LOW HIGH bind a).calls = [a] ∧
      (try_bind LOW HIGH bind a).remote_addr = a ∧
      (bind a = true → (try_bind LOW HIGH bind a).result = Except.ok true) ∧
      (bind a = false → (try_bind LOW HIGH bind a).result = Except.error Error.BindFailed)) ∧
    (a.getPort = 0 → ∀ k, LOW ≤ k → k ≤ HIGH →
      (∀ j, LOW ≤ j → j < k → bind (a.setPort j) = false) → bind (a.setPort k) = true →
      (try_bind LOW HIGH bind a).result = Except.ok true ∧
      (try_bind LOW HIGH bind a).remote_addr = a.setPort k ∧
      (try_bind LOW HIGH bind a).remote_addr.getPort = k ∧
      (try_bind LOW HIGH bind a).calls = (List.range' LOW (k + 1 - LOW)).map a.setPort ∧
      (try_bind LOW HIGH bind a).calls.map InternetAddress.getPort
        = List.range' LOW (k + 1 - LOW)) ∧
    (a.getPort = 0 →
      ((try_bind LOW HIGH bind a).result = Except.error Error.BindFailed ↔
        ∀ j, LOW ≤ j → j ≤ HIGH → bind (a.setPort j) = false)) ∧
    (a.getPort = 0 → (∀ j, LOW ≤ j → j ≤ HIGH → bind (a.setPort j) = false) →
      (try_bind LOW HIGH bind a).calls.map InternetAddress.getPort
        = List.range' LOW (HIGH + 1 - LOW)) := by
  refine ⟨?_, ?_, ?_, ?_⟩
  · intro hport
    rw [try_bind_port LOW HIGH bind a hport]
    refine ⟨rfl, rfl, ?_, ?_⟩
    · intro hb; simp [hb]
    · intro hb; simp [hb]
  · intro hport k hlow hk hbusy hfree
    rw [try_bind_sweep_free LOW HIGH bind a hport k hlow hk hbusy hfree]
    exact ⟨rfl, rfl, getPort_setPort a k (by omega), rfl,
      map_getPort_setPort a LOW (k + 1 - LOW) (by omega)⟩
  · intro hport
    constructor
    · intro hres
      by_contra hcon
      have hex : ∃ j, LOW ≤ j ∧ j ≤ HIGH ∧ bind (a.setPort j) = true := by
        by_contra hnone
        apply hcon
        intro j h1 h2
        cases hb : bind (a.setPort j) with
        | false => rfl
        | true => exact absurd ⟨j, h1, h2, hb⟩ hnone
      obtain ⟨hk1, hk2, hk3⟩ := Nat.find_spec hex
      have hmin : ∀ j, LOW ≤ j → j < Nat.find hex → bind (a.setPort j) = false := by
        intro j h1 h2
        cases hb : bind (a.setPort j) with
        | false => rfl
        | true => exact absurd ⟨h1, by omega, hb⟩ (Nat.find_min hex h2)
      rw [try_bind_sweep_free LOW HIGH bind a hport (Nat.find hex) hk1 hk2 hmin hk3] at hres
      exact absurd hres (by simp)
    · intro hbusy
      rw [try_bind_sweep_busy LOW HIGH bind a hport hrange hbusy]
  · intro hport hbusy
    rw [try_bind_sweep_busy LOW HIGH bind a hport hrange hbusy]
    exact map_getPort_setPort a LOW (HIGH + 1 - LOW) (by omega)

/-- Scenario S5 with the range 60001 to 60999: port 60001 is busy on every address, so
the sweep binds 60002 after two `bind` calls; an explicit request for 60001 fails. -/
theorem bind_search_witness :
    (try_bind 60001 60999 (fun x => decide (x.getPort ≠ 60001)) InternetAddress.new).result
      = Except.ok true ∧
    (try_bind 60001 60999 (fun x => decide (x.getPort ≠ 60001))
      InternetAddress.new).remote_addr.getPort = 60002 ∧
    (try_bind 60001 60999 (fun x => decide (x.getPort ≠ 60001))
      InternetAddress.new).calls.map InternetAddress.getPort = [60001, 60002] ∧
    (try_bind 60001 60999 (fun x => decide (x.getPort ≠ 60001))
      (InternetAddress.new.setPort 60001)).result = Except.error Error.BindFailed :=
  have h := bind_search 60001 60999 (fun x => decide (x.getPort ≠ 60001)) InternetAddress.new
    (by decide) (by decide)
  have hbusy : ∀ j, 60001 ≤ j → j < 60002 →
      (fun x : InternetAddress => decide (x.getPort ≠ 60001)) (InternetAddress.new.setPort j)
        = false := by
    intro j h1 h2
    have hj : j = 60001 := by omega
    subst hj
    decide
  have hsweep := h.2.1 rfl 60002 (by decide) (by decide) hbusy (by decide)
  ⟨hsweep.1, hsweep.2.2.1, hsweep.2.2.2.2,
    (bind_search 60001 60999 (fun x => decide (x.getPort ≠ 60001))
      (InternetAddress.new.setPort 60001) (by decide) (by decide)).1 (by decide) |>.2.2.2
      (by decide)⟩

/-! ## Server construction -/

theorem getPort_setAddressBindAny (a : InternetAddress) :
    a.setAddressBindAny.getPort = a.getPort := by
  simp [InternetAddress.setAddressBindAny, InternetAddress.getPort]

theorem ss_family_setPort (a : InternetAddress) (j : Nat) :
    ss_family (a.setPort j).remote_addr = ss_family a.remote_addr := by
  simp [InternetAddress.setPort, ss_family]

theorem server_constructor_fall_through (LOW HIGH : Nat) (bind : InternetAddress → Bool)
    (setup : Nat → Bool) (session : Session) (sa : Sockaddr) (len : Nat)
    (hrange : LOW ≤ HIGH) (hhigh : HIGH < 65536) (h0 : 0 < HIGH)
    (hsetup : ∀ family, setup family = true)
    (hport : (InternetAddress.new.setViaLookup sa len).getPort = 0)
    (hbusy : ∀ j, LOW ≤ j → j ≤ HIGH →
      bind ((InternetAddress.new.setViaLookup sa len).setPort j) = false) :
    Connection.server_constructor LOW HIGH bind setup session (some (Except.ok (sa, len))) none
      = (if bind ((InternetAddress.new.setViaLookup sa len).setPort HIGH).setAddressBindAny
          then Except.ok (Connection.new_server session
            ((InternetAddress.new.setViaLookup sa len).setPort HIGH).setAddressBindAny)
          else Except.error Error.BindFailed,
         (List.range' LOW (HIGH + 1 - LOW)).map (InternetAddress.new.setViaLookup sa len).setPort
           ++ [((InternetAddress.new.setViaLookup sa len).setPort HIGH).setAddressBindAny]) := by
  have hp : ((InternetAddress.new.setViaLookup sa len).setPort HIGH).setAddressBindAny.getPort
      ≠ 0 := by
    rw [getPort_setAddressBindAny, getPort_setPort _ _ hhigh]
    omega
  unfold Connection.server_constructor
  simp only [hsetup, if_true, try_bind_sweep_busy LOW HIGH bind _ hport hrange hbusy,
    try_bind_port LOW HIGH bind _ hp, Bool.true_eq_false, and_false, if_false]
  cases bind ((InternetAddress.new.setViaLookup sa len).setPort HIGH).setAddressBindAny <;> simp

/-- C14, with the range 60001 to 60999, the request `desired_ip = 10.0.0.1` without a
port, every port busy on 10.0.0.1, and on the wildcard address every port free except
60999: the first sweep leaves port 60999 in the endpoint, `setAddressBindAny` keeps it,
so the second `try_bind` calls `bind` once, on the wildcard address with port 60999, and
the constructor throws `BindFailed` although port 60001 is free there. -/
theorem server_fall_through_tries_one_port :
    (fun x : InternetAddress => decide (ss_family x.remote_addr = AF_INET6 ∧ x.getPort ≠ 60999))
        (InternetAddress.new.setAddressBindAny.setPort 60001) = true ∧
    Connection.server_constructor 60001 60999
        (fun x => decide (ss_family x.remote_addr = AF_INET6 ∧ x.getPort ≠ 60999))
        (fun _ => true) Session.plain (some (Except.ok (Sockaddr.inet 10 0 0 1 0, 16))) none
      = (Except.error Error.BindFailed,
         (List.range' 60001 999).map
            (InternetAddress.new.setViaLookup (Sockaddr.inet 10 0 0 1 0) 16).setPort
          ++ [((InternetAddress.new.setViaLookup (Sockaddr.inet 10 0 0 1 0) 16).setPort
                60999).setAddressBindAny]) ∧
    ss_family ((InternetAddress.new.setViaLookup (Sockaddr.inet 10 0 0 1 0) 16).setPort
                60999).setAddressBindAny.remote_addr = AF_INET6 ∧
    ((InternetAddress.new.setViaLookup (Sockaddr.inet 10 0 0 1 0) 16).setPort
                60999).setAddressBindAny.getPort = 60999 := by
  refine ⟨by decide, ?_, by decide, by decide⟩
  have hbusy : ∀ j, 60001 ≤ j → j ≤ 60999 →
      (fun x : InternetAddress =>
          decide (ss_family x.remote_addr = AF_INET6 ∧ x.getPort ≠ 60999))
        ((InternetAddress.new.setViaLookup (Sockaddr.inet 10 0 0 1 0) 16).setPort j) = false := by
    intro j _ _
    have hf : ss_family (InternetAddress.new.setViaLookup (Sockaddr.inet 10 0 0 1 0) 16).remote_addr
        = 2 := by decide
    simp [ss_family_setPort, hf, AF_INET6]
  rw [server_constructor_fall_through 60001 60999 _ _ Session.plain (Sockaddr.inet 10 0 0 1 0) 16
    (by decide) (by decide) (by decide) (fun _ => rfl) (by decide) hbusy]
  rw [if_neg (by decide)]

end Network

namespace Terminal

/-! ## Cursor and scrolling region -/

theorem snap_cursor_to_border_frame (ds : DrawState) :
    ds.snap_cursor_to_border.width = ds.width ∧
    ds.snap_cursor_to_border.height = ds.height ∧
    ds.snap_cursor_to_border.origin_mode = ds.origin_mode ∧
    ds.snap_cursor_to_border.scrolling_region_top_row = ds.scrolling_region_top_row ∧
    ds.snap_cursor_to_border.scrolling_region_bottom_row = ds.scrolling_region_bottom_row ∧
    ds.snap_cursor_to_border.next_print_will_wrap = ds.next_print_will_wrap ∧
    ds.snap_cursor_to_border.combining_char_col = ds.combining_char_col ∧
    ds.snap_cursor_to_border.combining_char_row = ds.combining_char_row := by
  unfold DrawState.snap_cursor_to_border
  simp only []
  repeat' split
  all_goals exact ⟨rfl, rfl, rfl, rfl, rfl, rfl, rfl, rfl⟩

theorem snap_cursor_to_border_row (ds : DrawState) :
    ds.snap_cursor_to_border.cursor_row =
      (if (if ds.cursor_row < ds.limit_top then ds.limit_top else ds.cursor_row) > ds.limit_bottom
        then ds.limit_bottom
        else (if ds.cursor_row < ds.limit_top then ds.limit_top else ds.cursor_row)) := by
  unfold DrawState.snap_cursor_to_border DrawState.limit_top DrawState.limit_bottom
  simp only []
  repeat' split
  all_goals rfl

theorem snap_cursor_to_border_col (ds : DrawState) :
    ds.snap_cursor_to_border.cursor_col =
      (if (if ds.cursor_col < 0 then 0 else ds.cursor_col) ≥ ds.width then ds.width - 1
        else (if ds.cursor_col < 0 then 0 else ds.cursor_col)) := by
  unfold DrawState.snap_cursor_to_border DrawState.limit_top DrawState.limit_bottom
  simp only []
  repeat' split
  all_goals rfl

theorem snap_cursor_to_border_bounds (ds : DrawState) (hw : 1 ≤ ds.width)
    (hl : ds.limit_top ≤ ds.limit_bottom) :
    0 ≤ ds.snap_cursor_to_border.cursor_col ∧
    ds.snap_cursor_to_border.cursor_col < ds.snap_cursor_to_border.width ∧
    ds.snap_cursor_to_border.limit_top ≤ ds.snap_cursor_to_border.cursor_row ∧
    ds.snap_cursor_to_border.cursor_row ≤ ds.snap_cursor_to_border.limit_bottom := by
  obtain ⟨f1, f2, f3, f4, f5, _, _, _⟩ := snap_cursor_to_border_frame ds
  have ht : ds.snap_cursor_to_border.limit_top = ds.limit_top := by
    unfold DrawState.limit_top
    rw [f3, f4]
  have hb : ds.snap_cursor_to_border.limit_bottom = ds.limit_bottom := by
    unfold DrawState.limit_bottom
    rw [f2, f3, f5]
  rw [ht, hb, f1, snap_cursor_to_border_row, snap_cursor_to_border_col]
  refine ⟨?_, ?_, ?_, ?_⟩ <;> (repeat' split) <;> omega

theorem set_scrolling_region_ordered (ds : DrawState) (top bottom : Int) (hh : 1 ≤ ds.height)
    (ho : ds.origin_mode = true) :
    ∃ d : DrawState,
      ds.set_scrolling_region top bottom = d.snap_cursor_to_border.new_grapheme ∧
      d.width = ds.width ∧ d.limit_top ≤ d.limit_bottom := by
  have hh1 : ¬ ds.height < 1 := by omega
  unfold DrawState.set_scrolling_region
  rw [if_neg hh1]
  simp only []
  by_cases h1 : top < 0 <;> by_cases h2 : bottom ≥ ds.height
  all_goals
    simp only [h1, h2, if_true, if_false, ho]
    split
    all_goals
      refine ⟨_, rfl, rfl, ?_⟩
      simp only [DrawState.limit_top, DrawState.limit_bottom, ho, if_true]
      omega

/-- C20: for a draw state with width and height at least 1 and an ordered scrolling
region, after `move_row`, after `move_col`, and after `set_scrolling_region` in origin
mode, `0 <= cursor_col < width` and `limit_top() <= cursor_row <= limit_bottom()`; after
`move_row` and after an explicit `move_col` the combining anchor is the cursor position
and `next_print_will_wrap` is false. -/
theorem cursor_invariant (ds : DrawState) (hw : 1 ≤ ds.width) (hh : 1 ≤ ds.height)
    (hreg : ds.scrolling_region_top_row ≤ ds.scrolling_region_bottom_row) :
    (∀ (N : Int) (relative : Bool),
      0 ≤ (ds.move_row N relative).cursor_col ∧
      (ds.move_row N relative).cursor_col < (ds.move_row N relative).width ∧
      (ds.move_row N relative).limit_top ≤ (ds.move_row N relative).cursor_row ∧
      (ds.move_row N relative).cursor_row ≤ (ds.move_row N relative).limit_bottom ∧
      (ds.move_row N relative).combining_char_row = (ds.move_row N relative).cursor_row ∧
      (ds.move_row N relative).combining_char_col = (ds.move_row N relative).cursor_col ∧
      (ds.move_row N relative).next_print_will_wrap = false) ∧
    (∀ (N : Int) (relative implicit : Bool),
      0 ≤ (ds.move_col N relative implicit).cursor_col ∧
      (ds.move_col N relative implicit).cursor_col < (ds.move_col N relative implicit).width ∧
      (ds.move_col N relative implicit).limit_top ≤ (ds.move_col N relative implicit).cursor_row ∧
      (ds.move_col N relative implicit).cursor_row
        ≤ (ds.move_col N relative implicit).limit_bottom ∧
      (implicit = false →
        (ds.move_col N relative implicit).combining_char_row
          = (ds.move_col N relative implicit).cursor_row ∧
        (ds.move_col N relative implicit).combining_char_col
          = (ds.move_col N relative implicit).cursor_col ∧
        (ds.move_col N relative implicit).next_print_will_wrap = false)) ∧
    (∀ (top bottom : Int), ds.origin_mode = true →
      0 ≤ (ds.set_scrolling_region top bottom).cursor_col ∧
      (ds.set_scrolling_region top bottom).cursor_col
        < (ds.set_scrolling_region top bottom).width ∧
      (ds.set_scrolling_region top bottom).limit_top
        ≤ (ds.set_scrolling_region top bottom).cursor_row ∧
      (ds.set_scrolling_region top bottom).cursor_row
        ≤ (ds.set_scrolling_region top bottom).limit_bottom) := by
  have hlim : ds.limit_top ≤ ds.limit_bottom := by
    unfold DrawState.limit_top DrawState.limit_bottom
    split <;> omega
  refine ⟨?_, ?_, ?_⟩
  · intro N relative
    cases relative
    · have hb := snap_cursor_to_border_bounds { ds with cursor_row := N } hw hlim
      exact ⟨hb.1, hb.2.1, hb.2.2.1, hb.2.2.2, rfl, rfl, rfl⟩
    · have hb := snap_cursor_to_border_bounds { ds with cursor_row := int32 (ds.cursor_row + N) } hw hlim
      exact ⟨hb.1, hb.2.1, hb.2.2.1, hb.2.2.2, rfl, rfl, rfl⟩
  · intro N relative implicit
    cases relative <;> cases implicit
    · have hb := snap_cursor_to_border_bounds { ds with cursor_col := N } hw hlim
      exact ⟨hb.1, hb.2.1, hb.2.2.1, hb.2.2.2, fun _ => ⟨rfl, rfl, rfl⟩⟩
    · by_cases hov : N ≥ ds.width
      · have hb := snap_cursor_to_border_bounds
          { ds.new_grapheme with cursor_col := N, next_print_will_wrap := true } hw hlim
        simp only [DrawState.move_col, Bool.true_and, hov, decide_True, if_true, Bool.not_true,
          Bool.false_eq_true, if_false, DrawState.new_grapheme]
        exact ⟨hb.1, hb.2.1, hb.2.2.1, hb.2.2.2, fun h => absurd h (by simp)⟩
      · have hb := snap_cursor_to_border_bounds { ds.new_grapheme with cursor_col := N } hw hlim
        simp only [DrawState.move_col, Bool.true_and, hov, decide_False, if_true, Bool.not_true,
          Bool.false_eq_true, if_false, DrawState.new_grapheme]
        exact ⟨hb.1, hb.2.1, hb.2.2.1, hb.2.2.2, fun h => absurd h (by simp)⟩
    · have hb := snap_cursor_to_border_bounds { ds with cursor_col := int32 (ds.cursor_col + N) } hw hlim
      exact ⟨hb.1, hb.2.1, hb.2.2.1, hb.2.2.2, fun _ => ⟨rfl, rfl, rfl⟩⟩
    · by_cases hov : int32 (ds.cursor_col + N) ≥ ds.width
      · have hb := snap_cursor_to_border_bounds
          { ds.new_grapheme with cursor_col := int32 (ds.cursor_col + N), next_print_will_wrap := true }
          hw hlim
        simp only [DrawState.move_col, Bool.true_and, hov, decide_True, if_true, Bool.not_true,
          Bool.false_eq_true, if_false, DrawState.new_grapheme]
        exact ⟨hb.1, hb.2.1, hb.2.2.1, hb.2.2.2, fun h => absurd h (by simp)⟩
      · have hb := snap_cursor_to_border_bounds
          { ds.new_grapheme with cursor_col := int32 (ds.cursor_col + N) } hw hlim
        simp only [DrawState.move_col, Bool.true_and, hov, decide_False, if_true, Bool.not_true,
          Bool.false_eq_true, if_false, DrawState.new_grapheme]
        exact ⟨hb.1, hb.2.1, hb.2.2.1, hb.2.2.2, fun h => absurd h (by simp)⟩
  · intro top bottom ho
    obtain ⟨d, hd, hdw, hdl⟩ := set_scrolling_region_ordered ds top bottom hh ho
    rw [hd]
    have hb := snap_cursor_to_border_bounds d (by rw [hdw]; exact hw) hdl
    exact ⟨hb.1, hb.2.1, hb.2.2.1, hb.2.2.2⟩

/-- A fresh 80 by 24 draw state, cursor moved 100 rows down and then to column -7. -/
theorem cursor_invariant_witness :
    (0 ≤ ((DrawState.new 80 24).move_row 100 true).cursor_col ∧
      ((DrawState.new 80 24).move_row 100 true).cursor_col
        < ((DrawState.new 80 24).move_row 100 true).width ∧
      ((DrawState.new 80 24).move_row 100 true).limit_top
        ≤ ((DrawState.new 80 24).move_row 100 true).cursor_row ∧
      ((DrawState.new 80 24).move_row 100 true).cursor_row
        ≤ ((DrawState.new 80 24).move_row 100 true).limit_bottom ∧
      ((DrawState.new 80 24).move_row 100 true).combining_char_row
        = ((DrawState.new 80 24).move_row 100 true).cursor_row ∧
      ((DrawState.new 80 24).move_row 100 true).combining_char_col
        = ((DrawState.new 80 24).move_row 100 true).cursor_col ∧
      ((DrawState.new 80 24).move_row 100 true).next_print_will_wrap = false) ∧
    ((DrawState.new 80 24).move_row 100 true).cursor_row = 23 :=
  ⟨(cursor_invariant (DrawState.new 80 24) (by decide) (by decide) (by decide)).1 100 true,
   by decide⟩

/-- C19, on a fresh 80 by 24 draw state: `set_scrolling_region( 100, 5 )` leaves both
bounds at 100, beyond `height - 1 = 23`; `top` is only clamped from below and `bottom`
is then raised to it. -/
theorem set_scrolling_region_top_not_clamped :
    ((DrawState.new 80 24).set_scrolling_region 100 5).height = 24 ∧
    ((DrawState.new 80 24).set_scrolling_region 100 5).scrolling_region_top_row = 100 ∧
    ((DrawState.new 80 24).set_scrolling_region 100 5).scrolling_region_bottom_row = 100 ∧
    ¬ (((DrawState.new 80 24).set_scrolling_region 100 5).scrolling_region_bottom_row
        ≤ ((DrawState.new 80 24).set_scrolling_region 100 5).height - 1) := by
  decide

/-! ## Scrolling -/

/-- C15, on an 80 by 24 framebuffer (region 0 to 23) with a width-2 glyph at row 1,
column 3: after `scroll( 1 )` the cell at row 0, column 3 holds the glyph's contents but
has width 1, not the width 2 of the cell that was at row 1. -/
theorem scroll_drops_width :
    get_cell (place_wide (Framebuffer.new 80 24).rows 1 3 0x4E2D) { row := 1, col := 3 }
      = some { overlapping_cell := none, contents := [0x4E2D],
               overlapped_cells := [{ row := 1, col := 4 }], fallback := false, width := 2 } ∧
    (Framebuffer.scroll
        { Framebuffer.new 80 24 with rows := place_wide (Framebuffer.new 80 24).rows 1 3 0x4E2D }
        1).bind (fun fb => get_cell fb.rows { row := 0, col := 3 })
      = some { overlapping_cell := none, contents := [0x4E2D],
               overlapped_cells := [{ row := 1, col := 4 }], fallback := false, width := 1 } := by
  constructor <;> decide

/-! ## Lemmas on the grid and on `reset` -/

theorem get_cell_eq_some (rows : List Row) (a : CellPtr) (x : Cell) :
    get_cell rows a = some x ↔ ∃ r, rows[a.row]? = some r ∧ r.cells[a.col]? = some x := by
  unfold get_cell
  cases rows[a.row]? <;> simp

theorem get_set_cell (rows : List Row) (a b : CellPtr) (c : Cell) :
    get_cell (set_cell rows a c) b
      = if a = b then (get_cell rows b).map (fun _ => c) else get_cell rows b := by
  unfold set_cell
  cases hrow : rows[a.row]? with
  | none =>
    simp only []
    by_cases hab : a = b
    · subst hab
      simp [get_cell, hrow]
    · simp [hab]
  | some r =>
    simp only []
    have hlt : a.row < rows.length := (List.getElem?_eq_some_iff.mp hrow).1
    by_cases hab : a = b
    · subst hab
      simp only [get_cell, if_true, List.getElem?_set_self hlt, hrow, Option.some_bind,
        List.getElem?_set_self']
      rfl
    · rw [if_neg hab]
      by_cases hr : a.row = b.row
      · have hc : a.col ≠ b.col := by
          intro hc
          apply hab
          cases a; cases b
          simp only [CellPtr.mk.injEq]
          exact ⟨hr, hc⟩
        simp only [get_cell]
        rw [← hr, List.getElem?_set_self hlt, hrow]
        simp only [Option.some_bind, List.getElem?_set_ne hc]
      · simp only [get_cell, List.getElem?_set_ne hr]

theorem get_set_cell_same (rows : List Row) (a : CellPtr) (c x : Cell)
    (h : get_cell rows a = some x) : get_cell (set_cell rows a c) a = some c := by
  rw [get_set_cell, if_pos rfl, h]
  rfl

theorem get_set_cell_ne (rows : List Row) (a b : CellPtr) (c : Cell) (h : a ≠ b) :
    get_cell (set_cell rows a c) b = get_cell rows b := by
  rw [get_set_cell, if_neg h]

theorem set_set_cell (rows : List Row) (a : CellPtr) (c1 c2 : Cell) :
    set_cell (set_cell rows a c1) a c2 = set_cell rows a c2 := by
  unfold set_cell
  cases hrow : rows[a.row]? with
  | none => simp [hrow]
  | some r =>
    have hlt : a.row < rows.length := (List.getElem?_eq_some_iff.mp hrow).1
    simp [List.getElem?_set_self hlt, List.set_set]

theorem get_cell_bounds (rows : List Row) (a : CellPtr) (x : Cell)
    (h : get_cell rows a = some x) : a.row < rows.length ∧ a.col < row_length rows a.row := by
  obtain ⟨r, hr, hc⟩ := (get_cell_eq_some rows a x).mp h
  refine ⟨(List.getElem?_eq_some_iff.mp hr).1, ?_⟩
  unfold row_length
  rw [hr]
  exact (List.getElem?_eq_some_iff.mp hc).1

theorem forest_at (rows : List Row) (a : CellPtr) (x : Cell) (hinv : OverlapForest rows)
    (h : get_cell rows a = some x) :
    (x.overlapping_cell = none ∨ x.overlapped_cells = []) ∧
    (∀ d ∈ x.overlapped_cells, ∃ y, get_cell rows d = some y ∧ y.overlapping_cell = some a) ∧
    (∀ b, x.overlapping_cell = some b →
      ∃ y, get_cell rows b = some y ∧ a ∈ y.overlapped_cells) := by
  obtain ⟨h1, h2⟩ := get_cell_bounds rows a x h
  obtain ⟨p1, p2, p3⟩ := hinv a.row h1 a.col h2 x h
  refine ⟨p1, ?_, ?_⟩
  · intro d hd
    obtain ⟨y, hy, hy2⟩ := p2 d hd
    exact ⟨y, hy, hy2⟩
  · intro b hb
    obtain ⟨y, hy, hy2⟩ := p3 b hb
    exact ⟨y, hy, hy2⟩


theorem reset_overlapped (fuel : Nat) (rows : List Row) (a b : CellPtr) (x : Cell)
    (h : get_cell rows a = some x) (hb : x.overlapping_cell = some b)
    (hl : x.overlapped_cells = []) :
    Cell.reset (fuel + 1) rows a
      = some (set_cell rows a { x with contents := [], fallback := false, width := 1 }) := by
  simp [Cell.reset, h, hb, hl]

theorem reset_leaf (fuel : Nat) (rows : List Row) (a : CellPtr) (x : Cell)
    (h : get_cell rows a = some x) (hb : x.overlapping_cell = none)
    (hl : x.overlapped_cells = []) :
    Cell.reset (fuel + 1) rows a = some (set_cell rows a Cell.new) := by
  simp only [Cell.reset, h, hb, hl, List.foldlM_nil, pure, Option.some_bind]
  rw [get_set_cell_same rows a _ x h]
  simp only [set_set_cell]
  rw [← hb, ← hl]
  simp only [hb, hl, Cell.new]

theorem foldlM_children (f : List Row → CellPtr → Option (List Row))
    (hf : ∀ (g : List Row) (d : CellPtr) (y : Cell), get_cell g d = some y →
      y.overlapped_cells = [] → f g d = some (set_cell g d Cell.new))
    (ds : List CellPtr) :
    ∀ g : List Row,
      (∀ d ∈ ds, ∃ y, get_cell g d = some y ∧ y.overlapped_cells = []) →
      ds.foldlM f g = some (blank_all g ds) := by
  induction ds with
  | nil => intro g _; rfl
  | cons d rest ih =>
    intro g hg
    obtain ⟨y, hy, hyl⟩ := hg d (List.mem_cons_self _ _)
    simp only [List.foldlM_cons, hf g d y hy hyl, Option.bind_eq_bind, Option.some_bind]
    have hrest : ∀ e ∈ rest, ∃ z, get_cell (set_cell g d Cell.new) e = some z ∧
        z.overlapped_cells = [] := by
      intro e he
      by_cases hde : d = e
      · subst hde
        exact ⟨Cell.new, get_set_cell_same g d _ y hy, rfl⟩
      · rw [get_set_cell_ne g d e _ hde]
        exact hg e (List.mem_cons_of_mem _ he)
    rw [ih _ hrest]
    rfl

theorem get_blank_all_not_mem (ds : List CellPtr) :
    ∀ (g : List Row) (e : CellPtr), e ∉ ds → get_cell (blank_all g ds) e = get_cell g e := by
  induction ds with
  | nil => intro g e _; rfl
  | cons d rest ih =>
    intro g e he
    have h1 : d ≠ e := fun h => he (h ▸ List.mem_cons_self _ _)
    have h2 : e ∉ rest := fun h => he (List.mem_cons_of_mem _ h)
    show get_cell (blank_all (set_cell g d Cell.new) rest) e = get_cell g e
    rw [ih _ e h2, get_set_cell_ne g d e _ h1]

theorem get_blank_all_mem (ds : List CellPtr) :
    ∀ (g : List Row) (e : CellPtr) (y : Cell), e ∈ ds → get_cell g e = some y →
      get_cell (blank_all g ds) e = some Cell.new := by
  induction ds with
  | nil => intro g e y he; exact absurd he (List.not_mem_nil _)
  | cons d rest ih =>
    intro g e y he hy
    show get_cell (blank_all (set_cell g d Cell.new) rest) e = some Cell.new
    by_cases hrest : e ∈ rest
    · by_cases hde : d = e
      · subst hde
        exact ih _ d Cell.new hrest (get_set_cell_same g d _ y hy)
      · exact ih _ e y hrest (by rw [get_set_cell_ne g d e _ hde]; exact hy)
    · have hde : d = e := by
        rcases List.mem_cons.mp he with h | h
        · exact h.symm
        · exact absurd h hrest
      subst hde
      rw [get_blank_all_not_mem rest _ d hrest]
      exact get_set_cell_same g d _ y hy

theorem reset_base (fuel : Nat) (rows : List Row) (a : CellPtr) (x : Cell)
    (h : get_cell rows a = some x) (hb : x.overlapping_cell = none)
    (hds : ∀ d ∈ x.overlapped_cells, d ≠ a ∧ ∃ y, get_cell rows d = some y ∧
      y.overlapped_cells = []) :
    ∃ rows1, Cell.reset (fuel + 2) rows a = some rows1 ∧
      get_cell rows1 a = some Cell.new ∧
      (∀ d ∈ x.overlapped_cells, get_cell rows1 d = some Cell.new) ∧
      (∀ e, e ≠ a → e ∉ x.overlapped_cells → get_cell rows1 e = get_cell rows e) := by
  have hg : ∀ d ∈ x.overlapped_cells, ∃ y,
      get_cell (set_cell rows a (Cell.mk none [] x.overlapped_cells false 1)) d
        = some y ∧ y.overlapped_cells = [] := by
    intro d hd
    obtain ⟨hne, y, hy, hyl⟩ := hds d hd
    exact ⟨y, by rw [get_set_cell_ne rows a d _ (Ne.symm hne)]; exact hy, hyl⟩
  have hnot : a ∉ x.overlapped_cells := fun hin => (hds a hin).1 rfl
  have hsome : ∀ g : List Row, (∃ y, get_cell g a = some y) →
      get_cell (set_cell g a Cell.new) a = some Cell.new := by
    intro g hy
    obtain ⟨y, hy⟩ := hy
    exact get_set_cell_same g a _ y hy
  refine ⟨set_cell (blank_all (set_cell rows a (Cell.mk none [] x.overlapped_cells false 1))
      x.overlapped_cells) a Cell.new, ?_, ?_, ?_, ?_⟩
  · rw [Cell.reset]
    simp only [h, hb]
    rw [foldlM_children _ ?_ x.overlapped_cells _ hg]
    swap
    · intro g d y hy hyl
      simp only [hy]
      rw [reset_leaf fuel _ d (Cell.mk none y.contents y.overlapped_cells y.fallback y.width)
        (get_set_cell_same g d _ y hy) rfl hyl, set_set_cell]
    simp only [Option.some_bind]
    rw [get_blank_all_not_mem _ _ a hnot, get_set_cell_same rows a _ x h]
    rfl
  · apply hsome
    rw [get_blank_all_not_mem _ _ a hnot]
    exact ⟨_, get_set_cell_same rows a _ x h⟩
  · intro d hd
    obtain ⟨hne, y, hy, _⟩ := hds d hd
    rw [get_set_cell_ne _ a d _ (Ne.symm hne)]
    exact get_blank_all_mem _ _ d y hd (by rw [get_set_cell_ne rows a d _ (Ne.symm hne)]; exact hy)
  · intro e hea hed
    rw [get_set_cell_ne _ a e _ (Ne.symm hea), get_blank_all_not_mem _ _ e hed,
      get_set_cell_ne rows a e _ (Ne.symm hea)]

theorem forest_children (rows : List Row) (a : CellPtr) (x : Cell) (hinv : OverlapForest rows)
    (h : get_cell rows a = some x) (hb : x.overlapping_cell = none) :
    ∀ d ∈ x.overlapped_cells, d ≠ a ∧ ∃ y, get_cell rows d = some y ∧
      y.overlapped_cells = [] := by
  intro d hd
  obtain ⟨_, p2, _⟩ := forest_at rows a x hinv h
  obtain ⟨y, hy, hya⟩ := p2 d hd
  refine ⟨?_, y, hy, ?_⟩
  · intro hda
    subst hda
    rw [h] at hy
    injection hy with hy
    rw [← hy, hb] at hya
    exact absurd hya (by simp)
  · obtain ⟨q1, _, _⟩ := forest_at rows d y hinv hy
    rcases q1 with q | q
    · rw [q] at hya
      exact absurd hya (by simp)
    · exact q

theorem reset_spec (fuel : Nat) (rows : List Row) (a : CellPtr) (x : Cell)
    (hinv : OverlapForest rows) (h : get_cell rows a = some x) :
    ∃ rows1, Cell.reset (fuel + 2) rows a = some rows1 ∧
      (∃ y, get_cell rows1 a = some y ∧ y.contents = [] ∧ y.fallback = false ∧ y.width = 1 ∧
        y.overlapping_cell = x.overlapping_cell) ∧
      (x.overlapping_cell = none →
        get_cell rows1 a = some Cell.new ∧
        (∀ d ∈ x.overlapped_cells, get_cell rows1 d = some Cell.new) ∧
        (∀ e, e ≠ a → e ∉ x.overlapped_cells → get_cell rows1 e = get_cell rows e)) ∧
      (∀ b, x.overlapping_cell = some b →
        rows1 = set_cell rows a { x with contents := [], fallback := false, width := 1 } ∧
        get_cell rows1 a = some { x with contents := [], fallback := false, width := 1 } ∧
        (∀ e, e ≠ a → get_cell rows1 e = get_cell rows e)) := by
  obtain hb | ⟨b, hb⟩ : x.overlapping_cell = none ∨ ∃ b, x.overlapping_cell = some b := by
    cases x.overlapping_cell <;> simp
  · obtain ⟨rows1, hr, g1, g2, g3⟩ :=
      reset_base fuel rows a x h hb (forest_children rows a x hinv h hb)
    refine ⟨rows1, hr, ⟨Cell.new, g1, rfl, rfl, rfl, hb.symm⟩, fun _ => ⟨g1, g2, g3⟩, ?_⟩
    intro b hcon
    rw [hb] at hcon
    exact absurd hcon (by simp)
  · obtain ⟨q1, _, _⟩ := forest_at rows a x hinv h
    have hl : x.overlapped_cells = [] := by
      rcases q1 with q | q
      · rw [hb] at q; exact absurd q (by simp)
      · exact q
    refine ⟨_, reset_overlapped (fuel + 1) rows a b x h hb hl, ?_, ?_, ?_⟩
    · exact ⟨_, get_set_cell_same rows a _ x h, rfl, rfl, rfl, rfl⟩
    · intro hcon
      rw [hb] at hcon
      exact absurd hcon (by simp)
    · intro b1 _
      exact ⟨rfl, get_set_cell_same rows a _ x h,
        fun e hea => get_set_cell_ne rows a e _ (Ne.symm hea)⟩


theorem forest_owner_ne (rows : List Row) (a b : CellPtr) (x : Cell) (hinv : OverlapForest rows)
    (h : get_cell rows a = some x) (hb : x.overlapping_cell = some b) : b ≠ a := by
  intro hba
  subst hba
  obtain ⟨q1, _, q3⟩ := forest_at rows b x hinv h
  obtain ⟨y, hy, hmem⟩ := q3 b hb
  rw [h] at hy
  injection hy with hy
  subst hy
  rcases q1 with q | q
  · rw [hb] at q; exact absurd q (by simp)
  · rw [q] at hmem; exact absurd hmem (List.not_mem_nil _)

theorem reset_frame (fuel : Nat) (rows : List Row) (a : CellPtr) (x : Cell)
    (hinv : OverlapForest rows) (h : get_cell rows a = some x) :
    ∃ rows1, Cell.reset (fuel + 2) rows a = some rows1 ∧
      (∃ z, get_cell rows1 a = some z ∧ z.contents = [] ∧ z.fallback = false ∧ z.width = 1) ∧
      ∀ (e : CellPtr) (v : Cell), e ≠ a → get_cell rows e = some v →
        get_cell rows1 e = some v ∨ get_cell rows1 e = some Cell.new := by
  obtain ⟨rows1, hr, ⟨z, hz, z1, z2, z3, _⟩, hbase, hover⟩ := reset_spec fuel rows a x hinv h
  refine ⟨rows1, hr, ⟨z, hz, z1, z2, z3⟩, ?_⟩
  intro e v hea hv
  obtain hb | ⟨b, hb⟩ : x.overlapping_cell = none ∨ ∃ b, x.overlapping_cell = some b := by
    cases x.overlapping_cell <;> simp
  · obtain ⟨_, g2, g3⟩ := hbase hb
    by_cases hmem : e ∈ x.overlapped_cells
    · right; exact g2 e hmem
    · left; rw [g3 e hea hmem]; exact hv
  · obtain ⟨_, _, g3⟩ := hover b hb
    left; rw [g3 e hea]; exact hv

theorem get_cell_of_bounds (rows : List Row) (a : CellPtr) (h1 : a.row < rows.length)
    (h2 : a.col < row_length rows a.row) : ∃ y, get_cell rows a = some y := by
  unfold row_length at h2
  unfold get_cell
  rw [List.getElem?_eq_getElem h1] at h2 ⊢
  simp only [] at h2
  exact ⟨_, by simp only [Option.some_bind]; exact List.getElem?_eq_getElem h2⟩

theorem claim_overlap_loop_done (fuel : Nat) (w : Int) (row col n i : Nat) (rows : List Row)
    (x : Cell) (hx : get_cell rows { row := row, col := col } = some x)
    (hdone : ¬ ((i : Int) < (col : Int) + x.width)) :
    claim_overlap_loop fuel w row col n i rows = some rows := by
  cases n with
  | zero => simp only [claim_overlap_loop, hx, hdone, if_false]
  | succ n => simp only [claim_overlap_loop, hx, hdone, if_false]

theorem set_rows_self (fb : Framebuffer) : { fb with rows := fb.rows } = fb := by
  cases fb
  rfl

theorem claim_overlap_narrow (fuel : Nat) (fb : Framebuffer) (row col : Nat) (x : Cell)
    (hx : get_cell fb.rows { row := row, col := col } = some x) (hw : x.width ≤ 1) :
    fb.claim_overlap fuel row col = some fb := by
  unfold Framebuffer.claim_overlap
  simp only [hx]
  rw [claim_overlap_loop_done fuel _ row col _ _ fb.rows x hx (by push_cast; omega)]
  simp only [Option.map_some', set_rows_self]

theorem claim_overlap_wide (fuel : Nat) (fb : Framebuffer) (row col : Nat) (x : Cell)
    (hinv : OverlapForest fb.rows)
    (hx : get_cell fb.rows { row := row, col := col } = some x) (hw : x.width = 2)
    (hlen : (row_length fb.rows row : Int) = fb.ds.width) :
    ((fb.ds.width ≤ (col : Int) + 1) → fb.claim_overlap (fuel + 2) row col = some fb) ∧
    (((col : Int) + 1 < fb.ds.width) →
      ∃ (rows3 : List Row) (z base : Cell),
        fb.claim_overlap (fuel + 2) row col = some { fb with rows := rows3 } ∧
        get_cell rows3 { row := row, col := col + 1 } = some z ∧
        z.contents = [] ∧ z.width = 1 ∧ z.fallback = false ∧
        z.overlapping_cell = some { row := row, col := col } ∧
        get_cell rows3 { row := row, col := col } = some base ∧
        ({ row := row, col := col + 1 } : CellPtr) ∈ base.overlapped_cells) := by
  have hn : (x.width - 1).toNat = 1 := by rw [hw]; rfl
  have hcond : ((col + 1 : Nat) : Int) < (col : Int) + x.width := by rw [hw]; push_cast; omega
  constructor
  · intro hskip
    have hs : ¬ (((col + 1 : Nat) : Int) < fb.ds.width) := by push_cast; omega
    unfold Framebuffer.claim_overlap
    simp only [hx, hn]
    simp only [claim_overlap_loop, hx, hcond, if_true, hs, if_false]
    rw [if_neg (by rw [hw]; push_cast; omega)]
    simp only [Option.map_some', set_rows_self]
  · intro hin
    have hs : ((col + 1 : Nat) : Int) < fb.ds.width := by push_cast; omega
    obtain ⟨hrow, _⟩ := get_cell_bounds fb.rows _ x hx
    have hcol : col + 1 < row_length fb.rows row := by omega
    obtain ⟨y, hy⟩ := get_cell_of_bounds fb.rows { row := row, col := col + 1 } hrow hcol
    obtain ⟨rows1, hr, ⟨z, hz, z1, z2, z3⟩, hframe⟩ :=
      reset_frame fuel fb.rows { row := row, col := col + 1 } y hinv hy
    have hne : ({ row := row, col := col } : CellPtr) ≠ { row := row, col := col + 1 } := by
      simp
    have hc1 : ∃ c1, get_cell rows1 { row := row, col := col } = some c1 ∧ c1.width ≤ 2 := by
      rcases hframe _ x hne hx with h | h
      · exact ⟨x, h, by omega⟩
      · exact ⟨Cell.new, h, by decide⟩
    obtain ⟨c1, hc1, hc1w⟩ := hc1
    obtain ⟨B, hB⟩ : ∃ B : Cell, B = Cell.mk c1.overlapping_cell c1.contents
        (c1.overlapped_cells ++ [{ row := row, col := col + 1 }]) c1.fallback c1.width :=
      ⟨_, rfl⟩
    obtain ⟨Z, hZ⟩ : ∃ Z : Cell, Z = Cell.mk (some { row := row, col := col }) z.contents
        z.overlapped_cells z.fallback z.width := ⟨_, rfl⟩
    have hBw : B.width ≤ 2 := by rw [hB]; exact hc1w
    have hBm : ({ row := row, col := col + 1 } : CellPtr) ∈ B.overlapped_cells := by
      rw [hB]; simp
    have hZ1 : Z.contents = [] := by rw [hZ]; exact z1
    have hZ2 : Z.width = 1 := by rw [hZ]; exact z3
    have hZ3 : Z.fallback = false := by rw [hZ]; exact z2
    have hZ4 : Z.overlapping_cell = some { row := row, col := col } := by rw [hZ]
    have hz2 : get_cell (set_cell rows1 { row := row, col := col } B)
        { row := row, col := col + 1 } = some z := by
      rw [get_set_cell_ne _ _ _ _ hne]; exact hz
    have hnext : get_cell
        (set_cell (set_cell rows1 { row := row, col := col } B) { row := row, col := col + 1 } Z)
        { row := row, col := col + 1 } = some Z := get_set_cell_same _ _ _ z hz2
    have hbase : get_cell
        (set_cell (set_cell rows1 { row := row, col := col } B) { row := row, col := col + 1 } Z)
        { row := row, col := col } = some B := by
      rw [get_set_cell_ne _ _ _ _ (Ne.symm hne)]
      exact get_set_cell_same _ _ _ c1 hc1
    have hdone := claim_overlap_loop_done (fuel + 2) fb.ds.width row col 0 (col + 1 + 1)
      (set_cell (set_cell rows1 { row := row, col := col } B) { row := row, col := col + 1 } Z)
      B hbase (by push_cast; omega)
    refine ⟨set_cell (set_cell rows1 { row := row, col := col } B)
      { row := row, col := col + 1 } Z, Z, B, ?_, hnext, hZ1, hZ2, hZ3, hZ4, hbase, hBm⟩
    unfold Framebuffer.claim_overlap
    simp only [hx, hn]
    rw [claim_overlap_loop]
    simp only [hx, hcond, if_true, hs, hr, hc1]
    rw [← hB]
    simp only [hz2]
    rw [← hZ, hdone]
    rfl

/-! ## The overlap forest -/

theorem forest_intro (rows : List Row)
    (h : ∀ (a : CellPtr) (v : Cell), get_cell rows a = some v →
      (v.overlapping_cell = none ∨ v.overlapped_cells = []) ∧
      (∀ d ∈ v.overlapped_cells, ∃ y, get_cell rows d = some y ∧ y.overlapping_cell = some a) ∧
      (∀ b, v.overlapping_cell = some b →
        ∃ y, get_cell rows b = some y ∧ a ∈ y.overlapped_cells)) :
    OverlapForest rows := by
  intro r _ c _ x hx
  obtain ⟨p1, p2, p3⟩ := h { row := r, col := c } x hx
  refine ⟨p1, ?_, ?_⟩
  · intro d hd
    obtain ⟨y, hy, hy2⟩ := p2 d hd
    exact ⟨y, hy, hy2⟩
  · intro b hb
    obtain ⟨y, hy, hy2⟩ := p3 b hb
    exact ⟨y, hy, hy2⟩

theorem get_cell_new (s_width s_height : Nat) (a : CellPtr) (v : Cell)
    (h : get_cell (Framebuffer.new s_width s_height).rows a = some v) : v = Cell.new := by
  obtain ⟨r, hr, hc⟩ := (get_cell_eq_some _ a v).mp h
  obtain ⟨h1, h2⟩ := List.getElem?_eq_some_iff.mp hr
  simp only [Framebuffer.new, List.getElem_replicate] at h2
  subst h2
  obtain ⟨h3, h4⟩ := List.getElem?_eq_some_iff.mp hc
  simp only [Row.copy, Row.new, List.map_replicate, List.getElem_replicate] at h4
  rw [← h4]
  rfl

theorem forest_new (s_width s_height : Nat) :
    OverlapForest (Framebuffer.new s_width s_height).rows := by
  apply forest_intro
  intro a v hv
  rw [get_cell_new s_width s_height a v hv]
  refine ⟨Or.inl rfl, ?_, ?_⟩
  · intro d hd
    exact absurd hd (List.not_mem_nil _)
  · intro b hb
    exact absurd hb (by simp [Cell.new])

theorem reset_preserves_forest (fuel : Nat) (rows : List Row) (a : CellPtr) (x : Cell)
    (hinv : OverlapForest rows) (hx : get_cell rows a = some x) :
    ∃ rows1, Cell.reset (fuel + 2) rows a = some rows1 ∧ OverlapForest rows1 := by
  obtain ⟨rows1, hr, _, hbase, hover⟩ := reset_spec fuel rows a x hinv hx
  refine ⟨rows1, hr, ?_⟩
  obtain hb | ⟨b, hb⟩ : x.overlapping_cell = none ∨ ∃ b, x.overlapping_cell = some b := by
    cases x.overlapping_cell <;> simp
  · obtain ⟨g1, g2, g3⟩ := hbase hb
    have hch := forest_children rows a x hinv hx hb
    have hnew : ∀ e, e = a ∨ e ∈ x.overlapped_cells → get_cell rows1 e = some Cell.new := by
      intro e he
      rcases he with he | he
      · rw [he]; exact g1
      · exact g2 e he
    have hold : ∀ e, ¬ (e = a ∨ e ∈ x.overlapped_cells) → get_cell rows1 e = get_cell rows e := by
      intro e he
      exact g3 e (fun h => he (Or.inl h)) (fun h => he (Or.inr h))
    apply forest_intro
    intro e v hv
    by_cases hc : e = a ∨ e ∈ x.overlapped_cells
    · rw [hnew e hc] at hv
      injection hv with hv
      subst hv
      refine ⟨Or.inl rfl, ?_, ?_⟩
      · intro d hd; exact absurd hd (List.not_mem_nil _)
      · intro b hb2; exact absurd hb2 (by simp [Cell.new])
    · rw [hold e hc] at hv
      obtain ⟨p1, p2, p3⟩ := forest_at rows e v hinv hv
      refine ⟨p1, ?_, ?_⟩
      · intro d hd
        obtain ⟨y, hy, hye⟩ := p2 d hd
        have hd2 : ¬ (d = a ∨ d ∈ x.overlapped_cells) := by
          intro hcon
          rcases hcon with hcon | hcon
          · subst hcon
            rw [hx] at hy
            injection hy with hy
            subst hy
            rw [hb] at hye
            exact absurd hye (by simp)
          · obtain ⟨_, q2, _⟩ := forest_at rows a x hinv hx
            obtain ⟨y2, hy2, hy2a⟩ := q2 d hcon
            rw [hy] at hy2
            injection hy2 with hy2
            subst hy2
            rw [hye] at hy2a
            injection hy2a with hea
            exact hc (Or.inl hea)
        exact ⟨y, by rw [hold d hd2]; exact hy, hye⟩
      · intro b hb2
        obtain ⟨y, hy, hye⟩ := p3 b hb2
        have hb3 : ¬ (b = a ∨ b ∈ x.overlapped_cells) := by
          intro hcon
          rcases hcon with hcon | hcon
          · subst hcon
            rw [hx] at hy
            injection hy with hy
            subst hy
            exact hc (Or.inr hye)
          · obtain ⟨_, y2, hy2, hy2l⟩ := hch b hcon
            rw [hy] at hy2
            injection hy2 with hy2
            subst hy2
            rw [hy2l] at hye
            exact absurd hye (List.not_mem_nil _)
        exact ⟨y, by rw [hold b hb3]; exact hy, hye⟩
  · obtain ⟨hrows, hget, hframe⟩ := hover b hb
    have hfield : ∀ e v, get_cell rows1 e = some v →
        ∃ u, get_cell rows e = some u ∧ u.overlapping_cell = v.overlapping_cell ∧
          u.overlapped_cells = v.overlapped_cells := by
      intro e v hv
      by_cases hea : e = a
      · subst hea
        rw [hget] at hv
        injection hv with hv
        subst hv
        exact ⟨x, hx, rfl, rfl⟩
      · rw [hframe e hea] at hv
        exact ⟨v, hv, rfl, rfl⟩
    have hback : ∀ e u, get_cell rows e = some u →
        ∃ v, get_cell rows1 e = some v ∧ v.overlapping_cell = u.overlapping_cell ∧
          v.overlapped_cells = u.overlapped_cells := by
      intro e u hu
      by_cases hea : e = a
      · subst hea
        rw [hx] at hu
        injection hu with hu
        subst hu
        exact ⟨_, hget, rfl, rfl⟩
      · exact ⟨u, by rw [hframe e hea]; exact hu, rfl, rfl⟩
    apply forest_intro
    intro e v hv
    obtain ⟨u, hu, e1, e2⟩ := hfield e v hv
    obtain ⟨p1, p2, p3⟩ := forest_at rows e u hinv hu
    rw [e1, e2] at p1
    refine ⟨p1, ?_, ?_⟩
    · intro d hd
      rw [← e2] at hd
      obtain ⟨y, hy, hye⟩ := p2 d hd
      obtain ⟨y1, hy1, f1, _⟩ := hback d y hy
      exact ⟨y1, hy1, by rw [f1]; exact hye⟩
    · intro b2 hb2
      rw [← e1] at hb2
      obtain ⟨y, hy, hye⟩ := p3 b2 hb2
      obtain ⟨y1, hy1, _, f2⟩ := hback b2 y hy
      exact ⟨y1, hy1, by rw [f2]; exact hye⟩

/-! ## Wide glyphs -/

/-- C17: on a grid satisfying the overlap forest invariant, `reset` of a cell returns
and leaves it with empty contents, `fallback = false` and `width = 1`; for a base cell
its `overlapped_cells` is then empty and every cell that was in it has a null
`overlapping_cell`, empty contents, `fallback = false` and `width = 1`; for an overlapped
cell the back-link and the list of the cell are kept, and its owner and every other cell
are untouched. -/
theorem cell_reset (fuel : Nat) (rows : List Row) (a : CellPtr) (x : Cell)
    (hinv : OverlapForest rows) (hx : get_cell rows a = some x) (hfuel : 2 ≤ fuel) :
    ∃ rows1, Cell.reset fuel rows a = some rows1 ∧
      (∃ y, get_cell rows1 a = some y ∧ y.contents = [] ∧ y.fallback = false ∧ y.width = 1) ∧
      (x.overlapping_cell = none →
        (∃ y, get_cell rows1 a = some y ∧ y.overlapped_cells = []) ∧
        (∀ d ∈ x.overlapped_cells, ∃ z, get_cell rows1 d = some z ∧
          z.overlapping_cell = none ∧ z.contents = [] ∧ z.fallback = false ∧ z.width = 1)) ∧
      (∀ b, x.overlapping_cell = some b →
        (∃ y, get_cell rows1 a = some y ∧ y.overlapping_cell = some b ∧
          y.overlapped_cells = x.overlapped_cells) ∧
        get_cell rows1 b = get_cell rows b ∧
        (∀ e, e ≠ a → get_cell rows1 e = get_cell rows e)) := by
  obtain ⟨f, rfl⟩ : ∃ f, fuel = f + 2 := ⟨fuel - 2, by omega⟩
  obtain ⟨rows1, hr, ⟨y, hy, y1, y2, y3, _⟩, hbase, hover⟩ := reset_spec f rows a x hinv hx
  refine ⟨rows1, hr, ⟨y, hy, y1, y2, y3⟩, ?_, ?_⟩
  · intro hb
    obtain ⟨g1, g2, _⟩ := hbase hb
    refine ⟨⟨Cell.new, g1, rfl⟩, ?_⟩
    intro d hd
    exact ⟨Cell.new, g2 d hd, rfl, rfl, rfl, rfl⟩
  · intro b hb
    obtain ⟨_, g2, g3⟩ := hover b hb
    exact ⟨⟨_, g2, hb, rfl⟩, g3 b (forest_owner_ne rows a b x hinv hx hb), g3⟩

/-- Scenario S6: after the reset of the wide cell at row 0, column 3, its list is empty
and the cell at column 4 has no owner. -/
theorem cell_reset_witness :
    ∃ rows1, Cell.reset 2 wide_at_3.rows { row := 0, col := 3 } = some rows1 ∧
      (∃ y, get_cell rows1 { row := 0, col := 3 } = some y ∧ y.overlapped_cells = []) ∧
      (∃ z, get_cell rows1 { row := 0, col := 4 } = some z ∧ z.overlapping_cell = none ∧
        z.contents = [] ∧ z.fallback = false ∧ z.width = 1) := by
  obtain ⟨rows1, h1, _, h3, _⟩ := cell_reset 2 wide_at_3.rows { row := 0, col := 3 }
    (Cell.mk none [0x4E2D] [{ row := 0, col := 4 }] false 2) (by decide) (by decide)
    (by decide)
  exact ⟨rows1, h1, (h3 rfl).1, (h3 rfl).2 { row := 0, col := 4 } (by decide)⟩

/-- C16, on the 80-wide framebuffer with a width-2 glyph at row 0, column 3 and a second
width-2 glyph written to column 4: the grid is reached from a fresh framebuffer, it
satisfies the invariant, and `claim_overlap( 0, 4 )` leaves the cell at column 4 with
both a non-null `overlapping_cell` and a non-empty `overlapped_cells`, so the invariant is
lost. -/
theorem claim_overlap_breaks_forest :
    OverlapForest (Framebuffer.new 80 2).rows ∧
    Framebuffer.claim_overlap 2 glyph_at_3 0 3 = some wide_at_3 ∧
    Cell.reset 2 wide_at_3.rows { row := 0, col := 4 } = some wide_at_3.rows ∧
    OverlapForest wide_at_3_and_4.rows ∧
    (Framebuffer.claim_overlap 2 wide_at_3_and_4 0 4).bind
        (fun fb => get_cell fb.rows { row := 0, col := 4 })
      = some { overlapping_cell := some { row := 0, col := 3 }, contents := [0x6587],
               overlapped_cells := [{ row := 0, col := 5 }], fallback := false, width := 2 } ∧
    (Framebuffer.claim_overlap 2 wide_at_3_and_4 0 4).map
        (fun fb => decide (OverlapForest fb.rows))
      = some false := by
  refine ⟨by decide, by decide, by decide, by decide, by decide, by decide⟩


/-- C18 as stated fails.  On a grid satisfying the invariant where the cell at row 0,
column 0 has width 3 and the cell at column 2 overlaps the one at column 1,
`claim_overlap( 0, 0 )` returns and leaves the cell at column 1 with a null
`overlapping_cell`: the reset of column 2 in the second pass detaches it.  And on the grid
`claim_overlap( 0, 4 )` builds from two adjacent wide glyphs, `claim_overlap( 0, 3 )` on
the width-2 cell does not return: the `assert` of `reset` fails. -/
theorem claim_overlap_counterexample :
    OverlapForest overlapped_from_right.rows ∧
    (get_cell overlapped_from_right.rows { row := 0, col := 0 }).map Cell.width = some 3 ∧
    (Framebuffer.claim_overlap 2 overlapped_from_right 0 0).bind
        (fun fb => get_cell fb.rows { row := 0, col := 1 })
      = some { overlapping_cell := none, contents := [], overlapped_cells := [],
               fallback := false, width := 1 } ∧
    (∀ fuel : Nat,
      (Framebuffer.claim_overlap 2 wide_at_3_and_4 0 4).bind
        (fun fb => Framebuffer.claim_overlap fuel fb 0 3) = none) := by
  refine ⟨by decide, by decide, by decide, ?_⟩
  intro fuel
  cases fuel with
  | zero => rfl
  | succ f => rfl

/-- C18, amended: on a framebuffer whose grid satisfies the overlap forest invariant and
whose row `row` has `width` cells, for an in-grid cell of width `w <= 2`,
`claim_overlap( row, col )` returns; every cell at `(row, c)` with `col < c < col + w` and
`c < width` then has empty contents, width 1, `fallback = false` and `overlapping_cell`
equal to the cell at `(row, col)`, and is in that cell's `overlapped_cells`; for `w <= 1`,
and when column `col + 1` is outside the grid, nothing changes. -/
theorem claim_overlap_spec (fuel : Nat) (fb : Framebuffer) (row col : Nat) (x : Cell)
    (hinv : OverlapForest fb.rows)
    (hx : get_cell fb.rows { row := row, col := col } = some x) (hw : x.width ≤ 2)
    (hlen : (row_length fb.rows row : Int) = fb.ds.width) (hfuel : 2 ≤ fuel) :
    ∃ fb1, fb.claim_overlap fuel row col = some fb1 ∧ fb1.ds = fb.ds ∧
      (∀ c : Nat, col < c → (c : Int) < (col : Int) + x.width → (c : Int) < fb.ds.width →
        ∃ z base, get_cell fb1.rows { row := row, col := c } = some z ∧
          z.contents = [] ∧ z.width = 1 ∧ z.fallback = false ∧
          z.overlapping_cell = some { row := row, col := col } ∧
          get_cell fb1.rows { row := row, col := col } = some base ∧
          ({ row := row, col := c } : CellPtr) ∈ base.overlapped_cells) ∧
      (x.width ≤ 1 → fb1 = fb) ∧
      (fb.ds.width ≤ (col : Int) + 1 → fb1 = fb) := by
  obtain ⟨f, rfl⟩ : ∃ f, fuel = f + 2 := ⟨fuel - 2, by omega⟩
  by_cases hnarrow : x.width ≤ 1
  · refine ⟨fb, claim_overlap_narrow _ fb row col x hx hnarrow, rfl, ?_, fun _ => rfl,
      fun _ => rfl⟩
    intro c h1 h2 _
    exact absurd h2 (by omega)
  · have hw2 : x.width = 2 := by omega
    obtain ⟨hskip, hin⟩ := claim_overlap_wide f fb row col x hinv hx hw2 hlen
    by_cases hout : fb.ds.width ≤ (col : Int) + 1
    · refine ⟨fb, hskip hout, rfl, ?_, fun _ => rfl, fun _ => rfl⟩
      intro c h1 _ h3
      exact absurd h3 (by omega)
    · obtain ⟨rows3, z, base, hc, hz, z1, z2, z3, z4, hb, hm⟩ := hin (by omega)
      refine ⟨_, hc, rfl, ?_, fun h => absurd h hnarrow, fun h => absurd h hout⟩
      intro c h1 h2 _
      have hc1 : c = col + 1 := by omega
      subst hc1
      exact ⟨z, base, hz, z1, z2, z3, z4, hb, hm⟩

/-- Scenario S6: a width-2 glyph at row 0, column 3 of an 80-wide framebuffer; after
`claim_overlap( 0, 3 )` the cell at column 4 points back to column 3. -/
theorem claim_overlap_spec_witness :
    ∃ fb1, Framebuffer.claim_overlap 2 glyph_at_3 0 3 = some fb1 ∧
      ∃ z base, get_cell fb1.rows { row := 0, col := 4 } = some z ∧
        z.contents = [] ∧ z.width = 1 ∧ z.fallback = false ∧
        z.overlapping_cell = some { row := 0, col := 3 } ∧
        get_cell fb1.rows { row := 0, col := 3 } = some base ∧
        ({ row := 0, col := 4 } : CellPtr) ∈ base.overlapped_cells := by
  obtain ⟨fb1, h1, _, h3, _⟩ := claim_overlap_spec 2 glyph_at_3 0 3
    (Cell.mk none [0x4E2D] [] false 2) (by decide) (by decide) (by decide) (by decide)
    (by decide)
  exact ⟨fb1, h1, h3 4 (by decide) (by decide) (by decide)⟩

/-! ## The row vector under `erase` and `insert` -/

theorem shift_down_length (cur : Row) (l : List Row) :
    (shift_down cur l).length = l.length := by
  induction l generalizing cur with
  | nil => rfl
  | cons next rest ih => simp [shift_down, ih]

theorem shift_down_get (cur : Row) (l : List Row) (i : Nat) (a b : Row)
    (ha : (cur :: l)[i]? = some a) (hb : l[i]? = some b) :
    (shift_down cur l)[i]? = some (a.assign b) := by
  induction l generalizing cur i with
  | nil => simp at hb
  | cons next rest ih =>
    cases i with
    | zero =>
      simp only [List.getElem?_cons_zero, Option.some.injEq] at ha hb
      subst ha
      subst hb
      simp [shift_down]
    | succ k =>
      simp only [List.getElem?_cons_succ] at ha hb
      simp only [shift_down, List.getElem?_cons_succ]
      exact ih next k ha hb

theorem rows_erase_some (rows : List Row) (pos : Nat) (h : pos < rows.length) :
    ∃ t, rows_erase rows pos = some t ∧ t.length + 1 = rows.length := by
  induction rows generalizing pos with
  | nil => simp at h
  | cons r rs ih =>
    cases pos with
    | zero => exact ⟨_, rfl, by simp [shift_down_length]⟩
    | succ p =>
      obtain ⟨t, ht, hl⟩ := ih p (by simpa using h)
      exact ⟨r :: t, by simp [rows_erase, ht], by simp [hl]⟩

theorem rows_erase_get_lt (rows t : List Row) (pos i : Nat)
    (h : rows_erase rows pos = some t) (hi : i < pos) : t[i]? = rows[i]? := by
  induction rows generalizing pos t i with
  | nil => simp [rows_erase] at h
  | cons r rs ih =>
    cases pos with
    | zero => omega
    | succ p =>
      simp only [rows_erase, Option.map_eq_some'] at h
      obtain ⟨u, hu, rfl⟩ := h
      cases i with
      | zero => simp
      | succ k =>
        simp only [List.getElem?_cons_succ]
        exact ih u p k hu (by omega)

theorem rows_erase_get_ge (rows t : List Row) (pos i : Nat) (a b : Row)
    (h : rows_erase rows pos = some t) (hi : pos ≤ i)
    (ha : rows[i]? = some a) (hb : rows[i + 1]? = some b) :
    t[i]? = some (a.assign b) := by
  induction rows generalizing pos t i with
  | nil => simp [rows_erase] at h
  | cons r rs ih =>
    cases pos with
    | zero =>
      simp only [rows_erase, Option.some.injEq] at h
      subst h
      exact shift_down_get r rs i a b ha (by simpa using hb)
    | succ p =>
      simp only [rows_erase, Option.map_eq_some'] at h
      obtain ⟨u, hu, rfl⟩ := h
      cases i with
      | zero => omega
      | succ k =>
        simp only [List.getElem?_cons_succ] at ha hb ⊢
        exact ih u p k hu (by omega) ha hb

theorem shift_up_length (prev : Row) (l : List Row) :
    (shift_up prev l).length = l.length + 1 := by
  induction l generalizing prev with
  | nil => rfl
  | cons r rs ih => simp [shift_up, ih]

theorem shift_up_get (prev : Row) (l : List Row) (i : Nat) (a b : Row)
    (ha : l[i]? = some a) (hb : (prev :: l)[i]? = some b) :
    (shift_up prev l)[i]? = some (a.assign b) := by
  induction l generalizing prev i with
  | nil => simp at ha
  | cons r rs ih =>
    cases i with
    | zero =>
      simp only [List.getElem?_cons_zero, Option.some.injEq] at ha hb
      subst ha
      subst hb
      simp [shift_up]
    | succ k =>
      simp only [List.getElem?_cons_succ] at ha hb
      simp only [shift_up, List.getElem?_cons_succ]
      exact ih r k ha hb

theorem shift_up_last (prev : Row) (l : List Row) (b : Row)
    (hb : (prev :: l)[l.length]? = some b) :
    (shift_up prev l)[l.length]? = some b.copy := by
  induction l generalizing prev with
  | nil =>
    simp only [List.length_nil, List.getElem?_cons_zero, Option.some.injEq] at hb
    subst hb
    rfl
  | cons r rs ih =>
    simp only [List.length_cons, List.getElem?_cons_succ] at hb
    simp only [shift_up, List.length_cons, List.getElem?_cons_succ]
    exact ih r hb

theorem rows_insert_some (rows : List Row) (pos : Nat) (x : Row) (h : pos ≤ rows.length) :
    ∃ t, rows_insert rows pos x = some t ∧ t.length = rows.length + 1 := by
  induction rows generalizing pos with
  | nil =>
    have h0 : pos = 0 := by simpa using h
    subst h0
    exact ⟨_, rfl, rfl⟩
  | cons r rs ih =>
    cases pos with
    | zero => exact ⟨_, rfl, by simp [shift_up_length]⟩
    | succ p =>
      obtain ⟨t, ht, hl⟩ := ih p (by simpa using h)
      exact ⟨r :: t, by simp [rows_insert, ht], by simp [hl]⟩

theorem rows_insert_get_lt (rows t : List Row) (pos i : Nat) (x : Row)
    (h : rows_insert rows pos x = some t) (hi : i < pos) : t[i]? = rows[i]? := by
  induction rows generalizing pos t i with
  | nil =>
    cases pos with
    | zero => omega
    | succ p => simp [rows_insert] at h
  | cons r rs ih =>
    cases pos with
    | zero => omega
    | succ p =>
      simp only [rows_insert, Option.map_eq_some'] at h
      obtain ⟨u, hu, rfl⟩ := h
      cases i with
      | zero => simp
      | succ k =>
        simp only [List.getElem?_cons_succ]
        exact ih u p k hu (by omega)

theorem rows_insert_get_gt (rows t : List Row) (pos i : Nat) (x a b : Row)
    (h : rows_insert rows pos x = some t) (hi : pos ≤ i)
    (ha : rows[i + 1]? = some a) (hb : rows[i]? = some b) :
    t[i + 1]? = some (a.assign b) := by
  induction rows generalizing pos t i with
  | nil => simp at hb
  | cons r rs ih =>
    cases pos with
    | zero =>
      simp only [rows_insert, Option.some.injEq] at h
      subst h
      simp only [List.getElem?_cons_succ] at ha ⊢
      exact shift_up_get r rs i a b ha hb
    | succ p =>
      simp only [rows_insert, Option.map_eq_some'] at h
      obtain ⟨u, hu, rfl⟩ := h
      cases i with
      | zero => omega
      | succ k =>
        simp only [List.getElem?_cons_succ] at ha hb ⊢
        exact ih u p k hu (by omega) ha hb

theorem rows_insert_get_last (rows t : List Row) (pos : Nat) (x b : Row)
    (h : rows_insert rows pos x = some t) (hp : pos < rows.length)
    (hb : rows[rows.length - 1]? = some b) :
    t[rows.length]? = some b.copy := by
  induction rows generalizing pos t with
  | nil => simp at hp
  | cons r rs ih =>
    cases pos with
    | zero =>
      simp only [rows_insert, Option.some.injEq] at h
      subst h
      simp only [List.length_cons, List.getElem?_cons_succ, Nat.add_sub_cancel] at hb ⊢
      exact shift_up_last r rs b hb
    | succ p =>
      simp only [rows_insert, Option.map_eq_some'] at h
      obtain ⟨u, hu, rfl⟩ := h
      have hp1 : p < rs.length := by simpa using hp
      obtain ⟨m, hm⟩ : ∃ m, rs.length = m + 1 := ⟨rs.length - 1, by omega⟩
      simp only [List.length_cons, Nat.add_sub_cancel, hm, List.getElem?_cons_succ] at hb ⊢
      have := ih u p hu hp1 (by simpa [hm] using hb)
      simpa [hm] using this

/-! ## Row copies and row lengths -/

theorem row_assign_length (a b : Row) (h : b.cells.length = a.cells.length) :
    (a.assign b).cells.length = a.cells.length := by
  unfold Row.assign
  rw [if_pos (le_of_eq h)]
  simp [h]

theorem row_copy_length (a : Row) : a.copy.cells.length = a.cells.length := by
  simp [Row.copy]

theorem row_new_length (w : Nat) : (Row.new w).cells.length = w := by
  simp [Row.new]

theorem cell_copy_copy (c : Cell) : c.copy.copy = c.copy := rfl

theorem cell_copy_assign (a b : Cell) : (a.assign b).copy = b.copy := rfl

theorem cell_assign_assign (a b c : Cell) : (b.assign c).assign (a.assign b) = b := rfl

theorem row_copy_copy (a : Row) : a.copy.copy = a.copy := by
  simp [Row.copy, cell_copy_copy]

theorem zipWith_assign_copy (as bs : List Cell) (h : as.length = bs.length) :
    (List.zipWith Cell.assign as bs).map Cell.copy = bs.map Cell.copy := by
  induction as generalizing bs with
  | nil =>
    cases bs with
    | nil => rfl
    | cons b bs => simp at h
  | cons a as ih =>
    cases bs with
    | nil => simp at h
    | cons b bs =>
      simp only [List.zipWith_cons_cons, List.map_cons, cell_copy_assign]
      rw [ih bs (by simpa using h)]

theorem zipWith_assign_assign (as bs cs : List Cell) (h1 : as.length = bs.length)
    (h2 : bs.length = cs.length) :
    List.zipWith Cell.assign (List.zipWith Cell.assign bs cs) (List.zipWith Cell.assign as bs)
      = bs := by
  induction bs generalizing as cs with
  | nil => simp
  | cons b bs ih =>
    cases as with
    | nil => simp at h1
    | cons a as =>
      cases cs with
      | nil => simp at h2
      | cons c cs =>
        simp only [List.zipWith_cons_cons, cell_assign_assign]
        rw [ih as cs (by simpa using h1) (by simpa using h2)]

theorem row_copy_assign (a b : Row) (h : a.cells.length = b.cells.length) :
    (a.assign b).copy = b.copy := by
  unfold Row.assign
  rw [if_pos (le_of_eq h.symm)]
  simp only [Row.copy]
  rw [zipWith_assign_copy a.cells b.cells h]

theorem row_assign_assign (a b c : Row) (h1 : a.cells.length = b.cells.length)
    (h2 : b.cells.length = c.cells.length) :
    (b.assign c).assign (a.assign b) = b := by
  have e1 : b.assign c = { cells := List.zipWith Cell.assign b.cells c.cells } := by
    unfold Row.assign
    rw [if_pos (le_of_eq h2.symm)]
  have e2 : a.assign b = { cells := List.zipWith Cell.assign a.cells b.cells } := by
    unfold Row.assign
    rw [if_pos (le_of_eq h1.symm)]
  rw [e1, e2]
  unfold Row.assign
  rw [if_pos (by simp [h1, h2])]
  simp only []
  rw [zipWith_assign_assign a.cells b.cells c.cells h1 h2]

theorem shift_down_widths (w : Nat) (cur : Row) (l : List Row) (hc : cur.cells.length = w)
    (hl : ∀ r ∈ l, r.cells.length = w) : ∀ r ∈ shift_down cur l, r.cells.length = w := by
  induction l generalizing cur with
  | nil => simp [shift_down]
  | cons next rest ih =>
    have hn : next.cells.length = w := hl next (List.mem_cons_self _ _)
    intro r hr
    simp only [shift_down, List.mem_cons] at hr
    rcases hr with rfl | hr
    · rw [row_assign_length cur next (by rw [hn, hc]), hc]
    · exact ih next hn (fun r hr => hl r (List.mem_cons_of_mem _ hr)) r hr

theorem rows_erase_widths (w : Nat) (rows t : List Row) (pos : Nat)
    (h : rows_erase rows pos = some t) (hw : ∀ r ∈ rows, r.cells.length = w) :
    ∀ r ∈ t, r.cells.length = w := by
  induction rows generalizing pos t with
  | nil => simp [rows_erase] at h
  | cons r rs ih =>
    have hr : r.cells.length = w := hw r (List.mem_cons_self _ _)
    have hrs : ∀ r ∈ rs, r.cells.length = w := fun r hr => hw r (List.mem_cons_of_mem _ hr)
    cases pos with
    | zero =>
      simp only [rows_erase, Option.some.injEq] at h
      subst h
      exact shift_down_widths w r rs hr hrs
    | succ p =>
      simp only [rows_erase, Option.map_eq_some'] at h
      obtain ⟨u, hu, rfl⟩ := h
      intro y hy
      simp only [List.mem_cons] at hy
      rcases hy with rfl | hy
      · exact hr
      · exact ih u p hu hrs y hy

theorem shift_up_widths (w : Nat) (prev : Row) (l : List Row) (hp : prev.cells.length = w)
    (hl : ∀ r ∈ l, r.cells.length = w) : ∀ r ∈ shift_up prev l, r.cells.length = w := by
  induction l generalizing prev with
  | nil =>
    intro r hr
    simp only [shift_up, List.mem_singleton] at hr
    subst hr
    rw [row_copy_length, hp]
  | cons y rest ih =>
    have hy : y.cells.length = w := hl y (List.mem_cons_self _ _)
    intro r hr
    simp only [shift_up, List.mem_cons] at hr
    rcases hr with rfl | hr
    · rw [row_assign_length y prev (by rw [hy, hp]), hy]
    · exact ih y hy (fun r hr => hl r (List.mem_cons_of_mem _ hr)) r hr

theorem rows_insert_widths (w : Nat) (rows t : List Row) (pos : Nat) (x : Row)
    (h : rows_insert rows pos x = some t) (hx : x.cells.length = w)
    (hw : ∀ r ∈ rows, r.cells.length = w) : ∀ r ∈ t, r.cells.length = w := by
  induction rows generalizing pos t with
  | nil =>
    cases pos with
    | zero =>
      simp only [rows_insert, Option.some.injEq] at h
      subst h
      intro r hr
      simp only [List.mem_singleton] at hr
      subst hr
      rw [row_copy_length, hx]
    | succ p => simp [rows_insert] at h
  | cons r rs ih =>
    have hr : r.cells.length = w := hw r (List.mem_cons_self _ _)
    have hrs : ∀ r ∈ rs, r.cells.length = w := fun r hr => hw r (List.mem_cons_of_mem _ hr)
    cases pos with
    | zero =>
      simp only [rows_insert, Option.some.injEq] at h
      subst h
      intro y hy
      simp only [List.mem_cons] at hy
      rcases hy with rfl | hy
      · rw [row_assign_length r x.copy (by rw [row_copy_length, hx, hr]), hr]
      · exact shift_up_widths w r rs hr hrs y hy
    | succ p =>
      simp only [rows_insert, Option.map_eq_some'] at h
      obtain ⟨u, hu, rfl⟩ := h
      intro y hy
      simp only [List.mem_cons] at hy
      rcases hy with rfl | hy
      · exact hr
      · exact ih u p hu hrs y hy

/-! ## An `erase` followed by an `insert` -/

theorem erase_insert_some (rows : List Row) (p q : Nat) (x : Row)
    (hp : p < rows.length) (hq : q < rows.length) :
    ∃ t1 t, rows_erase rows p = some t1 ∧ rows_insert t1 q x = some t ∧
      t.length = rows.length := by
  obtain ⟨t1, h1, l1⟩ := rows_erase_some rows p hp
  obtain ⟨t, h2, l2⟩ := rows_insert_some t1 q x (by omega)
  exact ⟨t1, t, h1, h2, by omega⟩

theorem erase_insert_frame (rows t1 t : List Row) (p q w : Nat) (x : Row)
    (h1 : rows_erase rows p = some t1) (h2 : rows_insert t1 q x = some t)
    (hp : p < rows.length) (hq : q < rows.length) (hx : x.cells.length = w)
    (hw : ∀ r ∈ rows, r.cells.length = w) :
    (∀ r ∈ t, r.cells.length = w) ∧
    (∀ i, i < p → i < q → t[i]? = rows[i]?) ∧
    (∀ i, p < i → q < i → i + 1 < rows.length → t[i]? = rows[i]?) ∧
    (∀ i, p < i → q < i → (t[i]?).map Row.copy = (rows[i]?).map Row.copy) := by
  obtain ⟨u, hu, l1⟩ := rows_erase_some rows p hp
  rw [h1, Option.some.injEq] at hu
  subst hu
  obtain ⟨v, hv, l2⟩ := rows_insert_some t1 q x (by omega)
  rw [h2, Option.some.injEq] at hv
  subst hv
  have hlen : t.length = rows.length := by omega
  have hget : ∀ i, i < rows.length → ∃ a, rows[i]? = some a ∧ a.cells.length = w := by
    intro i hi
    exact ⟨rows[i], List.getElem?_eq_getElem hi, hw _ (List.getElem_mem hi)⟩
  have hmid : ∀ i, p < i → q < i → i + 1 < rows.length → t[i]? = rows[i]? := by
    intro i hpi hqi hin
    obtain ⟨k, rfl⟩ : ∃ k, i = k + 1 := ⟨i - 1, by omega⟩
    obtain ⟨a, ha, la⟩ := hget k (by omega)
    obtain ⟨b, hb, lb⟩ := hget (k + 1) (by omega)
    obtain ⟨c, hc, lc⟩ := hget (k + 1 + 1) hin
    have e1 := rows_erase_get_ge rows t1 p k a b h1 (by omega) ha hb
    have e2 := rows_erase_get_ge rows t1 p (k + 1) b c h1 (by omega) hb hc
    rw [rows_insert_get_gt t1 t q k x _ _ h2 (by omega) e2 e1, hb,
      row_assign_assign a b c (by rw [la, lb]) (by rw [lb, lc])]
  refine ⟨?_, ?_, hmid, ?_⟩
  · exact rows_insert_widths w t1 t q x h2 hx (rows_erase_widths w rows t1 p h1 hw)
  · intro i hpi hqi
    rw [rows_insert_get_lt t1 t q i x h2 hqi, rows_erase_get_lt rows t1 p i h1 hpi]
  · intro i hpi hqi
    by_cases hin : i + 1 < rows.length
    · rw [hmid i hpi hqi hin]
    · by_cases hlast : i + 1 = rows.length
      · obtain ⟨k, rfl⟩ : ∃ k, i = k + 1 := ⟨i - 1, by omega⟩
        obtain ⟨a, ha, la⟩ := hget k (by omega)
        obtain ⟨b, hb, lb⟩ := hget (k + 1) (by omega)
        have e1 := rows_erase_get_ge rows t1 p k a b h1 (by omega) ha hb
        have hk : t1.length - 1 = k := by omega
        have e2 := rows_insert_get_last t1 t q x (a.assign b) h2 (by omega) (by rw [hk]; exact e1)
        have hk1 : t1.length = k + 1 := by omega
        rw [hk1] at e2
        rw [e2, hb]
        simp only [Option.map_some']
        rw [row_copy_copy, row_copy_assign a b (by rw [la, lb])]
      · rw [List.getElem?_eq_none (by omega), List.getElem?_eq_none (by omega)]

/-! ## The cursor under `move_row` -/

theorem snap_cursor_to_border_tabs (ds : DrawState) :
    ds.snap_cursor_to_border.tabs = ds.tabs ∧
    ds.snap_cursor_to_border.auto_wrap_mode = ds.auto_wrap_mode := by
  unfold DrawState.snap_cursor_to_border
  simp only []
  repeat' split
  all_goals exact ⟨rfl, rfl⟩

theorem move_row_frame (ds : DrawState) (N : Int) (relative : Bool) :
    (ds.move_row N relative).width = ds.width ∧
    (ds.move_row N relative).height = ds.height ∧
    (ds.move_row N relative).origin_mode = ds.origin_mode ∧
    (ds.move_row N relative).scrolling_region_top_row = ds.scrolling_region_top_row ∧
    (ds.move_row N relative).scrolling_region_bottom_row = ds.scrolling_region_bottom_row ∧
    (ds.move_row N relative).tabs = ds.tabs ∧
    (ds.move_row N relative).auto_wrap_mode = ds.auto_wrap_mode := by
  cases relative
  · obtain ⟨f1, f2, f3, f4, f5, _, _, _⟩ := snap_cursor_to_border_frame { ds with cursor_row := N }
    obtain ⟨g1, g2⟩ := snap_cursor_to_border_tabs { ds with cursor_row := N }
    exact ⟨f1, f2, f3, f4, f5, g1, g2⟩
  · obtain ⟨f1, f2, f3, f4, f5, _, _, _⟩ :=
      snap_cursor_to_border_frame { ds with cursor_row := int32 (ds.cursor_row + N) }
    obtain ⟨g1, g2⟩ :=
      snap_cursor_to_border_tabs { ds with cursor_row := int32 (ds.cursor_row + N) }
    exact ⟨f1, f2, f3, f4, f5, g1, g2⟩

theorem move_row_limits (ds : DrawState) (N : Int) (relative : Bool) :
    (ds.move_row N relative).limit_top = ds.limit_top ∧
    (ds.move_row N relative).limit_bottom = ds.limit_bottom := by
  obtain ⟨_, f2, f3, f4, f5, _, _⟩ := move_row_frame ds N relative
  unfold DrawState.limit_top DrawState.limit_bottom
  rw [f2, f3, f4, f5]
  exact ⟨rfl, rfl⟩

theorem int32_of_range (x : Int) (h0 : -2147483648 ≤ x) (h1 : x < 2147483648) :
    int32 x = x := by
  unfold int32
  omega

theorem move_row_cursor_row (ds : DrawState) (N : Int) :
    (ds.move_row N true).cursor_row =
      (if (if int32 (ds.cursor_row + N) < ds.limit_top then ds.limit_top
            else int32 (ds.cursor_row + N)) > ds.limit_bottom
        then ds.limit_bottom
        else (if int32 (ds.cursor_row + N) < ds.limit_top then ds.limit_top
            else int32 (ds.cursor_row + N))) :=
  snap_cursor_to_border_row { ds with cursor_row := int32 (ds.cursor_row + N) }

theorem move_row_cursor_col (ds : DrawState) (N : Int) (relative : Bool)
    (h0 : 0 ≤ ds.cursor_col) (h1 : ds.cursor_col < ds.width) :
    (ds.move_row N relative).cursor_col = ds.cursor_col := by
  cases relative
  · have h := snap_cursor_to_border_col { ds with cursor_row := N }
    have e : (ds.move_row N false).cursor_col
        = (DrawState.snap_cursor_to_border { ds with cursor_row := N }).cursor_col := rfl
    rw [e, h]
    simp only []
    rw [if_neg (by omega), if_neg (by omega)]
  · have h := snap_cursor_to_border_col { ds with cursor_row := int32 (ds.cursor_row + N) }
    have e : (ds.move_row N true).cursor_col
        = (DrawState.snap_cursor_to_border
            { ds with cursor_row := int32 (ds.cursor_row + N) }).cursor_col :=
      rfl
    rw [e, h]
    simp only []
    rw [if_neg (by omega), if_neg (by omega)]

/-! ## Repeated cursor moves -/

theorem iterate_move_row_frame (d : Int) (n : Nat) (ds : DrawState) :
    ((fun s : DrawState => s.move_row d true)^[n] ds).width = ds.width ∧
    ((fun s : DrawState => s.move_row d true)^[n] ds).height = ds.height ∧
    ((fun s : DrawState => s.move_row d true)^[n] ds).origin_mode = ds.origin_mode ∧
    ((fun s : DrawState => s.move_row d true)^[n] ds).scrolling_region_top_row
      = ds.scrolling_region_top_row ∧
    ((fun s : DrawState => s.move_row d true)^[n] ds).scrolling_region_bottom_row
      = ds.scrolling_region_bottom_row ∧
    ((fun s : DrawState => s.move_row d true)^[n] ds).tabs = ds.tabs ∧
    ((fun s : DrawState => s.move_row d true)^[n] ds).auto_wrap_mode = ds.auto_wrap_mode ∧
    ((fun s : DrawState => s.move_row d true)^[n] ds).limit_top = ds.limit_top ∧
    ((fun s : DrawState => s.move_row d true)^[n] ds).limit_bottom = ds.limit_bottom := by
  induction n generalizing ds with
  | zero => exact ⟨rfl, rfl, rfl, rfl, rfl, rfl, rfl, rfl, rfl⟩
  | succ n ih =>
    rw [Function.iterate_succ_apply]
    obtain ⟨a1, a2, a3, a4, a5, a6, a7, a8, a9⟩ := ih (ds.move_row d true)
    obtain ⟨b1, b2, b3, b4, b5, b6, b7⟩ := move_row_frame ds d true
    obtain ⟨b8, b9⟩ := move_row_limits ds d true
    exact ⟨a1.trans b1, a2.trans b2, a3.trans b3, a4.trans b4, a5.trans b5, a6.trans b6,
      a7.trans b7, a8.trans b8, a9.trans b9⟩

theorem iterate_move_row_col (d : Int) (n : Nat) (ds : DrawState)
    (h0 : 0 ≤ ds.cursor_col) (h1 : ds.cursor_col < ds.width) :
    ((fun s : DrawState => s.move_row d true)^[n] ds).cursor_col = ds.cursor_col := by
  induction n generalizing ds with
  | zero => rfl
  | succ n ih =>
    rw [Function.iterate_succ_apply]
    have hc := move_row_cursor_col ds d true h0 h1
    have hw := (move_row_frame ds d true).1
    rw [ih (ds.move_row d true) (by rw [hc]; exact h0) (by rw [hc, hw]; exact h1), hc]

theorem iterate_move_row_up (n : Nat) (ds : DrawState)
    (h0 : ds.limit_top ≤ ds.cursor_row) (h1 : ds.cursor_row ≤ ds.limit_bottom)
    (hT : 0 ≤ ds.limit_top) (hB : ds.limit_bottom < 2147483647) :
    ((fun s : DrawState => s.move_row (-1) true)^[n] ds).cursor_row
      = if ds.cursor_row - n < ds.limit_top then ds.limit_top else ds.cursor_row - n := by
  induction n generalizing ds with
  | zero =>
    simp only [Function.iterate_zero, id_eq, Nat.cast_zero, sub_zero]
    rw [if_neg (by omega)]
  | succ n ih =>
    rw [Function.iterate_succ_apply]
    obtain ⟨b8, b9⟩ := move_row_limits ds (-1) true
    have hc := move_row_cursor_row ds (-1)
    rw [int32_of_range (ds.cursor_row + -1) (by omega) (by omega)] at hc
    have hc0 : ds.limit_top ≤ (ds.move_row (-1) true).cursor_row := by
      rw [hc]
      repeat' split
      all_goals omega
    have hc1 : (ds.move_row (-1) true).cursor_row ≤ ds.limit_bottom := by
      rw [hc]
      repeat' split
      all_goals omega
    rw [ih (ds.move_row (-1) true) (by rw [b8]; exact hc0) (by rw [b9]; exact hc1)
      (by rw [b8]; exact hT) (by rw [b9]; exact hB), b8, hc]
    push_cast
    repeat' split
    all_goals omega

theorem iterate_move_row_down (n : Nat) (ds : DrawState)
    (h0 : ds.limit_top ≤ ds.cursor_row) (h1 : ds.cursor_row ≤ ds.limit_bottom)
    (hT : 0 ≤ ds.limit_top) (hB : ds.limit_bottom < 2147483647) :
    ((fun s : DrawState => s.move_row 1 true)^[n] ds).cursor_row
      = if ds.cursor_row + n > ds.limit_bottom then ds.limit_bottom else ds.cursor_row + n := by
  induction n generalizing ds with
  | zero =>
    simp only [Function.iterate_zero, id_eq, Nat.cast_zero, add_zero]
    rw [if_neg (by omega)]
  | succ n ih =>
    rw [Function.iterate_succ_apply]
    obtain ⟨b8, b9⟩ := move_row_limits ds 1 true
    have hc := move_row_cursor_row ds 1
    rw [int32_of_range (ds.cursor_row + 1) (by omega) (by omega)] at hc
    have hc0 : ds.limit_top ≤ (ds.move_row 1 true).cursor_row := by
      rw [hc]
      repeat' split
      all_goals omega
    have hc1 : (ds.move_row 1 true).cursor_row ≤ ds.limit_bottom := by
      rw [hc]
      repeat' split
      all_goals omega
    rw [ih (ds.move_row 1 true) (by rw [b8]; exact hc0) (by rw [b9]; exact hc1)
      (by rw [b8]; exact hT) (by rw [b9]; exact hB), b9, hc]
    push_cast
    repeat' split
    all_goals omega

/-! ## One pass of `scroll` -/

theorem index_of_nonneg (i : Int) (h : 0 ≤ i) : index i = some i.toNat := by
  unfold index
  rw [if_pos h]

theorem scroll_up_step_eq (fb : Framebuffer) (hT : 0 ≤ fb.ds.limit_top)
    (hTB : fb.ds.limit_top ≤ fb.ds.limit_bottom) (hB : fb.ds.limit_bottom < fb.rows.length) :
    ∃ t1 t p q, fb.ds.limit_top.toNat ≤ p ∧ p ≤ fb.ds.limit_bottom.toNat ∧
      fb.ds.limit_top.toNat ≤ q ∧ q ≤ fb.ds.limit_bottom.toNat ∧
      rows_erase fb.rows p = some t1 ∧
      rows_insert t1 q (Row.new fb.ds.width.toNat) = some t ∧
      t.length = fb.rows.length ∧
      fb.scroll_up_step = some { rows := t, ds := fb.ds.move_row (-1) true } := by
  obtain ⟨t1, t, h1, h2, hl⟩ := erase_insert_some fb.rows fb.ds.limit_top.toNat
    fb.ds.limit_bottom.toNat (Row.new fb.ds.width.toNat) (by omega) (by omega)
  refine ⟨t1, t, _, _, le_refl _, by omega, by omega, le_refl _, h1, h2, hl, ?_⟩
  unfold Framebuffer.scroll_up_step
  rw [index_of_nonneg _ hT, index_of_nonneg _ (by omega)]
  simp only [Option.bind_eq_bind, Option.some_bind, h1, h2]
  rfl

theorem scroll_down_step_eq (fb : Framebuffer) (hT : 0 ≤ fb.ds.limit_top)
    (hTB : fb.ds.limit_top ≤ fb.ds.limit_bottom) (hB : fb.ds.limit_bottom < fb.rows.length) :
    ∃ t1 t p q, fb.ds.limit_top.toNat ≤ p ∧ p ≤ fb.ds.limit_bottom.toNat ∧
      fb.ds.limit_top.toNat ≤ q ∧ q ≤ fb.ds.limit_bottom.toNat ∧
      rows_erase fb.rows p = some t1 ∧
      rows_insert t1 q (Row.new fb.ds.width.toNat) = some t ∧
      t.length = fb.rows.length ∧
      fb.scroll_down_step = some { rows := t, ds := fb.ds.move_row 1 true } := by
  obtain ⟨t1, t, h1, h2, hl⟩ := erase_insert_some fb.rows fb.ds.limit_bottom.toNat
    fb.ds.limit_top.toNat (Row.new fb.ds.width.toNat) (by omega) (by omega)
  refine ⟨t1, t, _, _, by omega, le_refl _, le_refl _, by omega, h1, h2, hl, ?_⟩
  unfold Framebuffer.scroll_down_step
  rw [index_of_nonneg _ hT, index_of_nonneg _ (by omega)]
  simp only [Option.bind_eq_bind, Option.some_bind, h1, h2]
  rfl

/-! ## The loops of `scroll` -/

theorem repeat_step_ds (step : Framebuffer → Option Framebuffer) (d : Int)
    (hstep : ∀ fb : Framebuffer, 0 ≤ fb.ds.limit_top → fb.ds.limit_top ≤ fb.ds.limit_bottom →
      fb.ds.limit_bottom < fb.rows.length →
      ∃ t1 t p q, fb.ds.limit_top.toNat ≤ p ∧ p ≤ fb.ds.limit_bottom.toNat ∧
        fb.ds.limit_top.toNat ≤ q ∧ q ≤ fb.ds.limit_bottom.toNat ∧
        rows_erase fb.rows p = some t1 ∧
        rows_insert t1 q (Row.new fb.ds.width.toNat) = some t ∧
        t.length = fb.rows.length ∧
        step fb = some { rows := t, ds := fb.ds.move_row d true })
    (n : Nat) (fb : Framebuffer) (hT : 0 ≤ fb.ds.limit_top)
    (hTB : fb.ds.limit_top ≤ fb.ds.limit_bottom) (hB : fb.ds.limit_bottom < fb.rows.length) :
    ∃ t, repeat_step step n fb
        = some { rows := t, ds := (fun s : DrawState => s.move_row d true)^[n] fb.ds } ∧
      t.length = fb.rows.length := by
  induction n generalizing fb with
  | zero => exact ⟨fb.rows, rfl, rfl⟩
  | succ n ih =>
    obtain ⟨t1, t, p, q, _, _, _, _, _, _, hl, hs⟩ := hstep fb hT hTB hB
    obtain ⟨b8, b9⟩ := move_row_limits fb.ds d true
    obtain ⟨u, hu, hul⟩ := ih { rows := t, ds := fb.ds.move_row d true }
      (by rw [b8]; exact hT) (by rw [b8, b9]; exact hTB) (by rw [b9, hl]; exact hB)
    refine ⟨u, ?_, hul.trans hl⟩
    rw [repeat_step, hs, Option.some_bind, hu, Function.iterate_succ_apply]

theorem repeat_step_rows (step : Framebuffer → Option Framebuffer) (d : Int)
    (hstep : ∀ fb : Framebuffer, 0 ≤ fb.ds.limit_top → fb.ds.limit_top ≤ fb.ds.limit_bottom →
      fb.ds.limit_bottom < fb.rows.length →
      ∃ t1 t p q, fb.ds.limit_top.toNat ≤ p ∧ p ≤ fb.ds.limit_bottom.toNat ∧
        fb.ds.limit_top.toNat ≤ q ∧ q ≤ fb.ds.limit_bottom.toNat ∧
        rows_erase fb.rows p = some t1 ∧
        rows_insert t1 q (Row.new fb.ds.width.toNat) = some t ∧
        t.length = fb.rows.length ∧
        step fb = some { rows := t, ds := fb.ds.move_row d true })
    (n : Nat) (fb fb1 : Framebuffer) (w : Nat) (hT : 0 ≤ fb.ds.limit_top)
    (hTB : fb.ds.limit_top ≤ fb.ds.limit_bottom) (hB : fb.ds.limit_bottom < fb.rows.length)
    (hdw : fb.ds.width = w) (hw : ∀ r ∈ fb.rows, r.cells.length = w)
    (h : repeat_step step n fb = some fb1) :
    (∀ r ∈ fb1.rows, r.cells.length = w) ∧
    (∀ i : Nat, (i : Int) < fb.ds.limit_top → fb1.rows[i]? = fb.rows[i]?) ∧
    (∀ i : Nat, fb.ds.limit_bottom < i → i + 1 < fb.rows.length →
      fb1.rows[i]? = fb.rows[i]?) ∧
    (∀ i : Nat, fb.ds.limit_bottom < i →
      (fb1.rows[i]?).map Row.copy = (fb.rows[i]?).map Row.copy) := by
  induction n generalizing fb with
  | zero =>
    simp only [repeat_step, Option.some.injEq] at h
    subst h
    exact ⟨hw, fun _ _ => rfl, fun _ _ _ => rfl, fun _ _ => rfl⟩
  | succ n ih =>
    obtain ⟨t1, t, p, q, hp0, hp1, hq0, hq1, h1, h2, hl, hs⟩ := hstep fb hT hTB hB
    obtain ⟨b8, b9⟩ := move_row_limits fb.ds d true
    have bw := (move_row_frame fb.ds d true).1
    rw [repeat_step, hs, Option.some_bind] at h
    have hx : (Row.new fb.ds.width.toNat).cells.length = w := by
      rw [row_new_length, hdw]
      rfl
    obtain ⟨f1, f2, f3, f4⟩ := erase_insert_frame fb.rows t1 t p q w _ h1 h2
      (by omega) (by omega) hx hw
    obtain ⟨g1, g2, g3, g4⟩ := ih { rows := t, ds := fb.ds.move_row d true }
      (by rw [b8]; exact hT) (by rw [b8, b9]; exact hTB) (by rw [b9, hl]; exact hB)
      (by rw [bw]; exact hdw) f1 h
    simp only [b8, b9, hl] at g2 g3 g4
    refine ⟨g1, ?_, ?_, ?_⟩
    · intro i hi
      rw [g2 i hi, f2 i (by omega) (by omega)]
    · intro i hi hin
      rw [g3 i hi hin, f3 i (by omega) (by omega) hin]
    · intro i hi
      rw [g4 i hi, f4 i (by omega) (by omega)]

/-! ## The method `scroll` -/

theorem scroll_ds (fb : Framebuffer) (N : Int) (hT : 0 ≤ fb.ds.limit_top)
    (hTB : fb.ds.limit_top ≤ fb.ds.limit_bottom) (hB : fb.ds.limit_bottom < fb.rows.length) :
    ∃ t, fb.scroll N
        = some { rows := t,
                 ds := if N ≥ 0 then (fun s : DrawState => s.move_row (-1) true)^[N.toNat] fb.ds
                       else (fun s : DrawState => s.move_row 1 true)^[(int32 (-N)).toNat]
                         fb.ds } ∧
      t.length = fb.rows.length := by
  unfold Framebuffer.scroll
  by_cases hN : N ≥ 0
  · rw [if_pos hN, if_pos hN]
    exact repeat_step_ds _ (-1) scroll_up_step_eq N.toNat fb hT hTB hB
  · rw [if_neg hN, if_neg hN]
    exact repeat_step_ds _ 1 scroll_down_step_eq (int32 (-N)).toNat fb hT hTB hB

theorem scroll_rows (fb fb1 : Framebuffer) (N : Int) (w : Nat) (hT : 0 ≤ fb.ds.limit_top)
    (hTB : fb.ds.limit_top ≤ fb.ds.limit_bottom) (hB : fb.ds.limit_bottom < fb.rows.length)
    (hdw : fb.ds.width = w) (hw : ∀ r ∈ fb.rows, r.cells.length = w)
    (h : fb.scroll N = some fb1) :
    (∀ r ∈ fb1.rows, r.cells.length = w) ∧
    (∀ i : Nat, (i : Int) < fb.ds.limit_top → fb1.rows[i]? = fb.rows[i]?) ∧
    (∀ i : Nat, fb.ds.limit_bottom < i → i + 1 < fb.rows.length →
      fb1.rows[i]? = fb.rows[i]?) ∧
    (∀ i : Nat, fb.ds.limit_bottom < i →
      (fb1.rows[i]?).map Row.copy = (fb.rows[i]?).map Row.copy) := by
  unfold Framebuffer.scroll at h
  split at h
  · exact repeat_step_rows _ (-1) scroll_up_step_eq N.toNat fb fb1 w hT hTB hB hdw hw h
  · exact repeat_step_rows _ 1 scroll_down_step_eq (int32 (-N)).toNat fb fb1 w hT hTB hB hdw hw
      h

theorem get_cell_copy (rows rows1 : List Row) (i j : Nat)
    (h : (rows1[i]?).map Row.copy = (rows[i]?).map Row.copy) :
    (get_cell rows1 { row := i, col := j }).map
        (fun c => (c.overlapping_cell, c.contents, c.overlapped_cells, c.fallback))
      = (get_cell rows { row := i, col := j }).map
        (fun c => (c.overlapping_cell, c.contents, c.overlapped_cells, c.fallback)) := by
  unfold get_cell
  simp only []
  cases h1 : rows1[i]? with
  | none =>
    cases h0 : rows[i]? with
    | none => rfl
    | some r0 => rw [h1, h0] at h; simp at h
  | some r1 =>
    cases h0 : rows[i]? with
    | none => rw [h1, h0] at h; simp at h
    | some r0 =>
      rw [h1, h0] at h
      simp only [Option.map_some', Option.some.injEq, Row.copy, Row.mk.injEq] at h
      simp only [Option.some_bind]
      have hj : (r1.cells.map Cell.copy)[j]? = (r0.cells.map Cell.copy)[j]? := by rw [h]
      simp only [List.getElem?_map] at hj
      cases c1 : r1.cells[j]? with
      | none =>
        cases c0 : r0.cells[j]? with
        | none => rfl
        | some x0 => rw [c1, c0] at hj; simp at hj
      | some x1 =>
        cases c0 : r0.cells[j]? with
        | none => rw [c1, c0] at hj; simp at hj
        | some x0 =>
          rw [c1, c0] at hj
          simp only [Option.map_some', Option.some.injEq, Cell.copy, Cell.mk.injEq] at hj
          simp only [Option.map_some', Option.some.injEq, Prod.mk.injEq]
          exact ⟨hj.1, hj.2.1, hj.2.2.1, hj.2.2.2.1⟩

/-! ## Autoscroll -/

theorem scroll_limits (fb fb1 : Framebuffer) (N : Int) (hT : 0 ≤ fb.ds.limit_top)
    (hTB : fb.ds.limit_top ≤ fb.ds.limit_bottom) (hB : fb.ds.limit_bottom < fb.rows.length)
    (h : fb.scroll N = some fb1) :
    fb1.ds.limit_top = fb.ds.limit_top ∧ fb1.ds.limit_bottom = fb.ds.limit_bottom := by
  obtain ⟨t, ht, _⟩ := scroll_ds fb N hT hTB hB
  rw [ht, Option.some.injEq] at h
  subst h
  simp only []
  split
  · exact ⟨(iterate_move_row_frame (-1) _ fb.ds).2.2.2.2.2.2.2.1,
      (iterate_move_row_frame (-1) _ fb.ds).2.2.2.2.2.2.2.2⟩
  · exact ⟨(iterate_move_row_frame 1 _ fb.ds).2.2.2.2.2.2.2.1,
      (iterate_move_row_frame 1 _ fb.ds).2.2.2.2.2.2.2.2⟩

theorem scroll_up_cursor_row (fb : Framebuffer) (N : Int) (hN : 0 ≤ N)
    (hT : 0 ≤ fb.ds.limit_top) (hB : fb.ds.limit_bottom < fb.rows.length)
    (hB31 : fb.ds.limit_bottom < 2147483647)
    (hr0 : fb.ds.limit_top ≤ fb.ds.cursor_row) (hr1 : fb.ds.cursor_row ≤ fb.ds.limit_bottom) :
    ∃ fb1 : Framebuffer, fb.scroll N = some fb1 ∧
      fb1.ds.limit_top = fb.ds.limit_top ∧ fb1.ds.limit_bottom = fb.ds.limit_bottom ∧
      fb1.ds.cursor_row
        = if fb.ds.cursor_row - N < fb.ds.limit_top then fb.ds.limit_top
          else fb.ds.cursor_row - N := by
  have hTB : fb.ds.limit_top ≤ fb.ds.limit_bottom := le_trans hr0 hr1
  obtain ⟨t, ht, _⟩ := scroll_ds fb N hT hTB hB
  obtain ⟨l1, l2⟩ := scroll_limits fb _ N hT hTB hB ht
  refine ⟨_, ht, l1, l2, ?_⟩
  simp only []
  rw [if_pos hN, iterate_move_row_up _ fb.ds hr0 hr1 hT hB31, Int.toNat_of_nonneg hN]

theorem scroll_down_cursor_row (fb : Framebuffer) (N : Int) (hN : N < 0)
    (hT : 0 ≤ fb.ds.limit_top) (hB : fb.ds.limit_bottom < fb.rows.length)
    (hB31 : fb.ds.limit_bottom < 2147483647)
    (hr0 : fb.ds.limit_top ≤ fb.ds.cursor_row) (hr1 : fb.ds.cursor_row ≤ fb.ds.limit_bottom) :
    ∃ fb1 : Framebuffer, fb.scroll N = some fb1 ∧
      fb1.ds.limit_top = fb.ds.limit_top ∧ fb1.ds.limit_bottom = fb.ds.limit_bottom ∧
      fb1.ds.cursor_row
        = if fb.ds.cursor_row + (int32 (-N)).toNat > fb.ds.limit_bottom then fb.ds.limit_bottom
          else fb.ds.cursor_row + (int32 (-N)).toNat := by
  have hTB : fb.ds.limit_top ≤ fb.ds.limit_bottom := le_trans hr0 hr1
  obtain ⟨t, ht, _⟩ := scroll_ds fb N hT hTB hB
  obtain ⟨l1, l2⟩ := scroll_limits fb _ N hT hTB hB ht
  refine ⟨_, ht, l1, l2, ?_⟩
  simp only []
  rw [if_neg (by omega), iterate_move_row_down _ fb.ds hr0 hr1 hT hB31]

theorem move_rows_autoscroll_down (fb fb1 : Framebuffer) (delta : Int)
    (h : int32 (fb.ds.cursor_row + delta) > fb.ds.limit_bottom)
    (hs : fb.scroll (int32 (int32 (fb.ds.cursor_row + delta) - fb.ds.limit_bottom)) = some fb1) :
    fb.move_rows_autoscroll delta
      = some (Framebuffer.mk fb1.rows (fb1.ds.move_row delta true)) := by
  unfold Framebuffer.move_rows_autoscroll
  rw [if_pos h, hs]
  rfl

theorem move_rows_autoscroll_up (fb fb1 : Framebuffer) (delta : Int)
    (h0 : ¬ int32 (fb.ds.cursor_row + delta) > fb.ds.limit_bottom)
    (h : int32 (fb.ds.cursor_row + delta) < fb.ds.limit_top)
    (hs : fb.scroll (int32 (int32 (fb.ds.cursor_row + delta) - fb.ds.limit_top)) = some fb1) :
    fb.move_rows_autoscroll delta
      = some (Framebuffer.mk fb1.rows (fb1.ds.move_row delta true)) := by
  unfold Framebuffer.move_rows_autoscroll
  rw [if_neg h0, if_pos h, hs]
  rfl

theorem move_rows_autoscroll_stay (fb : Framebuffer) (delta : Int)
    (h0 : ¬ int32 (fb.ds.cursor_row + delta) > fb.ds.limit_bottom)
    (h : ¬ int32 (fb.ds.cursor_row + delta) < fb.ds.limit_top) :
    fb.move_rows_autoscroll delta
      = some (Framebuffer.mk fb.rows (fb.ds.move_row delta true)) := by
  unfold Framebuffer.move_rows_autoscroll
  rw [if_neg h0, if_neg h]
  rfl

/-- C21 as stated fails for a `delta` whose sum with the cursor row leaves the range of
an `int`.  On a fresh 80 by 24 framebuffer with the cursor in row 5 (limits 0 and 23),
`5 + 2147483647 > 23`, so the claim has `move_rows_autoscroll( 2147483647 )` scroll by
`5 + 2147483647 - 23` and end in row 23; the code's sum wraps to `-2147483644`, which is
below `limit_top()`, so it calls `scroll( -2147483644 )` and the cursor ends in row 0. -/
theorem move_rows_autoscroll_wraps :
    ((cursor_in_row_5.rows.length : Int) = cursor_in_row_5.ds.height ∧
      1 ≤ cursor_in_row_5.ds.height ∧
      cursor_in_row_5.ds.limit_top = 0 ∧ cursor_in_row_5.ds.limit_bottom = 23 ∧
      cursor_in_row_5.ds.limit_bottom < cursor_in_row_5.ds.height ∧
      cursor_in_row_5.ds.cursor_row = 5 ∧
      cursor_in_row_5.ds.cursor_row + 2147483647 > cursor_in_row_5.ds.limit_bottom) ∧
    ∃ fb1 : Framebuffer,
      cursor_in_row_5.scroll (-2147483644) = some fb1 ∧
      cursor_in_row_5.move_rows_autoscroll 2147483647
        = some (Framebuffer.mk fb1.rows (fb1.ds.move_row 2147483647 true)) ∧
      (fb1.ds.move_row 2147483647 true).cursor_row = 0 ∧
      (fb1.ds.move_row 2147483647 true).cursor_row ≠ cursor_in_row_5.ds.limit_bottom := by
  refine ⟨⟨by decide, by decide, by decide, by decide, by decide, by decide, by decide⟩, ?_⟩
  obtain ⟨fb1, hs, l1, l2, hc⟩ := scroll_down_cursor_row cursor_in_row_5 (-2147483644)
    (by decide) (by decide) (by decide) (by decide) (by decide) (by decide)
  have e5 : cursor_in_row_5.ds.cursor_row = 5 := by decide
  have eT : cursor_in_row_5.ds.limit_top = 0 := by decide
  have eB : cursor_in_row_5.ds.limit_bottom = 23 := by decide
  have en : ((int32 (- -2147483644)).toNat : Int) = 2147483644 := by decide
  rw [e5, eB, en, if_pos (by decide)] at hc
  rw [eT] at l1
  rw [eB] at l2
  have hfin : (fb1.ds.move_row 2147483647 true).cursor_row = 0 := by
    rw [move_row_cursor_row, l1, l2, hc]
    decide
  refine ⟨fb1, hs, ?_, hfin, ?_⟩
  · refine move_rows_autoscroll_up cursor_in_row_5 fb1 2147483647 ?_ ?_ ?_
    · rw [e5, eB]
      decide
    · rw [e5, eT]
      decide
    · rw [e5, eT]
      exact hs
  · rw [hfin, eB]
    decide

/-- C21 (amended): on a framebuffer of `height >= 1` rows (`height` an `int`) with limits
`0 <= T <= B < height` and the cursor row `r` in `[T, B]`, and for every `int` `delta`
with `r + delta <= 2147483647` (the sum does not overflow),
`move_rows_autoscroll( delta )` returns; when `r + delta > B` it is
`scroll( r + delta - B )` followed by `move_row( delta, true )` and ends with the cursor
in row `B`; when `r + delta < T` it is `scroll( r + delta - T )` followed by
`move_row( delta, true )` and ends with the cursor in row `T`; otherwise it is
`move_row( delta, true )` alone and ends with the cursor in row `r + delta`; the limits
are unchanged. -/
theorem move_rows_autoscroll_spec (fb : Framebuffer) (delta : Int)
    (hlen : (fb.rows.length : Int) = fb.ds.height) (h31 : fb.ds.height < 2147483648)
    (hT : 0 ≤ fb.ds.limit_top) (hB : fb.ds.limit_bottom < fb.ds.height)
    (hr0 : fb.ds.limit_top ≤ fb.ds.cursor_row) (hr1 : fb.ds.cursor_row ≤ fb.ds.limit_bottom)
    (hd : -2147483648 ≤ delta) (hhi : fb.ds.cursor_row + delta ≤ 2147483647) :
    (fb.ds.cursor_row + delta > fb.ds.limit_bottom →
      ∃ fb1 : Framebuffer,
        fb.scroll (fb.ds.cursor_row + delta - fb.ds.limit_bottom) = some fb1 ∧
        fb.move_rows_autoscroll delta
          = some (Framebuffer.mk fb1.rows (fb1.ds.move_row delta true)) ∧
        (fb1.ds.move_row delta true).cursor_row = fb.ds.limit_bottom) ∧
    (fb.ds.cursor_row + delta < fb.ds.limit_top →
      ∃ fb1 : Framebuffer,
        fb.scroll (fb.ds.cursor_row + delta - fb.ds.limit_top) = some fb1 ∧
        fb.move_rows_autoscroll delta
          = some (Framebuffer.mk fb1.rows (fb1.ds.move_row delta true)) ∧
        (fb1.ds.move_row delta true).cursor_row = fb.ds.limit_top) ∧
    (fb.ds.limit_top ≤ fb.ds.cursor_row + delta →
      fb.ds.cursor_row + delta ≤ fb.ds.limit_bottom →
      fb.move_rows_autoscroll delta
        = some (Framebuffer.mk fb.rows (fb.ds.move_row delta true)) ∧
      (fb.ds.move_row delta true).cursor_row = fb.ds.cursor_row + delta) ∧
    (∀ fb2 : Framebuffer, fb.move_rows_autoscroll delta = some fb2 →
      fb2.ds.limit_top = fb.ds.limit_top ∧ fb2.ds.limit_bottom = fb.ds.limit_bottom) := by
  have hBl : fb.ds.limit_bottom < fb.rows.length := by rw [hlen]; exact hB
  have hB31 : fb.ds.limit_bottom < 2147483647 := by omega
  have es : int32 (fb.ds.cursor_row + delta) = fb.ds.cursor_row + delta :=
    int32_of_range _ (by omega) (by omega)
  have down : fb.ds.cursor_row + delta > fb.ds.limit_bottom →
      ∃ fb1 : Framebuffer,
        fb.scroll (fb.ds.cursor_row + delta - fb.ds.limit_bottom) = some fb1 ∧
        fb.move_rows_autoscroll delta
          = some (Framebuffer.mk fb1.rows (fb1.ds.move_row delta true)) ∧
        (fb1.ds.move_row delta true).cursor_row = fb.ds.limit_bottom ∧
        fb1.ds.limit_top = fb.ds.limit_top ∧ fb1.ds.limit_bottom = fb.ds.limit_bottom := by
    intro hov
    obtain ⟨fb1, hs, l1, l2, hc⟩ := scroll_up_cursor_row fb
      (fb.ds.cursor_row + delta - fb.ds.limit_bottom) (by omega) hT hBl hB31 hr0 hr1
    have ea : int32 (int32 (fb.ds.cursor_row + delta) - fb.ds.limit_bottom)
        = fb.ds.cursor_row + delta - fb.ds.limit_bottom := by
      rw [es]
      exact int32_of_range _ (by omega) (by omega)
    refine ⟨fb1, hs, ?_, ?_, l1, l2⟩
    · exact move_rows_autoscroll_down fb fb1 delta (by rw [es]; exact hov) (by rw [ea]; exact hs)
    · have hint : int32 (fb1.ds.cursor_row + delta) = fb1.ds.cursor_row + delta := by
        apply int32_of_range
        · rw [hc]
          split <;> omega
        · rw [hc]
          split <;> omega
      rw [move_row_cursor_row, l1, l2, hint, hc]
      repeat' split
      all_goals omega
  have up : fb.ds.cursor_row + delta < fb.ds.limit_top →
      ∃ fb1 : Framebuffer,
        fb.scroll (fb.ds.cursor_row + delta - fb.ds.limit_top) = some fb1 ∧
        fb.move_rows_autoscroll delta
          = some (Framebuffer.mk fb1.rows (fb1.ds.move_row delta true)) ∧
        (fb1.ds.move_row delta true).cursor_row = fb.ds.limit_top ∧
        fb1.ds.limit_top = fb.ds.limit_top ∧ fb1.ds.limit_bottom = fb.ds.limit_bottom := by
    intro hov
    obtain ⟨fb1, hs, l1, l2, hc⟩ := scroll_down_cursor_row fb
      (fb.ds.cursor_row + delta - fb.ds.limit_top) (by omega) hT hBl hB31 hr0 hr1
    have ea : int32 (int32 (fb.ds.cursor_row + delta) - fb.ds.limit_top)
        = fb.ds.cursor_row + delta - fb.ds.limit_top := by
      rw [es]
      exact int32_of_range _ (by omega) (by omega)
    have hn : (((int32 (-(fb.ds.cursor_row + delta - fb.ds.limit_top))).toNat : Nat) : Int)
          = -(fb.ds.cursor_row + delta - fb.ds.limit_top) ∨
        ((int32 (-(fb.ds.cursor_row + delta - fb.ds.limit_top))).toNat = 0 ∧
          fb.ds.cursor_row + delta - fb.ds.limit_top = -2147483648) := by
      unfold int32
      omega
    refine ⟨fb1, hs, ?_, ?_, l1, l2⟩
    · exact move_rows_autoscroll_up fb fb1 delta (by rw [es]; omega) (by rw [es]; exact hov)
        (by rw [ea]; exact hs)
    · generalize (int32 (-(fb.ds.cursor_row + delta - fb.ds.limit_top))).toNat = n at hc hn
      have hint : int32 (fb1.ds.cursor_row + delta) = fb1.ds.cursor_row + delta := by
        apply int32_of_range
        · rw [hc]
          split <;> omega
        · rw [hc]
          split <;> omega
      rw [move_row_cursor_row, l1, l2, hint, hc]
      repeat' split
      all_goals omega
  refine ⟨?_, ?_, ?_, ?_⟩
  · intro hov
    obtain ⟨fb1, h1, h2, h3, _, _⟩ := down hov
    exact ⟨fb1, h1, h2, h3⟩
  · intro hov
    obtain ⟨fb1, h1, h2, h3, _, _⟩ := up hov
    exact ⟨fb1, h1, h2, h3⟩
  · intro h0 h1
    refine ⟨move_rows_autoscroll_stay fb delta (by rw [es]; omega) (by rw [es]; omega), ?_⟩
    rw [move_row_cursor_row, es]
    repeat' split
    all_goals omega
  · intro fb2 h2
    by_cases c1 : fb.ds.cursor_row + delta > fb.ds.limit_bottom
    · obtain ⟨fb1, _, e, _, l1, l2⟩ := down c1
      rw [e, Option.some.injEq] at h2
      subst h2
      obtain ⟨m1, m2⟩ := move_row_limits fb1.ds delta true
      exact ⟨m1.trans l1, m2.trans l2⟩
    · by_cases c2 : fb.ds.cursor_row + delta < fb.ds.limit_top
      · obtain ⟨fb1, _, e, _, l1, l2⟩ := up c2
        rw [e, Option.some.injEq] at h2
        subst h2
        obtain ⟨m1, m2⟩ := move_row_limits fb1.ds delta true
        exact ⟨m1.trans l1, m2.trans l2⟩
      · rw [move_rows_autoscroll_stay fb delta (by rw [es]; omega) (by rw [es]; omega),
          Option.some.injEq] at h2
        subst h2
        exact move_row_limits fb.ds delta true

/-- A fresh 80 by 24 framebuffer, cursor in row 0: `move_rows_autoscroll( 30 )` scrolls by
`0 + 30 - 23 = 7` and leaves the cursor in row 23. -/
theorem move_rows_autoscroll_spec_witness :
    (∃ fb1 : Framebuffer,
      (Framebuffer.new 80 24).scroll
          ((Framebuffer.new 80 24).ds.cursor_row + 30 - (Framebuffer.new 80 24).ds.limit_bottom)
        = some fb1 ∧
      (Framebuffer.new 80 24).move_rows_autoscroll 30
        = some (Framebuffer.mk fb1.rows (fb1.ds.move_row 30 true)) ∧
      (fb1.ds.move_row 30 true).cursor_row = (Framebuffer.new 80 24).ds.limit_bottom) ∧
    (Framebuffer.new 80 24).ds.cursor_row + 30 - (Framebuffer.new 80 24).ds.limit_bottom = 7 ∧
    (Framebuffer.new 80 24).ds.limit_bottom = 23 :=
  ⟨(move_rows_autoscroll_spec (Framebuffer.new 80 24) 30 (by decide) (by decide) (by decide)
      (by decide) (by decide) (by decide) (by decide) (by decide)).1 (by decide),
   by decide, by decide⟩

/-! ## The frame of `scroll` -/

/-- C22 as stated fails on a framebuffer of width 0 and height 1: its one row has
`width = 0` cells and its limits are `0 <= 0 <= 0 < 1`, yet `scroll( 1 )` changes
`cursor_col` from 0 to -1, because `move_row` snaps the column to `width - 1`. -/
theorem scroll_moves_cursor_col :
    (Framebuffer.new 0 1).ds.height = 1 ∧
    ((Framebuffer.new 0 1).rows.length : Int) = (Framebuffer.new 0 1).ds.height ∧
    (∀ r ∈ (Framebuffer.new 0 1).rows,
      (r.cells.length : Int) = (Framebuffer.new 0 1).ds.width) ∧
    (Framebuffer.new 0 1).ds.limit_top = 0 ∧
    (Framebuffer.new 0 1).ds.limit_bottom = 0 ∧
    (Framebuffer.new 0 1).ds.cursor_col = 0 ∧
    ((Framebuffer.new 0 1).scroll 1).map (fun fb => fb.ds.cursor_col) = some (-1) ∧
    ¬ (∀ fb1 : Framebuffer, (Framebuffer.new 0 1).scroll 1 = some fb1 →
        fb1.ds.cursor_col = (Framebuffer.new 0 1).ds.cursor_col) := by
  refine ⟨by decide, by decide, by decide, by decide, by decide, by decide, by decide, ?_⟩
  intro h
  exact absurd (h _ rfl) (by decide)

/-- On the framebuffer `wide_below_region` (80 by 3, region rows 0 to 1): `scroll( 1 )`
leaves the contents of the cell at row 2, column 3, below the region, and resets its
width from 2 to 1. -/
theorem scroll_resets_width_below_region :
    wide_below_region.ds.limit_top = 0 ∧ wide_below_region.ds.limit_bottom = 1 ∧
    (get_cell wide_below_region.rows { row := 2, col := 3 }).map (fun c => (c.contents, c.width))
      = some ([0x4E2D], 2) ∧
    (wide_below_region.scroll 1).bind
        (fun fb => (get_cell fb.rows { row := 2, col := 3 }).map (fun c => (c.contents, c.width)))
      = some ([0x4E2D], 1) := by
  refine ⟨by decide, by decide, by decide, by decide⟩

/-- C22 (amended): on a framebuffer of `height >= 1` rows of exactly `width` cells each,
with limits `0 <= limit_top() <= limit_bottom() < height`, `scroll( N )` returns for every
`N` without indexing outside the row vector; afterwards there are `height` rows of
`width` cells; every row above `limit_top()` and every row below `limit_bottom()` other
than the last is unchanged; every cell below `limit_bottom()` is unchanged in
`overlapping_cell`, `contents`, `overlapped_cells` and `fallback`; the width, the height,
the origin mode, the scrolling region bounds, the limits and the tab stops are unchanged;
`cursor_col` is unchanged when `0 <= cursor_col < width`; and `scroll( 0 )` changes
nothing. -/
theorem scroll_frame (fb : Framebuffer) (N : Int)
    (hlen : (fb.rows.length : Int) = fb.ds.height)
    (hw : ∀ r ∈ fb.rows, (r.cells.length : Int) = fb.ds.width)
    (hT : 0 ≤ fb.ds.limit_top) (hTB : fb.ds.limit_top ≤ fb.ds.limit_bottom)
    (hB : fb.ds.limit_bottom < fb.ds.height) :
    ∃ fb1 : Framebuffer, fb.scroll N = some fb1 ∧
      (fb1.rows.length : Int) = fb.ds.height ∧
      (∀ r ∈ fb1.rows, (r.cells.length : Int) = fb.ds.width) ∧
      (∀ i : Nat, (i : Int) < fb.ds.limit_top → fb1.rows[i]? = fb.rows[i]?) ∧
      (∀ i : Nat, fb.ds.limit_bottom < i → (i : Int) < fb.ds.height - 1 →
        fb1.rows[i]? = fb.rows[i]?) ∧
      (∀ i j : Nat, fb.ds.limit_bottom < i →
        (get_cell fb1.rows { row := i, col := j }).map
            (fun c => (c.overlapping_cell, c.contents, c.overlapped_cells, c.fallback))
          = (get_cell fb.rows { row := i, col := j }).map
            (fun c => (c.overlapping_cell, c.contents, c.overlapped_cells, c.fallback))) ∧
      fb1.ds.width = fb.ds.width ∧
      fb1.ds.height = fb.ds.height ∧
      fb1.ds.origin_mode = fb.ds.origin_mode ∧
      fb1.ds.scrolling_region_top_row = fb.ds.scrolling_region_top_row ∧
      fb1.ds.scrolling_region_bottom_row = fb.ds.scrolling_region_bottom_row ∧
      fb1.ds.tabs = fb.ds.tabs ∧
      fb1.ds.limit_top = fb.ds.limit_top ∧
      fb1.ds.limit_bottom = fb.ds.limit_bottom ∧
      (0 ≤ fb.ds.cursor_col → fb.ds.cursor_col < fb.ds.width →
        fb1.ds.cursor_col = fb.ds.cursor_col) ∧
      (N = 0 → fb1 = fb) := by
  have hBl : fb.ds.limit_bottom < fb.rows.length := by rw [hlen]; exact hB
  have hpos : 0 < fb.rows.length := by omega
  have hwn : 0 ≤ fb.ds.width := by
    rw [← hw _ (List.getElem_mem hpos)]
    exact Int.natCast_nonneg _
  have hdw : fb.ds.width = (fb.ds.width.toNat : Int) := (Int.toNat_of_nonneg hwn).symm
  have hw1 : ∀ r ∈ fb.rows, r.cells.length = fb.ds.width.toNat := by
    intro r hr
    have := hw r hr
    omega
  obtain ⟨t, ht, htl⟩ := scroll_ds fb N hT hTB hBl
  obtain ⟨g1, g2, g3, g4⟩ := scroll_rows fb _ N fb.ds.width.toNat hT hTB hBl hdw hw1 ht
  have hfr := iterate_move_row_frame (-1) N.toNat fb.ds
  have hfr1 := iterate_move_row_frame 1 (int32 (-N)).toNat fb.ds
  have hcol := iterate_move_row_col (-1) N.toNat fb.ds
  have hcol1 := iterate_move_row_col 1 (int32 (-N)).toNat fb.ds
  refine ⟨_, ht, ?_, ?_, g2, ?_, ?_, ?_, ?_, ?_, ?_, ?_, ?_, ?_, ?_, ?_, ?_⟩
  · show (t.length : Int) = fb.ds.height
    rw [htl, hlen]
  · intro r hr
    rw [g1 r hr, ← hdw]
  · intro i hi hin
    exact g3 i hi (by omega)
  · intro i j hi
    exact get_cell_copy fb.rows _ i j (g4 i hi)
  · simp only []
    split
    · exact hfr.1
    · exact hfr1.1
  · simp only []
    split
    · exact hfr.2.1
    · exact hfr1.2.1
  · simp only []
    split
    · exact hfr.2.2.1
    · exact hfr1.2.2.1
  · simp only []
    split
    · exact hfr.2.2.2.1
    · exact hfr1.2.2.2.1
  · simp only []
    split
    · exact hfr.2.2.2.2.1
    · exact hfr1.2.2.2.2.1
  · simp only []
    split
    · exact hfr.2.2.2.2.2.1
    · exact hfr1.2.2.2.2.2.1
  · simp only []
    split
    · exact hfr.2.2.2.2.2.2.2.1
    · exact hfr1.2.2.2.2.2.2.2.1
  · simp only []
    split
    · exact hfr.2.2.2.2.2.2.2.2
    · exact hfr1.2.2.2.2.2.2.2.2
  · intro h0 h1
    simp only []
    split
    · exact hcol h0 h1
    · exact hcol1 h0 h1
  · intro hN
    subst hN
    have h0 : fb.scroll 0 = some fb := rfl
    rw [h0, Option.some.injEq] at ht
    exact ht.symm

/-- The framebuffer `wide_below_region` (80 by 3, region rows 0 to 1, cursor at column 0):
`scroll( 1 )` returns and leaves `cursor_col` at 0. -/
theorem scroll_frame_witness :
    ∃ fb1 : Framebuffer, wide_below_region.scroll 1 = some fb1 ∧
      (fb1.rows.length : Int) = wide_below_region.ds.height ∧
      fb1.ds.tabs = wide_below_region.ds.tabs ∧
      fb1.ds.cursor_col = wide_below_region.ds.cursor_col := by
  obtain ⟨fb1, h1, h2, _, _, _, _, _, _, _, _, _, h3, _, _, h4, _⟩ :=
    scroll_frame wide_below_region 1 (by decide) (by decide) (by decide) (by decide) (by decide)
  exact ⟨fb1, h1, h2, h3, h4 (by decide) (by decide)⟩

end Terminal
